import Mathlib

/-!
# CALC-CRC: a shallow embedding of `src/src/calc_crc.c`

Conventions of the embedding.

* Unsigned machine integers are natural numbers.  Every assignment to a `uintN_t` object is
  written with an explicit `% 2 ^ N`, the conversion C performs on that assignment; a widening
  conversion of a value already below `2 ^ N` is the identity.
* `size_t` is 64 bits wide (`_calc_table_crc64` shifts a `size_t` left by 56 bits, which
  presupposes that width), so `update_chunk++` wraps at `2 ^ 64`.
* A pointer argument to an object is an `Option` holding the object's content (`none` is `NULL`);
  the function returns the content after the call.
* The `void *conf` of a session is a handle into a `Memory` of configuration objects.  The four
  configuration structs of the source have the same fields and differ only in the integer type
  of the fields; they are one structure here, and the width is the one the pointer is cast to.
* A buffer `data` of `length` bytes is a list; the loop `for (i = 0; i < length; i++)` over
  `data[i]` is a left fold over `data.take length`.
* `CALC_CRC_Calculate` and `CALC_CRC_Update` return `none` where the C program has no defined
  behaviour: the session's `conf` is `NULL` when it is dereferenced, or `length` exceeds the
  buffer.
-/

namespace CalcCrc

/-! ## Types (`calc_crc_gtypes.h`) -/

/-- Response status of a function (`calc_crc_status_e`). -/
inductive calc_crc_status_e
  | CALC_CRC_STATUS_OK
  | CALC_CRC_STATUS_ERROR
  | CALC_CRC_STATUS_ERROR_INPUT_ARGS
  | CALC_CRC_STATUS_ERROR_INVALID_TYPE
  | CALC_CRC_STATUS_ERROR_UPDATE_NOT_STARTED
  | CALC_CRC_STATUS_MAX
  deriving DecidableEq

open calc_crc_status_e

/-! The type tag `calc_crc_type_e` is a C enumeration, an unsigned integer: a natural number,
with the enumerators as constants. -/

def CALC_CRC_TYPE_8BIT : Nat := 0
def CALC_CRC_TYPE_16BIT : Nat := 1
def CALC_CRC_TYPE_32BIT : Nat := 2
def CALC_CRC_TYPE_64BIT : Nat := 3
def CALC_CRC_TYPE_MAX : Nat := 4

def CALC_CRC_8BIT_POLYNOMIAL : Nat := 0x07
def CALC_CRC_16BIT_POLYNOMIAL : Nat := 0x1021
def CALC_CRC_32BIT_POLYNOMIAL : Nat := 0x04C11DB7
def CALC_CRC_64BIT_POLYNOMIAL : Nat := 0x42F0E1EBA9EA3693

/-- Number of values of a `size_t`. -/
def SIZE_T_RANGE : Nat := 2 ^ 64

/-- A CRC configuration (`calc_crc_8bit_t`, `calc_crc_16bit_t`, `calc_crc_32bit_t`,
`calc_crc_64bit_t`): lookup table, polynomial, initial value, final XOR value and the two
reflection flags. -/
structure calc_crc_conf where
  table : List Nat
  polynomial : Nat
  initial_value : Nat
  final_value : Nat
  input_reflected : Bool
  output_reflected : Bool
  deriving DecidableEq

abbrev calc_crc_8bit_t := calc_crc_conf
abbrev calc_crc_16bit_t := calc_crc_conf
abbrev calc_crc_32bit_t := calc_crc_conf
abbrev calc_crc_64bit_t := calc_crc_conf

/-- A CRC computation object (`calc_crc_t`). -/
structure calc_crc_t where
  conf : Option Nat
  update_crc : Nat
  update_crc_final : Nat
  update_chunk : Nat
  type : Nat
  update_in_progress : Bool
  deriving DecidableEq

/-- Configuration objects, by handle. -/
abbrev Memory := Nat → calc_crc_conf

/-! ## Reflection (`_reflect_crc8` .. `_reflect_crc64`) -/

def _reflect_crc8 (data : Nat) : Nat :=
  (List.range 8).foldl
    (fun reflection i =>
      if data &&& (1 <<< i) ≠ 0 then reflection ||| (1 <<< (7 - i)) else reflection) 0

def _reflect_crc16 (data : Nat) : Nat :=
  (List.range 16).foldl
    (fun reflection i =>
      if data &&& (1 <<< i) ≠ 0 then reflection ||| (1 <<< (15 - i)) else reflection) 0

def _reflect_crc32 (data : Nat) : Nat :=
  (List.range 32).foldl
    (fun reflection i =>
      if data &&& (1 <<< i) ≠ 0 then reflection ||| (1 <<< (31 - i)) else reflection) 0

def _reflect_crc64 (data : Nat) : Nat :=
  (List.range 64).foldl
    (fun reflection i =>
      if data &&& (1 <<< i) ≠ 0 then reflection ||| (1 <<< (63 - i)) else reflection) 0

/-! ## Table construction (`_calc_table_crc8` .. `_calc_table_crc64`)

The C functions fill the 256 entries of the table they are given; here they return the table. -/

def _calc_table_crc8 (polynomial : Nat) : List Nat :=
  (List.range 256).map fun dividend =>
    (List.range 8).foldl
      (fun cbyte _ =>
        if cbyte &&& 0x80 ≠ 0 then (((cbyte <<< 1) % 2 ^ 8) ^^^ polynomial) % 2 ^ 8
        else (cbyte <<< 1) % 2 ^ 8)
      (dividend % 2 ^ 8)

def _calc_table_crc16 (polynomial : Nat) : List Nat :=
  (List.range 256).map fun dividend =>
    (List.range 8).foldl
      (fun cbyte _ =>
        if cbyte &&& 0x8000 ≠ 0 then (((cbyte <<< 1) % 2 ^ 16) ^^^ polynomial) % 2 ^ 16
        else (cbyte <<< 1) % 2 ^ 16)
      ((dividend <<< 8) % 2 ^ 16)

def _calc_table_crc32 (polynomial : Nat) : List Nat :=
  (List.range 256).map fun dividend =>
    (List.range 8).foldl
      (fun cbyte _ =>
        if cbyte &&& 0x80000000 ≠ 0 then (((cbyte <<< 1) % 2 ^ 32) ^^^ polynomial) % 2 ^ 32
        else (cbyte <<< 1) % 2 ^ 32)
      ((dividend <<< 24) % 2 ^ 32)

def _calc_table_crc64 (polynomial : Nat) : List Nat :=
  (List.range 256).map fun dividend =>
    (List.range 8).foldl
      (fun cbyte _ =>
        if cbyte &&& 0x8000000000000000 ≠ 0 then
          (((cbyte <<< 1) % 2 ^ 64) ^^^ polynomial) % 2 ^ 64
        else (cbyte <<< 1) % 2 ^ 64)
      ((dividend <<< 56) % 2 ^ 64)

/-! ## Per-width computation (`_calc_crc8` .. `_calc_crc64`)

Each function returns the value it returns in C together with the session it leaves behind
(`UPDATE_CRC()` stores the accumulator in `update_crc`, `UPDATE_FINAL()` the adjusted value in
`update_crc_final`). -/

/-- The block shared by the four functions: when an update is in progress, resume from
`update_crc` unless this is the first chunk, and count the chunk. -/
def update_start (bits : Nat) (crc : calc_crc_t) (result : Nat) : Nat × calc_crc_t :=
  if crc.update_in_progress = true then
    (if crc.update_chunk ≠ 0 then crc.update_crc % 2 ^ bits else result,
      { crc with update_chunk := (crc.update_chunk + 1) % SIZE_T_RANGE })
  else (result, crc)

def _calc_crc8 (crc : calc_crc_t) (conf : calc_crc_8bit_t) (data : List Nat) (length : Nat) :
    Nat × calc_crc_t :=
  let result := conf.initial_value % 2 ^ 8
  let (result, crc) := update_start 8 crc result
  let result := (data.take length).foldl
    (fun result d =>
      let byte := (if conf.input_reflected then _reflect_crc8 d else d) % 2 ^ 8
      (conf.table.getD (result ^^^ byte) 0) % 2 ^ 8)
    result
  let crc := { crc with update_crc := result }
  let result := (result ^^^ conf.final_value) % 2 ^ 8
  let result := if conf.output_reflected then _reflect_crc8 result else result
  let crc := { crc with update_crc_final := result }
  (result, crc)

def _calc_crc16 (crc : calc_crc_t) (conf : calc_crc_16bit_t) (data : List Nat) (length : Nat) :
    Nat × calc_crc_t :=
  let result := conf.initial_value % 2 ^ 16
  let (result, crc) := update_start 16 crc result
  let result := (data.take length).foldl
    (fun result d =>
      let byte := (if conf.input_reflected then _reflect_crc8 d else d) % 2 ^ 8
      let pos := ((result >>> 8) ^^^ byte) % 2 ^ 8
      (((result <<< 8) % 2 ^ 16) ^^^ conf.table.getD pos 0) % 2 ^ 16)
    result
  let crc := { crc with update_crc := result }
  let result := (result ^^^ conf.final_value) % 2 ^ 16
  let result := if conf.output_reflected then _reflect_crc16 result else result
  let crc := { crc with update_crc_final := result }
  (result, crc)

def _calc_crc32 (crc : calc_crc_t) (conf : calc_crc_32bit_t) (data : List Nat) (length : Nat) :
    Nat × calc_crc_t :=
  let result := conf.initial_value % 2 ^ 32
  let (result, crc) := update_start 32 crc result
  let result := (data.take length).foldl
    (fun result d =>
      let byte := (if conf.input_reflected then _reflect_crc8 d else d) % 2 ^ 8
      let pos := ((result ^^^ ((byte <<< 24) % 2 ^ 32)) >>> 24) % 2 ^ 8
      (((result <<< 8) % 2 ^ 32) ^^^ conf.table.getD pos 0) % 2 ^ 32)
    result
  let crc := { crc with update_crc := result }
  let result := (result ^^^ conf.final_value) % 2 ^ 32
  let result := if conf.output_reflected then _reflect_crc32 result else result
  let crc := { crc with update_crc_final := result }
  (result, crc)

def _calc_crc64 (crc : calc_crc_t) (conf : calc_crc_64bit_t) (data : List Nat) (length : Nat) :
    Nat × calc_crc_t :=
  let result := conf.initial_value % 2 ^ 64
  let (result, crc) := update_start 64 crc result
  let result := (data.take length).foldl
    (fun result d =>
      let byte := (if conf.input_reflected then _reflect_crc8 d else d) % 2 ^ 8
      let pos := ((result ^^^ ((byte <<< 56) % 2 ^ 64)) >>> 56) % 2 ^ 8
      (((result <<< 8) % 2 ^ 64) ^^^ conf.table.getD pos 0) % 2 ^ 64)
    result
  let crc := { crc with update_crc := result }
  let result := (result ^^^ conf.final_value) % 2 ^ 64
  let result := if conf.output_reflected then _reflect_crc64 result else result
  let crc := { crc with update_crc_final := result }
  (result, crc)

/-! ## Public functions -/

/-- What `CALC_CRC_Init` returns and leaves behind: the configuration memory and the session. -/
structure init_ret where
  status : calc_crc_status_e
  mem : Memory
  crc : Option calc_crc_t

/-- What `CALC_CRC_Calculate` and `CALC_CRC_Finalize` return and leave behind: the session and
the content of the result location. -/
structure calc_ret where
  status : calc_crc_status_e
  crc : Option calc_crc_t
  result : Option Nat
  deriving DecidableEq

/-- What `CALC_CRC_Update` returns and leaves behind. -/
structure update_ret where
  status : calc_crc_status_e
  crc : Option calc_crc_t
  deriving DecidableEq

def CALC_CRC_Init (mem : Memory) (crc : Option calc_crc_t) (conf : Option Nat)
    (type : Nat) : init_ret :=
  match crc, conf with
  | none, _ => ⟨CALC_CRC_STATUS_ERROR_INPUT_ARGS, mem, crc⟩
  | some _, none => ⟨CALC_CRC_STATUS_ERROR_INPUT_ARGS, mem, crc⟩
  | some _, some p =>
    if CALC_CRC_TYPE_MAX ≤ type then ⟨CALC_CRC_STATUS_ERROR_INVALID_TYPE, mem, crc⟩
    else
      -- MEMSET(crc, 0, sizeof(calc_crc_t))
      let c : calc_crc_t :=
        { conf := none, update_crc := 0, update_crc_final := 0, update_chunk := 0, type := 0,
          update_in_progress := false }
      let c := { c with type := type }
      let c := { c with conf := some p }
      let ptr := mem p
      let mem :=
        if type = CALC_CRC_TYPE_8BIT then
          Function.update mem p { ptr with table := _calc_table_crc8 ptr.polynomial }
        else if type = CALC_CRC_TYPE_16BIT then
          Function.update mem p { ptr with table := _calc_table_crc16 ptr.polynomial }
        else if type = CALC_CRC_TYPE_32BIT then
          Function.update mem p { ptr with table := _calc_table_crc32 ptr.polynomial }
        else if type = CALC_CRC_TYPE_64BIT then
          Function.update mem p { ptr with table := _calc_table_crc64 ptr.polynomial }
        else mem
      ⟨CALC_CRC_STATUS_OK, mem, some c⟩

def CALC_CRC_Calculate (mem : Memory) (crc : Option calc_crc_t) (data : Option (List Nat))
    (length : Nat) (result : Option Nat) : Option calc_ret :=
  match crc, data, result with
  | none, _, _ => some ⟨CALC_CRC_STATUS_ERROR_INPUT_ARGS, crc, result⟩
  | some _, none, _ => some ⟨CALC_CRC_STATUS_ERROR_INPUT_ARGS, crc, result⟩
  | some _, some _, none => some ⟨CALC_CRC_STATUS_ERROR_INPUT_ARGS, crc, result⟩
  | some c, some d, some r =>
    if length = 0 then some ⟨CALC_CRC_STATUS_ERROR_INPUT_ARGS, crc, result⟩
    else if CALC_CRC_TYPE_MAX ≤ c.type then some ⟨CALC_CRC_STATUS_ERROR_INVALID_TYPE, crc, result⟩
    else
      match c.conf with
      | none => none
      | some p =>
        if d.length < length then none
        else
          let conf := mem p
          if c.type = CALC_CRC_TYPE_8BIT then
            let (value, c) := _calc_crc8 c conf d length
            some ⟨CALC_CRC_STATUS_OK, some c, some value⟩
          else if c.type = CALC_CRC_TYPE_16BIT then
            let (value, c) := _calc_crc16 c conf d length
            some ⟨CALC_CRC_STATUS_OK, some c, some value⟩
          else if c.type = CALC_CRC_TYPE_32BIT then
            let (value, c) := _calc_crc32 c conf d length
            some ⟨CALC_CRC_STATUS_OK, some c, some value⟩
          else if c.type = CALC_CRC_TYPE_64BIT then
            let (value, c) := _calc_crc64 c conf d length
            some ⟨CALC_CRC_STATUS_OK, some c, some value⟩
          else some ⟨CALC_CRC_STATUS_OK, some c, some r⟩

def CALC_CRC_Update (mem : Memory) (crc : Option calc_crc_t) (data : Option (List Nat))
    (length : Nat) : Option update_ret :=
  match crc, data with
  | none, _ => some ⟨CALC_CRC_STATUS_ERROR_INPUT_ARGS, crc⟩
  | some _, none => some ⟨CALC_CRC_STATUS_ERROR_INPUT_ARGS, crc⟩
  | some c, some d =>
    if length = 0 then some ⟨CALC_CRC_STATUS_ERROR_INPUT_ARGS, crc⟩
    else if CALC_CRC_TYPE_MAX ≤ c.type then some ⟨CALC_CRC_STATUS_ERROR_INVALID_TYPE, crc⟩
    else
      let c :=
        if c.update_in_progress = false then
          { c with update_crc := 0, update_chunk := 0, update_in_progress := true }
        else c
      -- uint64_t output = 0;
      match CALC_CRC_Calculate mem (some c) (some d) length (some 0) with
      | none => none
      | some r =>
        if r.status ≠ CALC_CRC_STATUS_OK then
          some ⟨r.status, r.crc.map fun c => { c with update_in_progress := false }⟩
        else some ⟨r.status, r.crc⟩

def CALC_CRC_Finalize (crc : Option calc_crc_t) (result : Option Nat) : calc_ret :=
  match crc, result with
  | none, _ => ⟨CALC_CRC_STATUS_ERROR_INPUT_ARGS, crc, result⟩
  | some _, none => ⟨CALC_CRC_STATUS_ERROR_INPUT_ARGS, crc, result⟩
  | some c, some r =>
    if c.update_in_progress = false then ⟨CALC_CRC_STATUS_ERROR_UPDATE_NOT_STARTED, crc, result⟩
    else
      let output :=
        if c.type = CALC_CRC_TYPE_8BIT then c.update_crc_final % 2 ^ 8
        else if c.type = CALC_CRC_TYPE_16BIT then c.update_crc_final % 2 ^ 16
        else if c.type = CALC_CRC_TYPE_32BIT then c.update_crc_final % 2 ^ 32
        else if c.type = CALC_CRC_TYPE_64BIT then c.update_crc_final % 2 ^ 64
        else r
      ⟨CALC_CRC_STATUS_OK, some { c with update_in_progress := false }, some output⟩

/-- Feed the chunks to `CALC_CRC_Update` one after the other; the statuses in call order and the
session after the last call. -/
def update_chunks (mem : Memory) :
    Option calc_crc_t → List (List Nat) → Option (List calc_crc_status_e × Option calc_crc_t)
  | crc, [] => some ([], crc)
  | crc, chunk :: rest =>
    match CALC_CRC_Update mem crc (some chunk) chunk.length with
    | none => none
    | some r =>
      match update_chunks mem r.crc rest with
      | none => none
      | some (statuses, crc) => some (r.status :: statuses, crc)

/-! ## The computation by width tag

The per-byte update, the reflection and the final adjustment of the four `_calc_crcN`, selected by
the type tag as the `switch` of `CALC_CRC_Calculate` selects the function. -/

/-- Bits of the CRC selected by a type tag. -/
def crc_bits (type : Nat) : Nat :=
  if type = CALC_CRC_TYPE_8BIT then 8
  else if type = CALC_CRC_TYPE_16BIT then 16
  else if type = CALC_CRC_TYPE_32BIT then 32
  else 64

/-- Reflection of the width-sized word: `_reflect_crcN` for the width of the tag. -/
def crc_reflect (type : Nat) (data : Nat) : Nat :=
  if type = CALC_CRC_TYPE_8BIT then _reflect_crc8 data
  else if type = CALC_CRC_TYPE_16BIT then _reflect_crc16 data
  else if type = CALC_CRC_TYPE_32BIT then _reflect_crc32 data
  else _reflect_crc64 data

/-- Table built for the width of the tag: `_calc_table_crcN`. -/
def build_table (type : Nat) (polynomial : Nat) : List Nat :=
  if type = CALC_CRC_TYPE_8BIT then _calc_table_crc8 polynomial
  else if type = CALC_CRC_TYPE_16BIT then _calc_table_crc16 polynomial
  else if type = CALC_CRC_TYPE_32BIT then _calc_table_crc32 polynomial
  else _calc_table_crc64 polynomial

/-- Body of the byte loop of `_calc_crcN`: the table-lookup update of the accumulator `result`
with the data byte `d`. -/
def crc_step (type : Nat) (conf : calc_crc_conf) (result d : Nat) : Nat :=
  let byte := (if conf.input_reflected then _reflect_crc8 d else d) % 2 ^ 8
  if type = CALC_CRC_TYPE_8BIT then
    (conf.table.getD (result ^^^ byte) 0) % 2 ^ 8
  else if type = CALC_CRC_TYPE_16BIT then
    let pos := ((result >>> 8) ^^^ byte) % 2 ^ 8
    (((result <<< 8) % 2 ^ 16) ^^^ conf.table.getD pos 0) % 2 ^ 16
  else if type = CALC_CRC_TYPE_32BIT then
    let pos := ((result ^^^ ((byte <<< 24) % 2 ^ 32)) >>> 24) % 2 ^ 8
    (((result <<< 8) % 2 ^ 32) ^^^ conf.table.getD pos 0) % 2 ^ 32
  else
    let pos := ((result ^^^ ((byte <<< 56) % 2 ^ 64)) >>> 56) % 2 ^ 8
    (((result <<< 8) % 2 ^ 64) ^^^ conf.table.getD pos 0) % 2 ^ 64

/-- The byte loop: the accumulator after the bytes, from the starting value `start`. -/
def crc_fold (type : Nat) (conf : calc_crc_conf) (start : Nat) (bytes : List Nat) :
    Nat :=
  bytes.foldl (crc_step type conf) start

/-- The final adjustment: XOR with `final_value`, then reflection of the word when
`output_reflected` is set. -/
def crc_adjust (type : Nat) (conf : calc_crc_conf) (acc : Nat) : Nat :=
  let result := (acc ^^^ conf.final_value) % 2 ^ crc_bits type
  if conf.output_reflected then crc_reflect type result else result

/-- The four `_calc_crcN` as one function of the type tag. -/
def calc_crc (type : Nat) (crc : calc_crc_t) (conf : calc_crc_conf)
    (data : List Nat) (length : Nat) : Nat × calc_crc_t :=
  let start := update_start (crc_bits type) crc (conf.initial_value % 2 ^ crc_bits type)
  let acc := crc_fold type conf start.1 (data.take length)
  let result := crc_adjust type conf acc
  (result, { start.2 with update_crc := acc, update_crc_final := result })

/-! ## Definitions used by the statements and proofs -/

/-- The loop of `_reflect_crcN` for a word of `w` bits, stopped after `n` rounds. -/
def reflect_loop (w data n : Nat) : Nat :=
  (List.range n).foldl
    (fun reflection i =>
      if data &&& (1 <<< i) ≠ 0 then reflection ||| (1 <<< (w - 1 - i)) else reflection) 0

/-! ## Data of the test-suite (`tests/ctest/src/tests/main.c`) -/

/-- The nine ASCII bytes `"123456789"`. -/
def check_data : List Nat := [0x31, 0x32, 0x33, 0x34, 0x35, 0x36, 0x37, 0x38, 0x39]

/-- A configuration as the tests declare it: no table yet, both reflections off. -/
def test_conf (polynomial initial_value final_value : Nat) : calc_crc_conf :=
  { table := [], polynomial := polynomial, initial_value := initial_value,
    final_value := final_value, input_reflected := false, output_reflected := false }

/-- A memory that holds the configuration `conf` at every handle. -/
def mem_of (conf : calc_crc_conf) : Memory := fun _ => conf

/-- A session object before `CALC_CRC_Init`: arbitrary content. -/
def stale_crc : calc_crc_t :=
  { conf := none, update_crc := 0xDEAD, update_crc_final := 0xBEEF, update_chunk := 3, type := 9,
    update_in_progress := true }

/-! ## A session at the top of the range of the chunk counter -/

/-- One call of the public interface; `crc` tells whether the session pointer is the address of
the session object (`true`) or `NULL` (`false`). -/
inductive api_call
  | init (crc : Bool) (conf : Option Nat) (type : Nat)
  | calculate (crc : Bool) (data : Option (List Nat)) (length : Nat) (result : Option Nat)
  | update (crc : Bool) (data : Option (List Nat)) (length : Nat)
  | finalize (crc : Bool) (result : Option Nat)

/-- What the calls act on: the configuration memory and the session object. -/
structure api_state where
  mem : Memory
  crc : calc_crc_t

/-- The status a call returns and the state it leaves; `none` where the call has no defined
behaviour. -/
def api_step (s : api_state) : api_call → Option (calc_crc_status_e × api_state)
  | api_call.init crc conf type =>
    let r := CALC_CRC_Init s.mem (if crc then some s.crc else none) conf type
    some (r.status, ⟨r.mem, r.crc.getD s.crc⟩)
  | api_call.calculate crc data length result =>
    (CALC_CRC_Calculate s.mem (if crc then some s.crc else none) data length result).map
      fun r => (r.status, ⟨s.mem, r.crc.getD s.crc⟩)
  | api_call.update crc data length =>
    (CALC_CRC_Update s.mem (if crc then some s.crc else none) data length).map
      fun r => (r.status, ⟨s.mem, r.crc.getD s.crc⟩)
  | api_call.finalize crc result =>
    let r := CALC_CRC_Finalize (if crc then some s.crc else none) result
    some (r.status, ⟨s.mem, r.crc.getD s.crc⟩)

/-- The statuses of a sequence of calls, in call order, and the state after the last call. -/
def api_run (s : api_state) : List api_call → Option (List calc_crc_status_e × api_state)
  | [] => some ([], s)
  | call :: rest =>
    match api_step s call with
    | none => none
    | some (status, s') =>
      match api_run s' rest with
      | none => none
      | some (statuses, s'') => some (status :: statuses, s'')

/-- The call is a `CALC_CRC_Update`. -/
def is_update : api_call → Bool
  | api_call.update _ _ _ => true
  | _ => false

/-- The call is a `CALC_CRC_Init` or a `CALC_CRC_Finalize`. -/
def is_init_or_finalize : api_call → Bool
  | api_call.init _ _ _ => true
  | api_call.finalize _ _ => true
  | _ => false

/-- The event (a call and the status it returned) is a `CALC_CRC_Init` or a `CALC_CRC_Finalize`
that returned OK. -/
def is_reset (e : api_call × calc_crc_status_e) : Bool :=
  is_init_or_finalize e.1 && decide (e.2 = CALC_CRC_STATUS_OK)

/-- The event is a `CALC_CRC_Update` that returned OK. -/
def is_update_ok (e : api_call × calc_crc_status_e) : Bool :=
  is_update e.1 && decide (e.2 = CALC_CRC_STATUS_OK)

/-- What one event does to `update_in_progress`, as the invariant of the data model tells it. -/
def in_progress_after (flag : Bool) (e : api_call × calc_crc_status_e) : Bool :=
  if is_reset e then false else if is_update_ok e then true else flag

/-- What holds of the session in every state a sequence of calls reaches after a successful
init: it holds a config handle, its type tag is in range and `update_crc` is a value of the
width. -/
def api_inv (s : api_state) : Prop :=
  s.crc.conf ≠ none ∧ s.crc.type < CALC_CRC_TYPE_MAX ∧
    s.crc.update_crc < 2 ^ crc_bits s.crc.type

/-- The accumulator the call left in `s'` is the byte loop over the first `length` bytes of `d`
started from the configuration's `initial_value`. -/
def starts_from_initial (s s' : api_state) (d : List Nat) (length : Nat) : Prop :=
  ∃ q, s.crc.conf = some q ∧
    s'.crc.update_crc = crc_fold s.crc.type (s.mem q)
      ((s.mem q).initial_value % 2 ^ crc_bits s.crc.type) (d.take length)

/-- The accumulator the call left in `s'` is the byte loop over the first `length` bytes of `d`
started from the `update_crc` of `s`. -/
def starts_from_running (s s' : api_state) (d : List Nat) (length : Nat) : Prop :=
  ∃ q, s.crc.conf = some q ∧
    s'.crc.update_crc = crc_fold s.crc.type (s.mem q) s.crc.update_crc (d.take length)

/-- The state before the first call of a test: the 8-bit configuration of the tests in memory
and a session object that holds stale content. -/
def test_state : api_state := ⟨mem_of (test_conf 0x07 0xFF 0xFF), stale_crc⟩

/-- The caller writes `initial_value`, `final_value` and the two reflection flags of the
configuration at handle `p`, as the tests do between two calls; the table stays as it is. -/
def set_params (mem : Memory) (p : Nat) (initial_value final_value : Nat)
    (input_reflected output_reflected : Bool) : Memory :=
  Function.update mem p
    { mem p with
      initial_value := initial_value, final_value := final_value,
      input_reflected := input_reflected, output_reflected := output_reflected }

/-- The status and the value written by `CALC_CRC_Calculate` over `"123456789"` right after
`CALC_CRC_Init` on the configuration `conf`, as the caller declared it. -/
def declared_value (type : Nat) (conf : calc_crc_conf) :
    Option (calc_crc_status_e × Option Nat) :=
  let i := CALC_CRC_Init (mem_of conf) (some stale_crc) (some 1) type
  (CALC_CRC_Calculate i.mem i.crc (some check_data) 9 (some 0)).map fun r => (r.status, r.result)

/-- The sequence of the tests `test_calc_crc_calculate_Nbit_valid` after their first check: one
`CALC_CRC_Init` on a configuration with the polynomial `polynomial` and all-ones initial and
final value; the caller then sets the initial and final value to 0 and calls
`CALC_CRC_Calculate` over `"123456789"`, sets both reflection flags and calls it again, clears
the input reflection and calls it a third time, on the same session and configuration with no
further init. The statuses and the values written, in call order. -/
def toggle_results (type polynomial : Nat) : Option (List (calc_crc_status_e × Option Nat)) :=
  let i := CALC_CRC_Init
    (mem_of (test_conf polynomial (2 ^ crc_bits type - 1) (2 ^ crc_bits type - 1)))
    (some stale_crc) (some 1) type
  let mem1 := set_params i.mem 1 0 0 false false
  (CALC_CRC_Calculate mem1 i.crc (some check_data) 9 (some 0)).bind fun r1 =>
  let mem2 := set_params mem1 1 0 0 true true
  (CALC_CRC_Calculate mem2 r1.crc (some check_data) 9 r1.result).bind fun r2 =>
  let mem3 := set_params mem2 1 0 0 false true
  (CALC_CRC_Calculate mem3 r2.crc (some check_data) 9 r2.result).map fun r3 =>
    [(r1.status, r1.result), (r2.status, r2.result), (r3.status, r3.result)]

/-- A state in which a sequence was finalized: the 8-bit configuration of the tests with its
table built, and a session with no update in progress whose counter still holds the seven
chunks of the sequence that was finalized. -/
def finalized_state : api_state :=
  ⟨(CALC_CRC_Init test_state.mem (some test_state.crc) (some 1) CALC_CRC_TYPE_8BIT).mem,
    { conf := some 1, update_crc := 0xFB, update_crc_final := 0x04, update_chunk := 7,
      type := CALC_CRC_TYPE_8BIT, update_in_progress := false }⟩

/-- The call is a `CALC_CRC_Init`. -/
def is_init : api_call → Bool
  | api_call.init _ _ _ => true
  | _ => false

/-- The field `update_crc_final` of the session is a value of the width of its type tag. -/
def final_inv (s : api_state) : Prop :=
  s.crc.update_crc_final < 2 ^ crc_bits s.crc.type

/-! ## The bit-serial CRC of the specification

These three definitions follow the words of the specification, not the source; the theorems
compare them with `crc_step` and `crc_fold`, which are the source's byte loop. -/

/-- One bit of the bit-serial CRC, as the specification words it: shift the `w`-bit register
left by one bit, truncated to `w` bits, and XOR the polynomial in when the bit shifted out
was 1. -/
def spec_bit_step (w polynomial reg : Nat) : Nat :=
  if reg.testBit (w - 1) then ((reg <<< 1) % 2 ^ w) ^^^ polynomial else (reg <<< 1) % 2 ^ w

/-- One byte of the bit-serial CRC, as the specification words it: XOR the byte into the top
byte of the register, then do the bit step eight times. -/
def spec_byte_step (w polynomial reg b : Nat) : Nat :=
  (spec_bit_step w polynomial)^[8] (reg ^^^ (b <<< (w - 8)))

/-- The register of the bit-serial forward CRC after the bytes, from the register `start`. -/
def spec_bit_serial (w polynomial start : Nat) (bytes : List Nat) : Nat :=
  bytes.foldl (spec_byte_step w polynomial) start

/-- The table-driven step, as the specification words it: the index is the top byte of the
register XOR the byte, the new register is the register shifted left by 8, truncated to `w`
bits, XOR the table entry at the index. -/
def spec_table_step (w : Nat) (table : List Nat) (reg b : Nat) : Nat :=
  ((reg <<< 8) % 2 ^ w) ^^^ table.getD ((reg >>> (w - 8)) ^^^ b) 0

/-- The byte the loop of `_calc_crcN` feeds to the table for the data byte `d`: reversed by
`_reflect_crc8` when `input_reflected` is set. -/
def input_byte (conf : calc_crc_conf) (d : Nat) : Nat :=
  (if conf.input_reflected then _reflect_crc8 d else d) % 2 ^ 8

/-! ## The Rocksoft-model CRC of the specification

These definitions follow the words of the specification too. -/

/-- The word `x` bit-reversed over `w` bits: bit `i` of `x`, for `i` below `w`, becomes bit
`w - 1 - i`. The bits of `x` are pushed in from the right, lowest first. -/
def spec_bit_reverse (w x : Nat) : Nat :=
  (List.range w).foldl (fun acc i => 2 * acc + (x.testBit i).toNat) 0

/-- The Rocksoft-model CRC of the bytes for the parameters (width, poly, init, refin, refout,
xorout): the register after the MSB-first processing of the bytes, each bit-reversed over 8
bits when `refin` is set; bit-reversed over the width when `refout` is set; then XORed with
`xorout`. -/
def rocksoft_crc (w poly init : Nat) (refin refout : Bool) (xorout : Nat) (bytes : List Nat) :
    Nat :=
  let reg := spec_bit_serial w poly init
    (bytes.map fun b => if refin then spec_bit_reverse 8 b else b)
  (if refout then spec_bit_reverse w reg else reg) ^^^ xorout

/-- An 8-bit configuration with polynomial 0x07, initial value 0, final XOR value 0x01 and the
output reflection on. -/
def xorout_conf : calc_crc_conf :=
  { table := [], polynomial := 0x07, initial_value := 0, final_value := 0x01,
    input_reflected := false, output_reflected := true }

/-- The `default:` label of the `switch (crc->type)` in `CALC_CRC_Calculate` and
`CALC_CRC_Finalize` is the one taken: the tag is none of the four `case` labels. -/
def switch_default (type : Nat) : Prop :=
  type ≠ CALC_CRC_TYPE_8BIT ∧ type ≠ CALC_CRC_TYPE_16BIT ∧ type ≠ CALC_CRC_TYPE_32BIT ∧
    type ≠ CALC_CRC_TYPE_64BIT

/-- The bytes of the `w`-bit word `c`, most significant byte first. -/
def msb_first_bytes (w c : Nat) : List Nat :=
  (List.range (w / 8)).map fun k => (c >>> (w - 8 * (k + 1))) % 2 ^ 8

/-- An 8-bit configuration with polynomial 0x07, initial and final value 0 and both
reflections on. -/
def linear_conf : calc_crc_conf :=
  { table := [], polynomial := 0x07, initial_value := 0, final_value := 0,
    input_reflected := true, output_reflected := true }

/-- While an update is in progress, the session holds a config handle and `update_crc_final`
is the final adjustment (XOR with `final_value`, then the output reflection) of `update_crc`
for the configuration at the handle. -/
def adjusted_inv (s : api_state) : Prop :=
  s.crc.update_in_progress = true →
    ∃ p, s.crc.conf = some p ∧
      s.crc.update_crc_final = crc_adjust s.crc.type (s.mem p) s.crc.update_crc

/-! # Theorems

## Reflection -/

theorem and_one_shiftLeft_ne_zero (x i : Nat) : x &&& (1 <<< i) ≠ 0 ↔ x.testBit i = true := by
  rw [Nat.one_shiftLeft, Nat.and_two_pow]
  cases h : x.testBit i <;> simp

theorem reflect_loop_succ (w x n : Nat) :
    reflect_loop w x (n + 1) =
      if x.testBit n = true then reflect_loop w x n ||| 2 ^ (w - 1 - n) else reflect_loop w x n := by
  unfold reflect_loop
  rw [List.range_succ, List.foldl_append]
  simp only [List.foldl_cons, List.foldl_nil]
  by_cases hb : x.testBit n = true
  · rw [if_pos hb, if_pos ((and_one_shiftLeft_ne_zero x n).2 hb), Nat.one_shiftLeft]
  · rw [if_neg hb, if_neg (fun h => hb ((and_one_shiftLeft_ne_zero x n).1 h))]

theorem testBit_reflect_loop (w x : Nat) :
    ∀ n, n ≤ w → ∀ j, (reflect_loop w x n).testBit j =
      (decide (j < w) && decide (w - 1 - j < n) && x.testBit (w - 1 - j)) := by
  intro n
  induction n with
  | zero =>
    intro _ j
    simp [reflect_loop]
  | succ n ih =>
    intro hn j
    rw [reflect_loop_succ]
    have ih' := ih (by omega) j
    by_cases hb : x.testBit n = true
    · rw [if_pos hb, Nat.testBit_or, ih', Nat.testBit_two_pow]
      by_cases hj : w - 1 - n = j
      · have h1 : j < w := by omega
        have h2 : w - 1 - j = n := by omega
        simp [hj, h1, h2, hb]
      · by_cases h1 : j < w
        · have h2 : w - 1 - j ≠ n := by omega
          by_cases h3 : w - 1 - j < n
          · have h4 : w - 1 - j < n + 1 := by omega
            simp [hj, h1, h3, h4]
          · have h4 : ¬ (w - 1 - j < n + 1) := by omega
            simp [hj, h1, h3, h4]
        · simp [hj, h1]
    · rw [if_neg hb, ih']
      by_cases h1 : j < w
      · by_cases h2 : w - 1 - j = n
        · have h3 : ¬ (w - 1 - j < n) := by omega
          rw [h2]
          simp [h1, h3, hb]
        · by_cases h3 : w - 1 - j < n
          · have h4 : w - 1 - j < n + 1 := by omega
            simp [h1, h3, h4]
          · have h4 : ¬ (w - 1 - j < n + 1) := by omega
            simp [h1, h3, h4]
      · simp [h1]

theorem testBit_reflect (w x j : Nat) :
    (reflect_loop w x w).testBit j = (decide (j < w) && x.testBit (w - 1 - j)) := by
  rw [testBit_reflect_loop w x w (le_refl w) j]
  by_cases h1 : j < w
  · have h2 : w - 1 - j < w := by omega
    simp [h1, h2]
  · simp [h1]

theorem reflect_loop_lt (w x : Nat) : reflect_loop w x w < 2 ^ w := by
  apply Nat.lt_pow_two_of_testBit
  intro i hi
  rw [testBit_reflect]
  have : ¬ i < w := by omega
  simp [this]

theorem reflect_loop_involutive (w x : Nat) (hx : x < 2 ^ w) :
    reflect_loop w (reflect_loop w x w) w = x := by
  apply Nat.eq_of_testBit_eq
  intro j
  rw [testBit_reflect, testBit_reflect]
  by_cases h1 : j < w
  · have h2 : w - 1 - j < w := by omega
    have h3 : w - 1 - (w - 1 - j) = j := by omega
    simp [h1, h2, h3]
  · have : x.testBit j = false :=
      Nat.testBit_lt_two_pow (lt_of_lt_of_le hx (Nat.pow_le_pow_right (by decide) (by omega)))
    simp [h1, this]

theorem reflect_crc8_eq (x : Nat) : _reflect_crc8 x = reflect_loop 8 x 8 := rfl
theorem reflect_crc16_eq (x : Nat) : _reflect_crc16 x = reflect_loop 16 x 16 := rfl
theorem reflect_crc32_eq (x : Nat) : _reflect_crc32 x = reflect_loop 32 x 32 := rfl
theorem reflect_crc64_eq (x : Nat) : _reflect_crc64 x = reflect_loop 64 x 64 := rfl

/-! ## The public functions in terms of the computation by width tag -/

theorem calc_crc8_eq (crc : calc_crc_t) (conf : calc_crc_conf) (data : List Nat) (length : Nat) :
    _calc_crc8 crc conf data length = calc_crc CALC_CRC_TYPE_8BIT crc conf data length := rfl

theorem calc_crc16_eq (crc : calc_crc_t) (conf : calc_crc_conf) (data : List Nat) (length : Nat) :
    _calc_crc16 crc conf data length = calc_crc CALC_CRC_TYPE_16BIT crc conf data length := rfl

theorem calc_crc32_eq (crc : calc_crc_t) (conf : calc_crc_conf) (data : List Nat) (length : Nat) :
    _calc_crc32 crc conf data length = calc_crc CALC_CRC_TYPE_32BIT crc conf data length := rfl

theorem calc_crc64_eq (crc : calc_crc_t) (conf : calc_crc_conf) (data : List Nat) (length : Nat) :
    _calc_crc64 crc conf data length = calc_crc CALC_CRC_TYPE_64BIT crc conf data length := rfl

/-- With a type tag in range and a configured session, `CALC_CRC_Calculate` on a non-empty
buffer is the `_calc_crcN` of the tag. -/
theorem calculate_eq_calc_crc (mem : Memory) (c : calc_crc_t) (p : Nat) (d : List Nat)
    (length r : Nat) (ht : c.type < CALC_CRC_TYPE_MAX) (hp : c.conf = some p)
    (h0 : length ≠ 0) (hl : length ≤ d.length) :
    CALC_CRC_Calculate mem (some c) (some d) length (some r) =
      some ⟨CALC_CRC_STATUS_OK, some (calc_crc c.type c (mem p) d length).2,
        some (calc_crc c.type c (mem p) d length).1⟩ := by
  have hl' : ¬ d.length < length := by omega
  have ht' : ¬ CALC_CRC_TYPE_MAX ≤ c.type := by omega
  unfold CALC_CRC_Calculate
  simp only [h0, ht', hp, hl', if_false]
  have h4 : c.type = 0 ∨ c.type = 1 ∨ c.type = 2 ∨ c.type = 3 := by
    unfold CALC_CRC_TYPE_MAX at ht; omega
  rcases h4 with h | h | h | h <;>
    simp [h, CALC_CRC_TYPE_8BIT, CALC_CRC_TYPE_16BIT, CALC_CRC_TYPE_32BIT, CALC_CRC_TYPE_64BIT,
      calc_crc8_eq, calc_crc16_eq, calc_crc32_eq, calc_crc64_eq]

theorem crc_bits_pos (type : Nat) : 0 < crc_bits type := by
  unfold crc_bits; split_ifs <;> decide

theorem crc_step_lt (type : Nat) (conf : calc_crc_conf) (r d : Nat) :
    crc_step type conf r d < 2 ^ crc_bits type := by
  unfold crc_step crc_bits
  split_ifs <;> exact Nat.mod_lt _ (by positivity)

theorem crc_fold_nil (type : Nat) (conf : calc_crc_conf) (start : Nat) :
    crc_fold type conf start [] = start := rfl

theorem crc_fold_append (type : Nat) (conf : calc_crc_conf) (start : Nat) (xs ys : List Nat) :
    crc_fold type conf start (xs ++ ys) = crc_fold type conf (crc_fold type conf start xs) ys := by
  simp only [crc_fold, List.foldl_append]

theorem crc_fold_lt (type : Nat) (conf : calc_crc_conf) (bytes : List Nat) :
    ∀ start, start < 2 ^ crc_bits type → crc_fold type conf start bytes < 2 ^ crc_bits type := by
  induction bytes with
  | nil => intro start h; exact h
  | cons b bs ih =>
    intro start _
    exact ih _ (crc_step_lt type conf start b)

theorem crc_fold_lt_of_ne_nil (type : Nat) (conf : calc_crc_conf) (start : Nat)
    (bytes : List Nat) (h : bytes ≠ []) : crc_fold type conf start bytes < 2 ^ crc_bits type := by
  cases bytes with
  | nil => exact absurd rfl h
  | cons b bs => exact crc_fold_lt type conf bs _ (crc_step_lt type conf start b)

theorem crc_reflect_lt (type data : Nat) : crc_reflect type data < 2 ^ crc_bits type := by
  unfold crc_reflect crc_bits
  split_ifs
  · rw [reflect_crc8_eq]; exact reflect_loop_lt 8 data
  · rw [reflect_crc16_eq]; exact reflect_loop_lt 16 data
  · rw [reflect_crc32_eq]; exact reflect_loop_lt 32 data
  · rw [reflect_crc64_eq]; exact reflect_loop_lt 64 data

theorem crc_adjust_lt (type : Nat) (conf : calc_crc_conf) (acc : Nat) :
    crc_adjust type conf acc < 2 ^ crc_bits type := by
  unfold crc_adjust
  simp only
  split_ifs
  · exact crc_reflect_lt _ _
  · exact Nat.mod_lt _ (by positivity)

/-- The function `_calc_crcN` on a session with no update in progress: the accumulator starts
from `initial_value` and only `update_crc` and `update_crc_final` are written. -/
theorem calc_crc_idle (type : Nat) (c : calc_crc_t) (conf : calc_crc_conf) (d : List Nat)
    (length : Nat) (h : c.update_in_progress = false) :
    calc_crc type c conf d length =
      (crc_adjust type conf
          (crc_fold type conf (conf.initial_value % 2 ^ crc_bits type) (d.take length)),
        { c with
          update_crc :=
            crc_fold type conf (conf.initial_value % 2 ^ crc_bits type) (d.take length),
          update_crc_final := crc_adjust type conf
            (crc_fold type conf (conf.initial_value % 2 ^ crc_bits type) (d.take length)) }) := by
  simp [calc_crc, update_start, h]

/-- The function `_calc_crcN` on a session with an update in progress: the accumulator starts
from `update_crc` unless `update_chunk` is zero, and `update_chunk` is incremented. -/
theorem calc_crc_busy (type : Nat) (c : calc_crc_t) (conf : calc_crc_conf) (d : List Nat)
    (length : Nat) (h : c.update_in_progress = true) :
    calc_crc type c conf d length =
      (crc_adjust type conf
          (crc_fold type conf
            (if c.update_chunk ≠ 0 then c.update_crc % 2 ^ crc_bits type
              else conf.initial_value % 2 ^ crc_bits type) (d.take length)),
        { c with
          update_crc := crc_fold type conf
            (if c.update_chunk ≠ 0 then c.update_crc % 2 ^ crc_bits type
              else conf.initial_value % 2 ^ crc_bits type) (d.take length),
          update_crc_final := crc_adjust type conf
            (crc_fold type conf
              (if c.update_chunk ≠ 0 then c.update_crc % 2 ^ crc_bits type
                else conf.initial_value % 2 ^ crc_bits type) (d.take length)),
          update_chunk := (c.update_chunk + 1) % SIZE_T_RANGE }) := by
  simp [calc_crc, update_start, h]

/-- The function `CALC_CRC_Update` with valid arguments on a configured session of a type in
range. -/
theorem update_eq_calc_crc (mem : Memory) (c : calc_crc_t) (p : Nat) (d : List Nat)
    (length : Nat) (ht : c.type < CALC_CRC_TYPE_MAX) (hp : c.conf = some p)
    (h0 : length ≠ 0) (hl : length ≤ d.length) :
    CALC_CRC_Update mem (some c) (some d) length =
      some ⟨CALC_CRC_STATUS_OK,
        some (calc_crc c.type
          (if c.update_in_progress = false then
            { c with update_crc := 0, update_chunk := 0, update_in_progress := true }
          else c) (mem p) d length).2⟩ := by
  have ht' : ¬ CALC_CRC_TYPE_MAX ≤ c.type := by omega
  unfold CALC_CRC_Update
  simp only [h0, ht', if_false]
  have key : ∀ c' : calc_crc_t, c'.type = c.type → c'.conf = c.conf →
      CALC_CRC_Calculate mem (some c') (some d) length (some 0) =
        some ⟨CALC_CRC_STATUS_OK, some (calc_crc c.type c' (mem p) d length).2,
          some (calc_crc c.type c' (mem p) d length).1⟩ := by
    intro c' h1 h2
    rw [← h1]
    exact calculate_eq_calc_crc mem c' p d length 0 (h1 ▸ ht) (h2 ▸ hp) h0 hl
  by_cases hin : c.update_in_progress = false
  · simp only [hin, if_true]
    rw [key]
    · simp
    · rfl
    · rfl
  · simp only [hin, if_false]
    rw [key]
    · simp
    · simp
    · simp

/-- The first `CALC_CRC_Update` of a sequence: the accumulator starts from `initial_value`,
whatever the session held, and the chunk counter becomes one. -/
theorem update_first (mem : Memory) (c : calc_crc_t) (p : Nat) (ch : List Nat)
    (ht : c.type < CALC_CRC_TYPE_MAX) (hp : c.conf = some p)
    (hin : c.update_in_progress = false) (hch : ch ≠ []) :
    CALC_CRC_Update mem (some c) (some ch) ch.length =
      some ⟨CALC_CRC_STATUS_OK, some
        { c with
          update_crc :=
            crc_fold c.type (mem p) ((mem p).initial_value % 2 ^ crc_bits c.type) ch,
          update_crc_final := crc_adjust c.type (mem p)
            (crc_fold c.type (mem p) ((mem p).initial_value % 2 ^ crc_bits c.type) ch),
          update_chunk := 1,
          update_in_progress := true }⟩ := by
  have h0 : ch.length ≠ 0 := by
    intro h; exact hch (List.length_eq_zero.mp h)
  rw [update_eq_calc_crc mem c p ch ch.length ht hp h0 (le_refl _)]
  simp only [hin, if_true]
  rw [calc_crc_busy _ _ _ _ _ rfl]
  simp [SIZE_T_RANGE, List.take_length]

/-- A later `CALC_CRC_Update` of a sequence: the accumulator resumes from `update_crc` and the
chunk counter is incremented modulo the range of `size_t`. -/
theorem update_next (mem : Memory) (c : calc_crc_t) (p : Nat) (ch : List Nat)
    (ht : c.type < CALC_CRC_TYPE_MAX) (hp : c.conf = some p)
    (hin : c.update_in_progress = true) (hk : c.update_chunk ≠ 0)
    (hr : c.update_crc < 2 ^ crc_bits c.type) (hch : ch ≠ []) :
    CALC_CRC_Update mem (some c) (some ch) ch.length =
      some ⟨CALC_CRC_STATUS_OK, some
        { c with
          update_crc := crc_fold c.type (mem p) c.update_crc ch,
          update_crc_final := crc_adjust c.type (mem p) (crc_fold c.type (mem p) c.update_crc ch),
          update_chunk := (c.update_chunk + 1) % SIZE_T_RANGE }⟩ := by
  have h0 : ch.length ≠ 0 := by
    intro h; exact hch (List.length_eq_zero.mp h)
  rw [update_eq_calc_crc mem c p ch ch.length ht hp h0 (le_refl _)]
  simp only [hin, Bool.true_eq_false, if_false]
  rw [calc_crc_busy _ _ _ _ _ hin]
  simp [hk, hin, List.take_length, Nat.mod_eq_of_lt hr]

/-- A run of updates on a session that is accumulating, as long as the chunk counter does not
wrap before the last of them: every call returns OK and the accumulator is the byte loop over
the concatenation of the chunks. -/
theorem update_chunks_busy (mem : Memory) (p : Nat) (chunks : List (List Nat)) :
    ∀ c : calc_crc_t, c.type < CALC_CRC_TYPE_MAX → c.conf = some p →
      c.update_in_progress = true → c.update_chunk ≠ 0 → c.update_chunk < SIZE_T_RANGE →
      c.update_chunk + chunks.length ≤ SIZE_T_RANGE →
      c.update_crc < 2 ^ crc_bits c.type →
      c.update_crc_final = crc_adjust c.type (mem p) c.update_crc →
      (∀ ch ∈ chunks, ch ≠ []) →
      update_chunks mem (some c) chunks =
        some (List.replicate chunks.length CALC_CRC_STATUS_OK, some
          { c with
            update_crc := crc_fold c.type (mem p) c.update_crc chunks.flatten,
            update_crc_final :=
              crc_adjust c.type (mem p) (crc_fold c.type (mem p) c.update_crc chunks.flatten),
            update_chunk := (c.update_chunk + chunks.length) % SIZE_T_RANGE }) := by
  induction chunks with
  | nil =>
    intro c _ _ _ _ hk _ _ hf _
    have : c.update_chunk % SIZE_T_RANGE = c.update_chunk := Nat.mod_eq_of_lt hk
    cases c
    simp_all [update_chunks, crc_fold]
  | cons ch rest ih =>
    intro c ht hp hin hk hks hlen hr hf hne
    have hch : ch ≠ [] := hne ch (List.mem_cons_self _ _)
    have hrest : ∀ x ∈ rest, x ≠ [] := fun x hx => hne x (List.mem_cons_of_mem _ hx)
    unfold update_chunks
    rw [update_next mem c p ch ht hp hin hk hr hch]
    simp only
    cases rest with
    | nil =>
      simp [update_chunks, crc_fold]
    | cons ch2 rest2 =>
      simp only [List.length_cons] at hlen
      have hk1 : (c.update_chunk + 1) % SIZE_T_RANGE = c.update_chunk + 1 :=
        Nat.mod_eq_of_lt (by omega)
      rw [hk1]
      rw [ih { c with
          update_crc := crc_fold c.type (mem p) c.update_crc ch,
          update_crc_final := crc_adjust c.type (mem p) (crc_fold c.type (mem p) c.update_crc ch),
          update_chunk := c.update_chunk + 1 } ht hp hin (by simp) (by simp only; omega)
        (by simp only [List.length_cons]; omega)
        (crc_fold_lt_of_ne_nil _ _ _ _ hch) rfl hrest]
      simp [List.replicate_succ, crc_fold_append, Nat.add_assoc, Nat.add_comm 1]

/-- A sequence of updates from a session that is not accumulating, of at most as many chunks as
a `size_t` has values: every call returns OK, and the session holds the byte loop over the
concatenation of the chunks, started from `initial_value`. -/
theorem update_chunks_idle (mem : Memory) (p : Nat) (chunks : List (List Nat))
    (c : calc_crc_t) (ht : c.type < CALC_CRC_TYPE_MAX) (hp : c.conf = some p)
    (hin : c.update_in_progress = false) (hne : chunks ≠ [])
    (hlen : chunks.length ≤ SIZE_T_RANGE) (hch : ∀ ch ∈ chunks, ch ≠ []) :
    update_chunks mem (some c) chunks =
      some (List.replicate chunks.length CALC_CRC_STATUS_OK, some
        { c with
          update_crc := crc_fold c.type (mem p)
            ((mem p).initial_value % 2 ^ crc_bits c.type) chunks.flatten,
          update_crc_final := crc_adjust c.type (mem p)
            (crc_fold c.type (mem p)
              ((mem p).initial_value % 2 ^ crc_bits c.type) chunks.flatten),
          update_chunk := chunks.length % SIZE_T_RANGE,
          update_in_progress := true }) := by
  cases chunks with
  | nil => exact absurd rfl hne
  | cons ch rest =>
    have hch1 : ch ≠ [] := hch ch (List.mem_cons_self _ _)
    have hrest : ∀ x ∈ rest, x ≠ [] := fun x hx => hch x (List.mem_cons_of_mem _ hx)
    simp only [List.length_cons] at hlen
    unfold update_chunks
    rw [update_first mem c p ch ht hp hin hch1]
    simp only
    have key := update_chunks_busy mem p rest
      { c with
        update_crc := crc_fold c.type (mem p) ((mem p).initial_value % 2 ^ crc_bits c.type) ch,
        update_crc_final := crc_adjust c.type (mem p)
          (crc_fold c.type (mem p) ((mem p).initial_value % 2 ^ crc_bits c.type) ch),
        update_chunk := 1,
        update_in_progress := true }
      ht hp rfl (by simp) (by simp only; unfold SIZE_T_RANGE; decide) (by simp only; omega)
      (crc_fold_lt_of_ne_nil _ _ _ _ hch1) rfl hrest
    rw [key]
    simp [List.replicate_succ, crc_fold_append, Nat.add_comm 1]

theorem update_chunks_append (mem : Memory) (xs ys : List (List Nat)) :
    ∀ (c : Option calc_crc_t) (s1 : List calc_crc_status_e) (c1 : Option calc_crc_t),
      update_chunks mem c xs = some (s1, c1) →
      update_chunks mem c (xs ++ ys) =
        (update_chunks mem c1 ys).map fun r => (s1 ++ r.1, r.2) := by
  induction xs with
  | nil =>
    intro c s1 c1 h
    simp only [update_chunks, Option.some.injEq, Prod.mk.injEq] at h
    obtain ⟨rfl, rfl⟩ := h
    cases h2 : update_chunks mem c ys <;> simp [h2]
  | cons x xs ih =>
    intro c s1 c1 h
    simp only [List.cons_append]
    simp only [update_chunks] at h ⊢
    cases hu : CALC_CRC_Update mem c (some x) x.length with
    | none => simp [hu] at h
    | some r =>
      simp only [hu] at h ⊢
      cases hr : update_chunks mem r.crc xs with
      | none => simp [hr] at h
      | some q =>
        obtain ⟨s, c2⟩ := q
        simp only [hr, Option.some.injEq, Prod.mk.injEq] at h
        obtain ⟨rfl, rfl⟩ := h
        rw [ih r.crc s c2 hr]
        cases h2 : update_chunks mem c2 ys <;> simp [h2]

/-- The function `CALC_CRC_Init` with a session, a configuration and a type tag in range. -/
theorem init_eq (mem : Memory) (crc0 : calc_crc_t) (p type : Nat)
    (ht : type < CALC_CRC_TYPE_MAX) :
    CALC_CRC_Init mem (some crc0) (some p) type =
      ⟨CALC_CRC_STATUS_OK,
        Function.update mem p { mem p with table := build_table type (mem p).polynomial },
        some { conf := some p, update_crc := 0, update_crc_final := 0, update_chunk := 0,
               type := type, update_in_progress := false }⟩ := by
  have ht' : ¬ CALC_CRC_TYPE_MAX ≤ type := by omega
  have h4 : type = 0 ∨ type = 1 ∨ type = 2 ∨ type = 3 := by
    unfold CALC_CRC_TYPE_MAX at ht; omega
  unfold CALC_CRC_Init
  simp only [ht', if_false]
  rcases h4 with h | h | h | h <;>
    simp [h, build_table, CALC_CRC_TYPE_8BIT, CALC_CRC_TYPE_16BIT, CALC_CRC_TYPE_32BIT,
      CALC_CRC_TYPE_64BIT]

/-- What `CALC_CRC_Finalize` writes on a session that is accumulating, of a type in range. -/
theorem finalize_eq (c : calc_crc_t) (r : Nat) (ht : c.type < CALC_CRC_TYPE_MAX)
    (hin : c.update_in_progress = true) :
    CALC_CRC_Finalize (some c) (some r) =
      ⟨CALC_CRC_STATUS_OK, some { c with update_in_progress := false },
        some (c.update_crc_final % 2 ^ crc_bits c.type)⟩ := by
  have h4 : c.type = 0 ∨ c.type = 1 ∨ c.type = 2 ∨ c.type = 3 := by
    unfold CALC_CRC_TYPE_MAX at ht; omega
  unfold CALC_CRC_Finalize
  simp only [hin, Bool.true_eq_false, if_false]
  rcases h4 with h | h | h | h <;>
    simp [h, crc_bits, CALC_CRC_TYPE_8BIT, CALC_CRC_TYPE_16BIT, CALC_CRC_TYPE_32BIT,
      CALC_CRC_TYPE_64BIT]

/-- A list of non-empty chunks has at most as many chunks as bytes. -/
theorem length_le_flatten_length (chunks : List (List Nat)) (hch : ∀ ch ∈ chunks, ch ≠ []) :
    chunks.length ≤ chunks.flatten.length := by
  induction chunks with
  | nil => simp
  | cons ch rest ih =>
    have h1 : ch ≠ [] := hch ch (List.mem_cons_self _ _)
    have h2 : 0 < ch.length := List.length_pos.mpr h1
    have h3 := ih (fun x hx => hch x (List.mem_cons_of_mem _ hx))
    simp only [List.flatten_cons, List.length_append, List.length_cons]
    omega


/-! ## Reflection (C8, C9) -/

/-- C8: reflection is an involution. For each of `_reflect_crc8`, `_reflect_crc16`,
`_reflect_crc32` and `_reflect_crc64` and every value `x` of the width, reflecting `x` twice
gives `x` back. -/
theorem reflect_involution (x : Nat) :
    (x < 2 ^ 8 → _reflect_crc8 (_reflect_crc8 x) = x) ∧
    (x < 2 ^ 16 → _reflect_crc16 (_reflect_crc16 x) = x) ∧
    (x < 2 ^ 32 → _reflect_crc32 (_reflect_crc32 x) = x) ∧
    (x < 2 ^ 64 → _reflect_crc64 (_reflect_crc64 x) = x) := by
  simp only [reflect_crc8_eq, reflect_crc16_eq, reflect_crc32_eq, reflect_crc64_eq]
  exact ⟨reflect_loop_involutive 8 x, reflect_loop_involutive 16 x,
    reflect_loop_involutive 32 x, reflect_loop_involutive 64 x⟩

/-- C8 at the byte `0x31` and at the words `0x1234`, `0x04C11DB7`, `0x42F0E1EBA9EA3693`. -/
theorem reflect_involution_witness :
    _reflect_crc8 (_reflect_crc8 0x31) = 0x31 ∧
    _reflect_crc16 (_reflect_crc16 0x1234) = 0x1234 ∧
    _reflect_crc32 (_reflect_crc32 0x04C11DB7) = 0x04C11DB7 ∧
    _reflect_crc64 (_reflect_crc64 0x42F0E1EBA9EA3693) = 0x42F0E1EBA9EA3693 :=
  ⟨(reflect_involution 0x31).1 (by decide),
    (reflect_involution 0x1234).2.1 (by decide),
    (reflect_involution 0x04C11DB7).2.2.1 (by decide),
    (reflect_involution 0x42F0E1EBA9EA3693).2.2.2 (by decide)⟩

/-- C9: reflection reverses the bit order. For each width `w` of 8, 16, 32, 64 and every `x`,
bit `i < w` of `_reflect_crcW x` is bit `w - 1 - i` of `x`, and no bit at position `w` or above
is set in the result. -/
theorem reflect_reverses_bit_order (x : Nat) :
    ((∀ i, i < 8 → (_reflect_crc8 x).testBit i = x.testBit (8 - 1 - i)) ∧
      ∀ i, 8 ≤ i → (_reflect_crc8 x).testBit i = false) ∧
    ((∀ i, i < 16 → (_reflect_crc16 x).testBit i = x.testBit (16 - 1 - i)) ∧
      ∀ i, 16 ≤ i → (_reflect_crc16 x).testBit i = false) ∧
    ((∀ i, i < 32 → (_reflect_crc32 x).testBit i = x.testBit (32 - 1 - i)) ∧
      ∀ i, 32 ≤ i → (_reflect_crc32 x).testBit i = false) ∧
    ((∀ i, i < 64 → (_reflect_crc64 x).testBit i = x.testBit (64 - 1 - i)) ∧
      ∀ i, 64 ≤ i → (_reflect_crc64 x).testBit i = false) := by
  have key : ∀ w, (∀ i, i < w → (reflect_loop w x w).testBit i = x.testBit (w - 1 - i)) ∧
      ∀ i, w ≤ i → (reflect_loop w x w).testBit i = false := by
    intro w
    constructor
    · intro i hi
      rw [testBit_reflect]
      simp [hi]
    · intro i hi
      rw [testBit_reflect]
      have : ¬ i < w := by omega
      simp [this]
  simp only [reflect_crc8_eq, reflect_crc16_eq, reflect_crc32_eq, reflect_crc64_eq]
  exact ⟨key 8, key 16, key 32, key 64⟩

/-- C9 at the byte `0x31`: bit 0 of the reflection is bit 7 of the byte, and the reflection is
`0x8C`. -/
theorem reflect_reverses_bit_order_witness :
    (_reflect_crc8 0x31).testBit 0 = (0x31 : Nat).testBit (8 - 1 - 0) ∧ _reflect_crc8 0x31 = 0x8C :=
  ⟨(reflect_reverses_bit_order 0x31).1.1 0 (by decide), by decide⟩

/-! ## Initialisation (C7) -/

theorem build_table_length (type polynomial : Nat) : (build_table type polynomial).length = 256 := by
  unfold build_table _calc_table_crc8 _calc_table_crc16 _calc_table_crc32 _calc_table_crc64
  split_ifs <;> simp

/-- C7: init success. For any prior session content, a present config and a type tag below
`CALC_CRC_TYPE_MAX`, `CALC_CRC_Init` returns OK and leaves the session with
`update_in_progress = false`, `update_chunk = 0`, `update_crc = 0`, `update_crc_final = 0`, the
given type tag and the given config handle, and the config's table is the 256-entry table built
for the width from the config's polynomial. -/
theorem init_success (mem : Memory) (crc0 : calc_crc_t) (p type : Nat)
    (ht : type < CALC_CRC_TYPE_MAX) :
    (CALC_CRC_Init mem (some crc0) (some p) type).status = CALC_CRC_STATUS_OK ∧
    (CALC_CRC_Init mem (some crc0) (some p) type).crc =
      some { conf := some p, update_crc := 0, update_crc_final := 0, update_chunk := 0,
             type := type, update_in_progress := false } ∧
    ((CALC_CRC_Init mem (some crc0) (some p) type).mem p).table =
      build_table type (mem p).polynomial ∧
    ((CALC_CRC_Init mem (some crc0) (some p) type).mem p).table.length = 256 := by
  rw [init_eq mem crc0 p type ht]
  simp [build_table_length]

/-- C7 on the 8-bit configuration of the tests and a session with stale content. -/
theorem init_success_witness :
    (CALC_CRC_Init (mem_of (test_conf 0x07 0xFF 0xFF)) (some stale_crc) (some 1)
      CALC_CRC_TYPE_8BIT).crc =
      some { conf := some 1, update_crc := 0, update_crc_final := 0, update_chunk := 0,
             type := CALC_CRC_TYPE_8BIT, update_in_progress := false } :=
  (init_success (mem_of (test_conf 0x07 0xFF 0xFF)) stale_crc 1 CALC_CRC_TYPE_8BIT
    (by decide)).2.1

/-! ## Status of calculate (C10) -/

/-- C10: calculate status. Where the call has defined behaviour (a session that is present holds
a config handle, a buffer that is present holds at least `length` bytes), `CALC_CRC_Calculate`
returns InvalidArguments if and only if the session, the data or the result is absent or
`length = 0`; otherwise it returns InvalidType if and only if the session's type tag is at or
beyond `CALC_CRC_TYPE_MAX`; otherwise it returns OK. -/
theorem calculate_status (mem : Memory) (crc : Option calc_crc_t) (data : Option (List Nat))
    (length : Nat) (result : Option Nat)
    (hconf : ∀ c, crc = some c → c.conf ≠ none)
    (hbuf : ∀ d, data = some d → length ≤ d.length) :
    ∃ r, CALC_CRC_Calculate mem crc data length result = some r ∧
      (r.status = CALC_CRC_STATUS_ERROR_INPUT_ARGS ↔
        (crc = none ∨ data = none ∨ result = none ∨ length = 0)) ∧
      (¬ (crc = none ∨ data = none ∨ result = none ∨ length = 0) →
        ((r.status = CALC_CRC_STATUS_ERROR_INVALID_TYPE ↔
            ∃ c, crc = some c ∧ CALC_CRC_TYPE_MAX ≤ c.type) ∧
          ((¬ ∃ c, crc = some c ∧ CALC_CRC_TYPE_MAX ≤ c.type) →
            r.status = CALC_CRC_STATUS_OK))) := by
  cases crc with
  | none => exact ⟨_, rfl, by simp, by simp⟩
  | some c =>
    cases data with
    | none => exact ⟨_, rfl, by simp, by simp⟩
    | some d =>
      cases result with
      | none => exact ⟨_, rfl, by simp, by simp⟩
      | some v =>
        by_cases h0 : length = 0
        · refine ⟨⟨CALC_CRC_STATUS_ERROR_INPUT_ARGS, some c, some v⟩, ?_, by simp [h0], by simp [h0]⟩
          simp [CALC_CRC_Calculate, h0]
        · by_cases ht : CALC_CRC_TYPE_MAX ≤ c.type
          · refine ⟨⟨CALC_CRC_STATUS_ERROR_INVALID_TYPE, some c, some v⟩, ?_, by simp [h0],
              by simp [ht]⟩
            simp [CALC_CRC_Calculate, h0, ht]
          · obtain ⟨p, hp⟩ := Option.ne_none_iff_exists'.mp (hconf c rfl)
            refine ⟨_, calculate_eq_calc_crc mem c p d length v (by omega) hp h0 (hbuf d rfl),
              by simp [h0], by simp [ht]⟩

/-- C10 on an initialised 8-bit session: the nine bytes of the tests give OK. -/
theorem calculate_status_witness :
    ∃ r, CALC_CRC_Calculate (mem_of (test_conf 0x07 0xFF 0xFF))
        (some { conf := some 1, update_crc := 0, update_crc_final := 0, update_chunk := 0,
                type := CALC_CRC_TYPE_8BIT, update_in_progress := false })
        (some check_data) 9 (some 0) = some r ∧ r.status = CALC_CRC_STATUS_OK := by
  obtain ⟨r, h, _, h2⟩ := calculate_status (mem_of (test_conf 0x07 0xFF 0xFF))
    (some { conf := some 1, update_crc := 0, update_crc_final := 0, update_chunk := 0,
            type := CALC_CRC_TYPE_8BIT, update_in_progress := false })
    (some check_data) 9 (some 0) (by simp) (by simp [check_data])
  exact ⟨r, h, (h2 (by simp)).2 (by simp [CALC_CRC_TYPE_MAX, CALC_CRC_TYPE_8BIT])⟩

/-! ## The one-shot value (C2, C3) and the persisted accumulator (C6) -/

/-- C2: one-shot value. On a session with a config handle, a type tag in range and
`update_in_progress = false`, `CALC_CRC_Calculate` over a non-empty buffer returns OK and writes
the final adjustment of the byte loop started from `initial_value` (a value of the width); the
value is the same whatever `update_crc`, `update_crc_final` and `update_chunk` the session
holds. -/
theorem calculate_one_shot_value (mem : Memory) (c : calc_crc_t) (p : Nat) (d : List Nat)
    (out : Nat) (ht : c.type < CALC_CRC_TYPE_MAX) (hp : c.conf = some p)
    (hin : c.update_in_progress = false) (hd : d ≠ []) :
    (∃ c', CALC_CRC_Calculate mem (some c) (some d) d.length (some out) =
      some ⟨CALC_CRC_STATUS_OK, some c',
        some (crc_adjust c.type (mem p)
          (crc_fold c.type (mem p) ((mem p).initial_value % 2 ^ crc_bits c.type) d))⟩) ∧
    ∀ running finalized chunk : Nat,
      (CALC_CRC_Calculate mem
          (some { c with update_crc := running, update_crc_final := finalized,
                         update_chunk := chunk })
          (some d) d.length (some out)).map (fun r => (r.status, r.result)) =
        (CALC_CRC_Calculate mem (some c) (some d) d.length (some out)).map
          (fun r => (r.status, r.result)) := by
  have h0 : d.length ≠ 0 := fun h => hd (List.length_eq_zero.mp h)
  constructor
  · rw [calculate_eq_calc_crc mem c p d d.length out ht hp h0 (le_refl _),
      calc_crc_idle _ _ _ _ _ hin]
    simp
  · intro running finalized chunk
    rw [calculate_eq_calc_crc mem c p d d.length out ht hp h0 (le_refl _),
      calculate_eq_calc_crc mem _ p d d.length out (by simpa using ht) (by simpa using hp) h0
        (le_refl _),
      calc_crc_idle _ _ _ _ _ hin, calc_crc_idle _ _ _ _ _ (by simpa using hin)]
    rfl

/-- C2 on the 8-bit configuration of the tests, after init: the value is `0x04` and the session
content left by earlier operations does not change it. -/
theorem calculate_one_shot_value_witness :
    (CALC_CRC_Calculate
        (CALC_CRC_Init (mem_of (test_conf 0x07 0xFF 0xFF)) (some stale_crc) (some 1)
          CALC_CRC_TYPE_8BIT).mem
        (some { conf := some 1, update_crc := 0xAB, update_crc_final := 0xCD, update_chunk := 5,
                type := CALC_CRC_TYPE_8BIT, update_in_progress := false })
        (some check_data) check_data.length (some 0)).map (fun r => (r.status, r.result)) =
      some (CALC_CRC_STATUS_OK, some 0x04) ∧
    (CALC_CRC_Calculate
        (CALC_CRC_Init (mem_of (test_conf 0x07 0xFF 0xFF)) (some stale_crc) (some 1)
          CALC_CRC_TYPE_8BIT).mem
        (some { conf := some 1, update_crc := 0, update_crc_final := 0, update_chunk := 0,
                type := CALC_CRC_TYPE_8BIT, update_in_progress := false })
        (some check_data) check_data.length (some 0)).map (fun r => (r.status, r.result)) =
      some (CALC_CRC_STATUS_OK, some 0x04) :=
  ⟨by decide,
    ((calculate_one_shot_value
      (CALC_CRC_Init (mem_of (test_conf 0x07 0xFF 0xFF)) (some stale_crc) (some 1)
        CALC_CRC_TYPE_8BIT).mem
      { conf := some 1, update_crc := 0xAB, update_crc_final := 0xCD, update_chunk := 5,
        type := CALC_CRC_TYPE_8BIT, update_in_progress := false }
      1 check_data 0 (by decide) rfl rfl (by decide)).2 0 0 0).trans (by decide)⟩

/-- C3: known check values. After `CALC_CRC_Init`, `CALC_CRC_Calculate` over `"123456789"` with
initial and final XOR value all-ones of the width and both reflections off writes `0x04` for
width 8 with polynomial `0x07`, `0xD64E` for width 16 with `0x1021`, `0xFC891918` for width 32
with `0x04C11DB7` and `0x62EC59E3F1A4F00A` for width 64 with `0x42F0E1EBA9EA3693`. -/
theorem known_check_values :
    (CALC_CRC_Calculate
        (CALC_CRC_Init (mem_of (test_conf CALC_CRC_8BIT_POLYNOMIAL 0xFF 0xFF)) (some stale_crc)
          (some 1) CALC_CRC_TYPE_8BIT).mem
        (CALC_CRC_Init (mem_of (test_conf CALC_CRC_8BIT_POLYNOMIAL 0xFF 0xFF)) (some stale_crc)
          (some 1) CALC_CRC_TYPE_8BIT).crc
        (some check_data) 9 (some 0)).map (fun r => (r.status, r.result)) =
      some (CALC_CRC_STATUS_OK, some 0x04) ∧
    (CALC_CRC_Calculate
        (CALC_CRC_Init (mem_of (test_conf CALC_CRC_16BIT_POLYNOMIAL 0xFFFF 0xFFFF))
          (some stale_crc) (some 1) CALC_CRC_TYPE_16BIT).mem
        (CALC_CRC_Init (mem_of (test_conf CALC_CRC_16BIT_POLYNOMIAL 0xFFFF 0xFFFF))
          (some stale_crc) (some 1) CALC_CRC_TYPE_16BIT).crc
        (some check_data) 9 (some 0)).map (fun r => (r.status, r.result)) =
      some (CALC_CRC_STATUS_OK, some 0xD64E) ∧
    (CALC_CRC_Calculate
        (CALC_CRC_Init (mem_of (test_conf CALC_CRC_32BIT_POLYNOMIAL 0xFFFFFFFF 0xFFFFFFFF))
          (some stale_crc) (some 1) CALC_CRC_TYPE_32BIT).mem
        (CALC_CRC_Init (mem_of (test_conf CALC_CRC_32BIT_POLYNOMIAL 0xFFFFFFFF 0xFFFFFFFF))
          (some stale_crc) (some 1) CALC_CRC_TYPE_32BIT).crc
        (some check_data) 9 (some 0)).map (fun r => (r.status, r.result)) =
      some (CALC_CRC_STATUS_OK, some 0xFC891918) ∧
    (CALC_CRC_Calculate
        (CALC_CRC_Init
          (mem_of (test_conf CALC_CRC_64BIT_POLYNOMIAL 0xFFFFFFFFFFFFFFFF 0xFFFFFFFFFFFFFFFF))
          (some stale_crc) (some 1) CALC_CRC_TYPE_64BIT).mem
        (CALC_CRC_Init
          (mem_of (test_conf CALC_CRC_64BIT_POLYNOMIAL 0xFFFFFFFFFFFFFFFF 0xFFFFFFFFFFFFFFFF))
          (some stale_crc) (some 1) CALC_CRC_TYPE_64BIT).crc
        (some check_data) 9 (some 0)).map (fun r => (r.status, r.result)) =
      some (CALC_CRC_STATUS_OK, some 0x62EC59E3F1A4F00A) := by
  refine ⟨?_, ?_, ?_, ?_⟩ <;> decide

/-- A `CALC_CRC_Calculate` that returns OK had all its arguments present, a non-zero length, a
type tag in range, a config handle and a buffer of at least `length` bytes. -/
theorem calculate_ok_inv (mem : Memory) (crc : Option calc_crc_t) (data : Option (List Nat))
    (length : Nat) (result : Option Nat) (r : calc_ret)
    (h : CALC_CRC_Calculate mem crc data length result = some r)
    (hs : r.status = CALC_CRC_STATUS_OK) :
    ∃ c p d v, crc = some c ∧ data = some d ∧ result = some v ∧ length ≠ 0 ∧
      c.type < CALC_CRC_TYPE_MAX ∧ c.conf = some p ∧ length ≤ d.length := by
  cases crc with
  | none => simp [CALC_CRC_Calculate] at h; subst h; simp at hs
  | some c =>
    cases data with
    | none => simp [CALC_CRC_Calculate] at h; subst h; simp at hs
    | some d =>
      cases result with
      | none => simp [CALC_CRC_Calculate] at h; subst h; simp at hs
      | some v =>
        by_cases h0 : length = 0
        · simp [CALC_CRC_Calculate, h0] at h; subst h; simp at hs
        · by_cases ht : CALC_CRC_TYPE_MAX ≤ c.type
          · simp [CALC_CRC_Calculate, h0, ht] at h; subst h; simp at hs
          · cases hp : c.conf with
            | none => simp [CALC_CRC_Calculate, h0, ht, hp] at h
            | some p =>
              by_cases hl : d.length < length
              · simp [CALC_CRC_Calculate, h0, ht, hp, hl] at h
              · exact ⟨c, p, d, v, rfl, rfl, rfl, h0, by omega, hp, by omega⟩

/-- A `CALC_CRC_Update` that returns OK had its arguments present, a non-zero length, a type tag
in range, a config handle and a buffer of at least `length` bytes. -/
theorem update_ok_inv (mem : Memory) (crc : Option calc_crc_t) (data : Option (List Nat))
    (length : Nat) (r : update_ret)
    (h : CALC_CRC_Update mem crc data length = some r)
    (hs : r.status = CALC_CRC_STATUS_OK) :
    ∃ c p d, crc = some c ∧ data = some d ∧ length ≠ 0 ∧
      c.type < CALC_CRC_TYPE_MAX ∧ c.conf = some p ∧ length ≤ d.length := by
  cases crc with
  | none => simp [CALC_CRC_Update] at h; subst h; simp at hs
  | some c =>
    cases data with
    | none => simp [CALC_CRC_Update] at h; subst h; simp at hs
    | some d =>
      by_cases h0 : length = 0
      · simp [CALC_CRC_Update, h0] at h; subst h; simp at hs
      · by_cases ht : CALC_CRC_TYPE_MAX ≤ c.type
        · simp [CALC_CRC_Update, h0, ht] at h; subst h; simp at hs
        · cases hp : c.conf with
          | none =>
            exfalso
            unfold CALC_CRC_Update at h
            simp only [h0, ht, if_false] at h
            have hnone : ∀ c' : calc_crc_t, c'.type = c.type → c'.conf = none →
                CALC_CRC_Calculate mem (some c') (some d) length (some 0) = none := by
              intro c' h1 h2
              simp [CALC_CRC_Calculate, h0, h1, ht, h2]
            rw [hnone] at h
            · simp at h
            · split_ifs <;> rfl
            · split_ifs <;> simp [hp]
          | some p =>
            by_cases hl : d.length < length
            · exfalso
              unfold CALC_CRC_Update at h
              simp only [h0, ht, if_false] at h
              have hnone : ∀ c' : calc_crc_t, c'.type = c.type → c'.conf = some p →
                  CALC_CRC_Calculate mem (some c') (some d) length (some 0) = none := by
                intro c' h1 h2
                simp [CALC_CRC_Calculate, h0, h1, ht, h2, hl]
              rw [hnone] at h
              · simp at h
              · split_ifs <;> rfl
              · split_ifs <;> simp [hp]
            · exact ⟨c, p, d, rfl, rfl, h0, by omega, hp, by omega⟩

/-- C6: persisted accumulator. After every `CALC_CRC_Calculate` and every `CALC_CRC_Update` that
returns OK, `update_crc` is the accumulator after the last byte, before the final XOR and the
output reflection, `update_crc_final` is the final adjustment of that same accumulator, and the
value calculate writes is `update_crc_final`.  The accumulator started from `update_crc` when an
update was in progress with a non-zero chunk counter, and from `initial_value` otherwise. -/
theorem persisted_accumulator (mem : Memory) (crc : Option calc_crc_t)
    (data : Option (List Nat)) (length : Nat) (result : Option Nat) :
    (∀ r, CALC_CRC_Calculate mem crc data length result = some r →
      r.status = CALC_CRC_STATUS_OK →
      ∃ c p d c', crc = some c ∧ c.conf = some p ∧ data = some d ∧ r.crc = some c' ∧
        c'.update_crc = crc_fold c.type (mem p)
          (if c.update_in_progress = true ∧ c.update_chunk ≠ 0 then
            c.update_crc % 2 ^ crc_bits c.type
           else (mem p).initial_value % 2 ^ crc_bits c.type) (d.take length) ∧
        c'.update_crc_final = crc_adjust c.type (mem p) c'.update_crc ∧
        r.result = some c'.update_crc_final) ∧
    (∀ r, CALC_CRC_Update mem crc data length = some r →
      r.status = CALC_CRC_STATUS_OK →
      ∃ c p d c', crc = some c ∧ c.conf = some p ∧ data = some d ∧ r.crc = some c' ∧
        c'.update_crc = crc_fold c.type (mem p)
          (if c.update_in_progress = true ∧ c.update_chunk ≠ 0 then
            c.update_crc % 2 ^ crc_bits c.type
           else (mem p).initial_value % 2 ^ crc_bits c.type) (d.take length) ∧
        c'.update_crc_final = crc_adjust c.type (mem p) c'.update_crc) := by
  constructor
  · intro r h hs
    obtain ⟨c, p, d, v, rfl, rfl, rfl, h0, ht, hp, hl⟩ :=
      calculate_ok_inv mem crc data length result r h hs
    rw [calculate_eq_calc_crc mem c p d length v ht hp h0 hl] at h
    simp only [Option.some.injEq] at h
    subst h
    refine ⟨c, p, d, _, rfl, hp, rfl, rfl, ?_⟩
    by_cases hin : c.update_in_progress = true
    · rw [calc_crc_busy _ _ _ _ _ hin]
      by_cases hk : c.update_chunk = 0 <;> simp [hin, hk]
    · have hin' : c.update_in_progress = false := by simpa using hin
      rw [calc_crc_idle _ _ _ _ _ hin']
      simp [hin']
  · intro r h hs
    obtain ⟨c, p, d, rfl, rfl, h0, ht, hp, hl⟩ := update_ok_inv mem crc data length r h hs
    rw [update_eq_calc_crc mem c p d length ht hp h0 hl] at h
    simp only [Option.some.injEq] at h
    subst h
    refine ⟨c, p, d, _, rfl, hp, rfl, rfl, ?_⟩
    by_cases hin : c.update_in_progress = true
    · simp only [hin, Bool.true_eq_false, if_false]
      rw [calc_crc_busy _ _ _ _ _ hin]
      by_cases hk : c.update_chunk = 0 <;> simp [hin, hk]
    · have hin' : c.update_in_progress = false := by simpa using hin
      simp only [hin', if_true]
      rw [calc_crc_busy _ _ _ _ _ rfl]
      simp

/-- C6 on the 16-bit configuration of the tests: one update over `"123456789"` leaves the
accumulator `0x29B1` in `update_crc` and its final adjustment `0xD64E` in `update_crc_final`. -/
theorem persisted_accumulator_witness :
    ∃ c', CALC_CRC_Update
        (CALC_CRC_Init (mem_of (test_conf 0x1021 0xFFFF 0xFFFF)) (some stale_crc) (some 1)
          CALC_CRC_TYPE_16BIT).mem
        (some { conf := some 1, update_crc := 0, update_crc_final := 0, update_chunk := 0,
                type := CALC_CRC_TYPE_16BIT, update_in_progress := false })
        (some check_data) 9 = some ⟨CALC_CRC_STATUS_OK, some c'⟩ ∧
      c'.update_crc = 0x29B1 ∧ c'.update_crc_final = 0xD64E ∧
      c'.update_crc_final = crc_adjust CALC_CRC_TYPE_16BIT
        ((CALC_CRC_Init (mem_of (test_conf 0x1021 0xFFFF 0xFFFF)) (some stale_crc) (some 1)
          CALC_CRC_TYPE_16BIT).mem 1) c'.update_crc := by
  have h : CALC_CRC_Update
      (CALC_CRC_Init (mem_of (test_conf 0x1021 0xFFFF 0xFFFF)) (some stale_crc) (some 1)
        CALC_CRC_TYPE_16BIT).mem
      (some { conf := some 1, update_crc := 0, update_crc_final := 0, update_chunk := 0,
              type := CALC_CRC_TYPE_16BIT, update_in_progress := false })
      (some check_data) 9 =
      some ⟨CALC_CRC_STATUS_OK,
        some { conf := some 1, update_crc := 0x29B1, update_crc_final := 0xD64E,
               update_chunk := 1, type := CALC_CRC_TYPE_16BIT, update_in_progress := true }⟩ := by
    decide
  obtain ⟨c, p, d, c', hc, hp, _, hr, _, hfin⟩ :=
    (persisted_accumulator _ _ _ _ none).2 _ h rfl
  simp only [Option.some.injEq] at hc hr
  subst hc
  subst hr
  simp only [Option.some.injEq] at hp
  subst hp
  exact ⟨_, h, rfl, rfl, hfin⟩

/-! ## Chunked computation (C1, C5) -/

/-- C1: chunk invariance. For every type tag in range, every configuration and every list of
one or more non-empty chunks whose concatenation has a length that `size_t` holds, on the
session returned by a successful `CALC_CRC_Init`: every `CALC_CRC_Update` returns OK,
`CALC_CRC_Finalize` returns OK, and the value it writes is the value `CALC_CRC_Calculate` writes
on the freshly initialised session over the concatenation of the chunks. -/
theorem chunk_invariance (mem : Memory) (crc0 : calc_crc_t) (p type : Nat)
    (chunks : List (List Nat)) (out out' : Nat)
    (ht : type < CALC_CRC_TYPE_MAX) (hne : chunks ≠ []) (hch : ∀ ch ∈ chunks, ch ≠ [])
    (hsize : chunks.flatten.length < SIZE_T_RANGE) :
    (CALC_CRC_Init mem (some crc0) (some p) type).status = CALC_CRC_STATUS_OK ∧
    ∃ c value,
      update_chunks (CALC_CRC_Init mem (some crc0) (some p) type).mem
          (CALC_CRC_Init mem (some crc0) (some p) type).crc chunks =
        some (List.replicate chunks.length CALC_CRC_STATUS_OK, some c) ∧
      (CALC_CRC_Finalize (some c) (some out)).status = CALC_CRC_STATUS_OK ∧
      (CALC_CRC_Finalize (some c) (some out)).result = some value ∧
      ∃ c', CALC_CRC_Calculate (CALC_CRC_Init mem (some crc0) (some p) type).mem
          (CALC_CRC_Init mem (some crc0) (some p) type).crc
          (some chunks.flatten) chunks.flatten.length (some out') =
        some ⟨CALC_CRC_STATUS_OK, some c', some value⟩ := by
  have hlen : chunks.length ≤ SIZE_T_RANGE :=
    le_of_lt (lt_of_le_of_lt (length_le_flatten_length chunks hch) hsize)
  rw [init_eq mem crc0 p type ht]
  refine ⟨rfl, ?_⟩
  simp only
  have hflat : chunks.flatten ≠ [] := by
    cases chunks with
    | nil => exact absurd rfl hne
    | cons ch rest =>
      have := hch ch (List.mem_cons_self _ _)
      simp [this]
  have h0 : chunks.flatten.length ≠ 0 := fun h => hflat (List.length_eq_zero.mp h)
  rw [update_chunks_idle _ p chunks _ ht rfl rfl hne hlen hch]
  generalize hM : Function.update mem p
    { mem p with table := build_table type (mem p).polynomial } = M
  refine ⟨_, crc_adjust type (M p)
    (crc_fold type (M p) ((M p).initial_value % 2 ^ crc_bits type) chunks.flatten), rfl, ?_, ?_, ?_⟩
  · rw [finalize_eq _ _ ht rfl]
  · rw [finalize_eq _ _ ht rfl]
    simp only
    rw [Nat.mod_eq_of_lt (crc_adjust_lt _ _ _)]
  · rw [calculate_eq_calc_crc _ _ p _ _ _ ht rfl h0 (le_refl _), calc_crc_idle _ _ _ _ _ rfl]
    simp only [List.take_length]
    exact ⟨_, rfl⟩

/-- C1 on the 8-bit configuration and the two chunks of the tests, `"12345"` and
`"6789"`: both updates return OK and the value is `0x04`. -/
theorem chunk_invariance_witness :
    ∃ c, update_chunks
        (CALC_CRC_Init (mem_of (test_conf 0x07 0xFF 0xFF)) (some stale_crc) (some 1)
          CALC_CRC_TYPE_8BIT).mem
        (CALC_CRC_Init (mem_of (test_conf 0x07 0xFF 0xFF)) (some stale_crc) (some 1)
          CALC_CRC_TYPE_8BIT).crc
        [[0x31, 0x32, 0x33, 0x34, 0x35], [0x36, 0x37, 0x38, 0x39]] =
        some ([CALC_CRC_STATUS_OK, CALC_CRC_STATUS_OK], some c) ∧
      (CALC_CRC_Finalize (some c) (some 0)).result = some 0x04 := by
  obtain ⟨_, c, value, h1, _, h3, c', h4⟩ :=
    chunk_invariance (mem_of (test_conf 0x07 0xFF 0xFF)) stale_crc 1 CALC_CRC_TYPE_8BIT
      [[0x31, 0x32, 0x33, 0x34, 0x35], [0x36, 0x37, 0x38, 0x39]] 0 0 (by decide) (by decide)
      (by decide) (by decide)
  refine ⟨c, h1, ?_⟩
  have h5 : CALC_CRC_Calculate
      (CALC_CRC_Init (mem_of (test_conf 0x07 0xFF 0xFF)) (some stale_crc) (some 1)
        CALC_CRC_TYPE_8BIT).mem
      (CALC_CRC_Init (mem_of (test_conf 0x07 0xFF 0xFF)) (some stale_crc) (some 1)
        CALC_CRC_TYPE_8BIT).crc
      (some [[0x31, 0x32, 0x33, 0x34, 0x35], [0x36, 0x37, 0x38, 0x39]].flatten)
      [[0x31, 0x32, 0x33, 0x34, 0x35], [0x36, 0x37, 0x38, 0x39]].flatten.length (some 0) =
      some ⟨CALC_CRC_STATUS_OK,
        some { conf := some 1, update_crc := 0xFB, update_crc_final := 0x04, update_chunk := 0,
               type := CALC_CRC_TYPE_8BIT, update_in_progress := false },
        some 0x04⟩ := by decide
  rw [h5] at h4
  simp only [Option.some.injEq, calc_ret.mk.injEq] at h4
  rw [h3, ← h4.2.2]

/-! ### At the top of the range of the chunk counter -/

/-- C11: update status. Where the call has defined behaviour (a session that is present holds a
config handle, a buffer that is present holds at least `length` bytes), `CALC_CRC_Update`
returns InvalidArguments if and only if the session or the data is absent or `length = 0`,
whatever the session holds; otherwise it returns InvalidType if and only if the session's type
tag is at or beyond `CALC_CRC_TYPE_MAX`; otherwise it returns OK. -/
theorem update_status (mem : Memory) (crc : Option calc_crc_t) (data : Option (List Nat))
    (length : Nat)
    (hconf : ∀ c, crc = some c → c.conf ≠ none)
    (hbuf : ∀ d, data = some d → length ≤ d.length) :
    ∃ r, CALC_CRC_Update mem crc data length = some r ∧
      (r.status = CALC_CRC_STATUS_ERROR_INPUT_ARGS ↔
        (crc = none ∨ data = none ∨ length = 0)) ∧
      (¬ (crc = none ∨ data = none ∨ length = 0) →
        ((r.status = CALC_CRC_STATUS_ERROR_INVALID_TYPE ↔
            ∃ c, crc = some c ∧ CALC_CRC_TYPE_MAX ≤ c.type) ∧
          ((¬ ∃ c, crc = some c ∧ CALC_CRC_TYPE_MAX ≤ c.type) →
            r.status = CALC_CRC_STATUS_OK))) := by
  cases crc with
  | none => exact ⟨_, rfl, by simp, by simp⟩
  | some c =>
    cases data with
    | none => exact ⟨_, rfl, by simp, by simp⟩
    | some d =>
      by_cases h0 : length = 0
      · refine ⟨⟨CALC_CRC_STATUS_ERROR_INPUT_ARGS, some c⟩, ?_, by simp [h0], by simp [h0]⟩
        simp [CALC_CRC_Update, h0]
      · by_cases ht : CALC_CRC_TYPE_MAX ≤ c.type
        · refine ⟨⟨CALC_CRC_STATUS_ERROR_INVALID_TYPE, some c⟩, ?_, by simp [h0], by simp [ht]⟩
          simp [CALC_CRC_Update, h0, ht]
        · obtain ⟨p, hp⟩ := Option.ne_none_iff_exists'.mp (hconf c rfl)
          refine ⟨_, update_eq_calc_crc mem c p d length (by omega) hp h0 (hbuf d rfl),
            by simp [h0], by simp [ht]⟩

/-- C11 on an initialised 8-bit session: a zero-length chunk gives InvalidArguments, also while
a sequence is active. -/
theorem update_status_witness :
    ∃ r, CALC_CRC_Update (mem_of (test_conf 0x07 0xFF 0xFF))
        (some { conf := some 1, update_crc := 0xF2, update_crc_final := 0x0D, update_chunk := 1,
                type := CALC_CRC_TYPE_8BIT, update_in_progress := true })
        (some check_data) 0 = some r ∧ r.status = CALC_CRC_STATUS_ERROR_INPUT_ARGS := by
  obtain ⟨r, h, h1, _⟩ := update_status (mem_of (test_conf 0x07 0xFF 0xFF))
    (some { conf := some 1, update_crc := 0xF2, update_crc_final := 0x0D, update_chunk := 1,
            type := CALC_CRC_TYPE_8BIT, update_in_progress := true })
    (some check_data) 0 (by simp) (by simp)
  exact ⟨r, h, h1.2 (by simp)⟩

/-- C12: finalize status. `CALC_CRC_Finalize` returns InvalidArguments if and only if the
session or the result is absent; otherwise it returns UpdateNotStarted if and only if
`update_in_progress = false`; otherwise it returns OK. -/
theorem finalize_status (crc : Option calc_crc_t) (result : Option Nat) :
    ((CALC_CRC_Finalize crc result).status = CALC_CRC_STATUS_ERROR_INPUT_ARGS ↔
      (crc = none ∨ result = none)) ∧
    (¬ (crc = none ∨ result = none) →
      (((CALC_CRC_Finalize crc result).status = CALC_CRC_STATUS_ERROR_UPDATE_NOT_STARTED ↔
          ∃ c, crc = some c ∧ c.update_in_progress = false) ∧
        ((¬ ∃ c, crc = some c ∧ c.update_in_progress = false) →
          (CALC_CRC_Finalize crc result).status = CALC_CRC_STATUS_OK))) := by
  cases crc with
  | none => simp [CALC_CRC_Finalize]
  | some c =>
    cases result with
    | none => simp [CALC_CRC_Finalize]
    | some r =>
      by_cases hin : c.update_in_progress = false
      · simp [CALC_CRC_Finalize, hin]
      · simp [CALC_CRC_Finalize, hin]

/-- C13: init status. `CALC_CRC_Init` returns InvalidArguments if and only if the session or the
config is absent; otherwise it returns InvalidType if and only if the type tag is at or beyond
`CALC_CRC_TYPE_MAX`; otherwise it returns OK. -/
theorem init_status (mem : Memory) (crc : Option calc_crc_t) (conf : Option Nat) (type : Nat) :
    ((CALC_CRC_Init mem crc conf type).status = CALC_CRC_STATUS_ERROR_INPUT_ARGS ↔
      (crc = none ∨ conf = none)) ∧
    (¬ (crc = none ∨ conf = none) →
      (((CALC_CRC_Init mem crc conf type).status = CALC_CRC_STATUS_ERROR_INVALID_TYPE ↔
          CALC_CRC_TYPE_MAX ≤ type) ∧
        (¬ CALC_CRC_TYPE_MAX ≤ type →
          (CALC_CRC_Init mem crc conf type).status = CALC_CRC_STATUS_OK))) := by
  cases crc with
  | none => simp [CALC_CRC_Init]
  | some c =>
    cases conf with
    | none => simp [CALC_CRC_Init]
    | some p =>
      by_cases ht : CALC_CRC_TYPE_MAX ≤ type
      · simp [CALC_CRC_Init, ht]
      · simp [CALC_CRC_Init, ht]

/-! ## Failing calls (C14, C15, C16, C17, C18) -/

/-- A `CALC_CRC_Calculate` that returns a status other than OK returned from the argument or the
type check: the session and the result location hold what they held. -/
theorem calculate_fail_unchanged (mem : Memory) (crc : Option calc_crc_t)
    (data : Option (List Nat)) (length : Nat) (result : Option Nat) (r : calc_ret)
    (h : CALC_CRC_Calculate mem crc data length result = some r)
    (hs : r.status ≠ CALC_CRC_STATUS_OK) : r.crc = crc ∧ r.result = result := by
  cases crc with
  | none => simp [CALC_CRC_Calculate] at h; subst h; exact ⟨rfl, rfl⟩
  | some c =>
    cases data with
    | none => simp [CALC_CRC_Calculate] at h; subst h; exact ⟨rfl, rfl⟩
    | some d =>
      cases result with
      | none => simp [CALC_CRC_Calculate] at h; subst h; exact ⟨rfl, rfl⟩
      | some v =>
        by_cases h0 : length = 0
        · simp [CALC_CRC_Calculate, h0] at h; subst h; exact ⟨rfl, rfl⟩
        · by_cases ht : CALC_CRC_TYPE_MAX ≤ c.type
          · simp [CALC_CRC_Calculate, h0, ht] at h; subst h; exact ⟨rfl, rfl⟩
          · exfalso
            cases hp : c.conf with
            | none => simp [CALC_CRC_Calculate, h0, ht, hp] at h
            | some p =>
              by_cases hl : d.length < length
              · simp [CALC_CRC_Calculate, h0, ht, hp, hl] at h
              · rw [calculate_eq_calc_crc mem c p d length v (by omega) hp h0 (by omega)] at h
                simp only [Option.some.injEq] at h
                subst h
                exact hs rfl

/-- A `CALC_CRC_Update` that returns a status other than OK returned from the argument or the
type check: the session holds what it held. -/
theorem update_fail_unchanged (mem : Memory) (crc : Option calc_crc_t)
    (data : Option (List Nat)) (length : Nat) (r : update_ret)
    (h : CALC_CRC_Update mem crc data length = some r)
    (hs : r.status ≠ CALC_CRC_STATUS_OK) : r.crc = crc := by
  cases crc with
  | none => simp [CALC_CRC_Update] at h; subst h; rfl
  | some c =>
    cases data with
    | none => simp [CALC_CRC_Update] at h; subst h; rfl
    | some d =>
      by_cases h0 : length = 0
      · simp [CALC_CRC_Update, h0] at h; subst h; rfl
      · by_cases ht : CALC_CRC_TYPE_MAX ≤ c.type
        · simp [CALC_CRC_Update, h0, ht] at h; subst h; rfl
        · exfalso
          cases hp : c.conf with
          | none =>
            unfold CALC_CRC_Update at h
            simp only [h0, ht, if_false] at h
            have hnone : ∀ c' : calc_crc_t, c'.type = c.type → c'.conf = none →
                CALC_CRC_Calculate mem (some c') (some d) length (some 0) = none := by
              intro c' h1 h2
              simp [CALC_CRC_Calculate, h0, h1, ht, h2]
            rw [hnone] at h
            · simp at h
            · split_ifs <;> rfl
            · split_ifs <;> simp [hp]
          | some p =>
            by_cases hl : d.length < length
            · unfold CALC_CRC_Update at h
              simp only [h0, ht, if_false] at h
              have hnone : ∀ c' : calc_crc_t, c'.type = c.type → c'.conf = some p →
                  CALC_CRC_Calculate mem (some c') (some d) length (some 0) = none := by
                intro c' h1 h2
                simp [CALC_CRC_Calculate, h0, h1, ht, h2, hl]
              rw [hnone] at h
              · simp at h
              · split_ifs <;> rfl
              · split_ifs <;> simp [hp]
            · rw [update_eq_calc_crc mem c p d length (by omega) hp h0 (by omega)] at h
              simp only [Option.some.injEq] at h
              subst h
              exact hs rfl

/-- C14: failure atomicity of init and calculate. Whenever `CALC_CRC_Init` returns a status other
than OK, the configuration memory (tables included) and the session are what they were; whenever
`CALC_CRC_Calculate` returns a status other than OK, the session and the result location are
what they were (calculate writes no configuration on any path); and a calculate with an absent
argument, a zero length or a type tag out of range does return such a status. -/
theorem failure_atomicity (mem : Memory) (crc : Option calc_crc_t) :
    (∀ (conf : Option Nat) (type : Nat),
      (CALC_CRC_Init mem crc conf type).status ≠ CALC_CRC_STATUS_OK →
      (CALC_CRC_Init mem crc conf type).mem = mem ∧
      (CALC_CRC_Init mem crc conf type).crc = crc) ∧
    (∀ (data : Option (List Nat)) (length : Nat) (result : Option Nat) (r : calc_ret),
      CALC_CRC_Calculate mem crc data length result = some r →
      r.status ≠ CALC_CRC_STATUS_OK → r.crc = crc ∧ r.result = result) ∧
    (∀ (data : Option (List Nat)) (length : Nat) (result : Option Nat),
      (crc = none ∨ data = none ∨ result = none ∨ length = 0 ∨
        ∃ c, crc = some c ∧ CALC_CRC_TYPE_MAX ≤ c.type) →
      ∃ r, CALC_CRC_Calculate mem crc data length result = some r ∧
        r.status ≠ CALC_CRC_STATUS_OK ∧ r.crc = crc ∧ r.result = result) := by
  refine ⟨?_, ?_, ?_⟩
  · intro conf type hs
    cases crc with
    | none => exact ⟨rfl, rfl⟩
    | some c =>
      cases conf with
      | none => exact ⟨rfl, rfl⟩
      | some p =>
        by_cases ht : CALC_CRC_TYPE_MAX ≤ type
        · simp [CALC_CRC_Init, ht]
        · exfalso
          apply hs
          simp [CALC_CRC_Init, ht]
  · intro data length result r h hs
    exact calculate_fail_unchanged mem crc data length result r h hs
  · intro data length result hbad
    cases crc with
    | none => exact ⟨_, rfl, by simp, rfl, rfl⟩
    | some c =>
      cases data with
      | none => exact ⟨_, rfl, by simp, rfl, rfl⟩
      | some d =>
        cases result with
        | none => exact ⟨_, rfl, by simp, rfl, rfl⟩
        | some v =>
          by_cases h0 : length = 0
          · exact ⟨⟨CALC_CRC_STATUS_ERROR_INPUT_ARGS, some c, some v⟩,
              by simp [CALC_CRC_Calculate, h0], by simp, rfl, rfl⟩
          · have ht : CALC_CRC_TYPE_MAX ≤ c.type := by
              rcases hbad with h | h | h | h | ⟨c', hc, ht⟩
              · simp at h
              · simp at h
              · simp at h
              · exact absurd h h0
              · simp only [Option.some.injEq] at hc
                subst hc
                exact ht
            exact ⟨⟨CALC_CRC_STATUS_ERROR_INVALID_TYPE, some c, some v⟩,
              by simp [CALC_CRC_Calculate, h0, ht], by simp, rfl, rfl⟩

/-- C14 on calls the tests make: init with the type tag `CALC_CRC_TYPE_MAX` leaves the stale
session as it was, and calculate with a zero length leaves the session and the result location
as they were. -/
theorem failure_atomicity_witness :
    (CALC_CRC_Init (mem_of (test_conf 0x07 0xFF 0xFF)) (some stale_crc) (some 1)
      CALC_CRC_TYPE_MAX).crc = some stale_crc ∧
    ∃ r, CALC_CRC_Calculate (mem_of (test_conf 0x07 0xFF 0xFF)) (some stale_crc)
        (some check_data) 0 (some 0x55) = some r ∧
      r.status ≠ CALC_CRC_STATUS_OK ∧ r.crc = some stale_crc ∧ r.result = some 0x55 :=
  ⟨((failure_atomicity (mem_of (test_conf 0x07 0xFF 0xFF)) (some stale_crc)).1 (some 1)
      CALC_CRC_TYPE_MAX (by decide)).2,
    (failure_atomicity (mem_of (test_conf 0x07 0xFF 0xFF)) (some stale_crc)).2.2
      (some check_data) 0 (some 0x55) (by simp)⟩

/-- C15: update argument errors are a no-op. With the data absent or `length = 0`,
`CALC_CRC_Update` on any session returns InvalidArguments and leaves every field of the session
as it was; and every update that returns InvalidArguments leaves the session as it was. -/
theorem update_argument_error_noop (mem : Memory) (data : Option (List Nat)) (length : Nat) :
    (∀ c : calc_crc_t, (data = none ∨ length = 0) →
      CALC_CRC_Update mem (some c) data length =
        some ⟨CALC_CRC_STATUS_ERROR_INPUT_ARGS, some c⟩) ∧
    (∀ (crc : Option calc_crc_t) (r : update_ret),
      CALC_CRC_Update mem crc data length = some r →
      r.status = CALC_CRC_STATUS_ERROR_INPUT_ARGS → r.crc = crc) := by
  constructor
  · intro c h
    cases data with
    | none => rfl
    | some d =>
      have h0 : length = 0 := by
        rcases h with h | h
        · simp at h
        · exact h
      simp [CALC_CRC_Update, h0]
  · intro crc r h hs
    exact update_fail_unchanged mem crc data length r h (by rw [hs]; decide)

/-- C15 on an active sequence: a zero-length update leaves the accumulating session as it was. -/
theorem update_argument_error_noop_witness :
    CALC_CRC_Update (mem_of (test_conf 0x07 0xFF 0xFF))
        (some { conf := some 1, update_crc := 0xF2, update_crc_final := 0x0D, update_chunk := 1,
                type := CALC_CRC_TYPE_8BIT, update_in_progress := true })
        (some check_data) 0 =
      some ⟨CALC_CRC_STATUS_ERROR_INPUT_ARGS,
        some { conf := some 1, update_crc := 0xF2, update_crc_final := 0x0D, update_chunk := 1,
               type := CALC_CRC_TYPE_8BIT, update_in_progress := true }⟩ :=
  (update_argument_error_noop (mem_of (test_conf 0x07 0xFF 0xFF)) (some check_data) 0).1 _
    (Or.inr rfl)

/-- C16, as amended: a failing update does not abort the sequence.  For every session with
`update_in_progress = true`, a `CALC_CRC_Update` on it that returns a status other than OK
returned from the argument or the type check, before any write: the session is as it was,
`update_in_progress` is still true, and an immediately following `CALC_CRC_Finalize` with a
present result returns OK. -/
theorem update_failure_keeps_sequence (mem : Memory) (c : calc_crc_t)
    (data : Option (List Nat)) (length : Nat) (r : update_ret) (out : Nat)
    (hin : c.update_in_progress = true)
    (h : CALC_CRC_Update mem (some c) data length = some r)
    (hs : r.status ≠ CALC_CRC_STATUS_OK) :
    r.crc = some c ∧
    (CALC_CRC_Finalize r.crc (some out)).status = CALC_CRC_STATUS_OK := by
  have hc := update_fail_unchanged mem (some c) data length r h hs
  refine ⟨hc, ?_⟩
  rw [hc]
  simp [CALC_CRC_Finalize, hin]

/-- C16, as amended, on an accumulating 8-bit session and an update with absent data. -/
theorem update_failure_keeps_sequence_witness :
    (CALC_CRC_Finalize
      (some { conf := some 1, update_crc := 0xF2, update_crc_final := 0x0D, update_chunk := 1,
              type := CALC_CRC_TYPE_8BIT, update_in_progress := true })
      (some 0)).status = CALC_CRC_STATUS_OK :=
  (update_failure_keeps_sequence (mem_of (test_conf 0x07 0xFF 0xFF))
    { conf := some 1, update_crc := 0xF2, update_crc_final := 0x0D, update_chunk := 1,
      type := CALC_CRC_TYPE_8BIT, update_in_progress := true }
    none 9
    ⟨CALC_CRC_STATUS_ERROR_INPUT_ARGS,
      some { conf := some 1, update_crc := 0xF2, update_crc_final := 0x0D, update_chunk := 1,
             type := CALC_CRC_TYPE_8BIT, update_in_progress := true }⟩
    0 rfl rfl (by decide)).2

/-- C16 as stated fails on its own example.  After init and one successful update over
`"12345"` on the 8-bit configuration of the tests, an update with a zero-length chunk returns
InvalidArguments and `update_in_progress` is still true; the finalize that follows returns OK
and writes `0x0D`, not UpdateNotStarted. -/
theorem update_zero_length_does_not_abort :
    ∃ c, update_chunks
        (CALC_CRC_Init (mem_of (test_conf 0x07 0xFF 0xFF)) (some stale_crc) (some 1)
          CALC_CRC_TYPE_8BIT).mem
        (CALC_CRC_Init (mem_of (test_conf 0x07 0xFF 0xFF)) (some stale_crc) (some 1)
          CALC_CRC_TYPE_8BIT).crc
        [[0x31, 0x32, 0x33, 0x34, 0x35]] = some ([CALC_CRC_STATUS_OK], some c) ∧
      c.update_in_progress = true ∧
      CALC_CRC_Update
        (CALC_CRC_Init (mem_of (test_conf 0x07 0xFF 0xFF)) (some stale_crc) (some 1)
          CALC_CRC_TYPE_8BIT).mem
        (some c) (some [0x36, 0x37, 0x38, 0x39]) 0 =
        some ⟨CALC_CRC_STATUS_ERROR_INPUT_ARGS, some c⟩ ∧
      CALC_CRC_Finalize (some c) (some 0) =
        ⟨CALC_CRC_STATUS_OK, some { c with update_in_progress := false }, some 0x0D⟩ := by
  refine ⟨{ conf := some 1, update_crc := 0xF2, update_crc_final := 0x0D, update_chunk := 1,
            type := CALC_CRC_TYPE_8BIT, update_in_progress := true }, ?_, rfl, ?_, ?_⟩ <;> decide

/-- C17: the finalize protocol error has no side effects. For every session with
`update_in_progress = false` and a present result, `CALC_CRC_Finalize` returns UpdateNotStarted
and leaves the result location and every field of the session as they were. -/
theorem finalize_not_started_noop (c : calc_crc_t) (out : Nat)
    (hin : c.update_in_progress = false) :
    CALC_CRC_Finalize (some c) (some out) =
      ⟨CALC_CRC_STATUS_ERROR_UPDATE_NOT_STARTED, some c, some out⟩ := by
  simp [CALC_CRC_Finalize, hin]

/-- C17 on a session just initialised, with `0x55` in the result location. -/
theorem finalize_not_started_noop_witness :
    CALC_CRC_Finalize
      (some { conf := some 1, update_crc := 0, update_crc_final := 0, update_chunk := 0,
              type := CALC_CRC_TYPE_8BIT, update_in_progress := false })
      (some 0x55) =
      ⟨CALC_CRC_STATUS_ERROR_UPDATE_NOT_STARTED,
        some { conf := some 1, update_crc := 0, update_crc_final := 0, update_chunk := 0,
               type := CALC_CRC_TYPE_8BIT, update_in_progress := false },
        some 0x55⟩ :=
  finalize_not_started_noop _ 0x55 rfl

/-- C18, as amended: after every `CALC_CRC_Finalize` on a present session with a present
result, whether it returns OK or UpdateNotStarted, `update_in_progress = false`; with an absent
result the call returns InvalidArguments and leaves the session, `update_in_progress` included,
as it was. -/
theorem finalize_clears_in_progress (c : calc_crc_t) :
    (∀ out : Nat, ∃ c', (CALC_CRC_Finalize (some c) (some out)).crc = some c' ∧
      c'.update_in_progress = false) ∧
    CALC_CRC_Finalize (some c) none = ⟨CALC_CRC_STATUS_ERROR_INPUT_ARGS, some c, none⟩ := by
  refine ⟨?_, rfl⟩
  intro out
  by_cases hin : c.update_in_progress = false
  · exact ⟨c, by simp [CALC_CRC_Finalize, hin], hin⟩
  · exact ⟨{ c with update_in_progress := false }, by simp [CALC_CRC_Finalize, hin], rfl⟩

/-- C18 as stated fails for an absent result: on an accumulating session `CALC_CRC_Finalize`
with a `NULL` result returns InvalidArguments and `update_in_progress` is still true. -/
theorem finalize_null_result_stays_in_progress :
    CALC_CRC_Finalize
      (some { conf := some 1, update_crc := 0xF2, update_crc_final := 0x0D, update_chunk := 1,
              type := CALC_CRC_TYPE_8BIT, update_in_progress := true })
      none =
      ⟨CALC_CRC_STATUS_ERROR_INPUT_ARGS,
        some { conf := some 1, update_crc := 0xF2, update_crc_final := 0x0D, update_chunk := 1,
               type := CALC_CRC_TYPE_8BIT, update_in_progress := true },
        none⟩ := by
  decide

/-! ## Sequences of calls -/

/-- A `CALC_CRC_Calculate` that returns OK leaves the `_calc_crcN` session of the tag. -/
theorem calculate_ok_crc (mem : Memory) (c : calc_crc_t) (data : Option (List Nat))
    (length : Nat) (result : Option Nat) (r : calc_ret)
    (h : CALC_CRC_Calculate mem (some c) data length result = some r)
    (hs : r.status = CALC_CRC_STATUS_OK) :
    ∃ p d, c.conf = some p ∧ data = some d ∧ length ≠ 0 ∧ length ≤ d.length ∧
      c.type < CALC_CRC_TYPE_MAX ∧ r.crc = some (calc_crc c.type c (mem p) d length).2 := by
  obtain ⟨c', p, d, v, hc, rfl, rfl, h0, ht, hp, hl⟩ :=
    calculate_ok_inv mem (some c) data length result r h hs
  simp only [Option.some.injEq] at hc
  subst hc
  rw [calculate_eq_calc_crc mem c p d length v ht hp h0 hl] at h
  simp only [Option.some.injEq] at h
  subst h
  exact ⟨p, d, hp, rfl, h0, hl, ht, rfl⟩

/-- A `CALC_CRC_Update` that returns OK leaves the `_calc_crcN` session of the tag, computed on
the session with the sequence started. -/
theorem update_ok_crc (mem : Memory) (c : calc_crc_t) (data : Option (List Nat))
    (length : Nat) (r : update_ret)
    (h : CALC_CRC_Update mem (some c) data length = some r)
    (hs : r.status = CALC_CRC_STATUS_OK) :
    ∃ p d, c.conf = some p ∧ data = some d ∧ length ≠ 0 ∧ length ≤ d.length ∧
      c.type < CALC_CRC_TYPE_MAX ∧
      r.crc = some (calc_crc c.type
        (if c.update_in_progress = false then
          { c with update_crc := 0, update_chunk := 0, update_in_progress := true }
        else c) (mem p) d length).2 := by
  obtain ⟨c', p, d, hc, rfl, h0, ht, hp, hl⟩ := update_ok_inv mem (some c) data length r h hs
  simp only [Option.some.injEq] at hc
  subst hc
  rw [update_eq_calc_crc mem c p d length ht hp h0 hl] at h
  simp only [Option.some.injEq] at h
  subst h
  exact ⟨p, d, hp, rfl, h0, hl, ht, rfl⟩

/-- The session `_calc_crcN` leaves: only `update_crc`, `update_crc_final` and `update_chunk`
differ from the session it was given. -/
theorem calc_crc_frame (type : Nat) (c : calc_crc_t) (conf : calc_crc_conf) (d : List Nat)
    (length : Nat) :
    (calc_crc type c conf d length).2.conf = c.conf ∧
    (calc_crc type c conf d length).2.type = c.type ∧
    (calc_crc type c conf d length).2.update_in_progress = c.update_in_progress := by
  by_cases hin : c.update_in_progress = true
  · rw [calc_crc_busy _ _ _ _ _ hin]; exact ⟨rfl, rfl, rfl⟩
  · rw [calc_crc_idle _ _ _ _ _ (by simpa using hin)]; exact ⟨rfl, rfl, rfl⟩

/-- The accumulator `_calc_crcN` leaves in `update_crc`. -/
theorem calc_crc_update_crc (type : Nat) (c : calc_crc_t) (conf : calc_crc_conf) (d : List Nat)
    (length : Nat) :
    (calc_crc type c conf d length).2.update_crc =
      crc_fold type conf
        (if c.update_in_progress = true ∧ c.update_chunk ≠ 0 then c.update_crc % 2 ^ crc_bits type
          else conf.initial_value % 2 ^ crc_bits type) (d.take length) := by
  by_cases hin : c.update_in_progress = true
  · rw [calc_crc_busy _ _ _ _ _ hin]
    by_cases hk : c.update_chunk = 0 <;> simp [hin, hk]
  · have hin' : c.update_in_progress = false := by simpa using hin
    rw [calc_crc_idle _ _ _ _ _ hin']
    simp [hin']

theorem calc_crc_update_crc_lt (type : Nat) (c : calc_crc_t) (conf : calc_crc_conf)
    (d : List Nat) (length : Nat) :
    (calc_crc type c conf d length).2.update_crc < 2 ^ crc_bits type := by
  rw [calc_crc_update_crc]
  apply crc_fold_lt
  split_ifs <;> exact Nat.mod_lt _ (by positivity)

/-- What one call does to `update_in_progress`: a successful init or finalize clears it, a
successful update sets it, every other call leaves it as it was. -/
theorem api_step_in_progress (s s' : api_state) (call : api_call) (st : calc_crc_status_e)
    (h : api_step s call = some (st, s')) :
    s'.crc.update_in_progress = in_progress_after s.crc.update_in_progress (call, st) := by
  cases call with
  | init crc conf type =>
    simp only [api_step, Option.some.injEq, Prod.mk.injEq] at h
    obtain ⟨rfl, rfl⟩ := h
    cases crc with
    | false => simp [CALC_CRC_Init, in_progress_after, is_reset, is_update_ok, is_update]
    | true =>
      cases conf with
      | none => simp [CALC_CRC_Init, in_progress_after, is_reset, is_update_ok, is_update]
      | some p =>
        by_cases ht : CALC_CRC_TYPE_MAX ≤ type
        · simp [CALC_CRC_Init, ht, in_progress_after, is_reset, is_update_ok, is_update]
        · simp [CALC_CRC_Init, ht, in_progress_after, is_reset, is_init_or_finalize]
  | calculate crc data length result =>
    simp only [api_step, Option.map_eq_some', Prod.mk.injEq] at h
    obtain ⟨r, hr, rfl, rfl⟩ := h
    have hflag : in_progress_after s.crc.update_in_progress
        (api_call.calculate crc data length result, r.status) = s.crc.update_in_progress := by
      simp [in_progress_after, is_reset, is_init_or_finalize, is_update_ok, is_update]
    rw [hflag]
    cases crc with
    | false =>
      simp [CALC_CRC_Calculate] at hr
      subst hr
      rfl
    | true =>
      simp only [if_true] at hr
      by_cases hs : r.status = CALC_CRC_STATUS_OK
      · obtain ⟨p, d, _, _, _, _, _, hc⟩ := calculate_ok_crc s.mem s.crc data length result r hr hs
        rw [hc]
        exact (calc_crc_frame _ _ _ _ _).2.2
      · rw [(calculate_fail_unchanged s.mem _ data length result r hr hs).1]
        rfl
  | update crc data length =>
    simp only [api_step, Option.map_eq_some', Prod.mk.injEq] at h
    obtain ⟨r, hr, rfl, rfl⟩ := h
    cases crc with
    | false =>
      simp [CALC_CRC_Update] at hr
      subst hr
      simp [in_progress_after, is_reset, is_init_or_finalize, is_update_ok]
    | true =>
      simp only [if_true] at hr
      by_cases hs : r.status = CALC_CRC_STATUS_OK
      · obtain ⟨p, d, _, _, _, _, _, hc⟩ := update_ok_crc s.mem s.crc data length r hr hs
        rw [hc, hs]
        simp only [Option.getD_some, (calc_crc_frame _ _ _ _ _).2.2]
        by_cases hin : s.crc.update_in_progress = false
        · simp [hin, in_progress_after, is_reset, is_init_or_finalize, is_update_ok, is_update]
        · simp [hin, in_progress_after, is_reset, is_init_or_finalize, is_update_ok, is_update]
      · rw [update_fail_unchanged s.mem _ data length r hr hs]
        simp [in_progress_after, is_reset, is_init_or_finalize, is_update_ok, hs]
  | finalize crc result =>
    simp only [api_step, Option.some.injEq, Prod.mk.injEq] at h
    obtain ⟨rfl, rfl⟩ := h
    cases crc with
    | false =>
      simp [CALC_CRC_Finalize, in_progress_after, is_reset, is_update_ok, is_update]
    | true =>
      cases result with
      | none => simp [CALC_CRC_Finalize, in_progress_after, is_reset, is_update_ok, is_update]
      | some out =>
        by_cases hin : s.crc.update_in_progress = false
        · simp [CALC_CRC_Finalize, hin, in_progress_after, is_reset, is_update_ok, is_update]
        · simp [CALC_CRC_Finalize, hin, in_progress_after, is_reset, is_init_or_finalize]

/-- Along a sequence of calls `update_in_progress` follows the events. -/
theorem api_run_in_progress (calls : List api_call) :
    ∀ (s s' : api_state) (statuses : List calc_crc_status_e),
      api_run s calls = some (statuses, s') →
      statuses.length = calls.length ∧
      s'.crc.update_in_progress =
        (calls.zip statuses).foldl in_progress_after s.crc.update_in_progress := by
  induction calls with
  | nil =>
    intro s s' statuses h
    simp only [api_run, Option.some.injEq, Prod.mk.injEq] at h
    obtain ⟨rfl, rfl⟩ := h
    exact ⟨rfl, rfl⟩
  | cons call rest ih =>
    intro s s' statuses h
    simp only [api_run] at h
    cases h1 : api_step s call with
    | none => simp [h1] at h
    | some q =>
      obtain ⟨st, s1⟩ := q
      simp only [h1] at h
      cases h2 : api_run s1 rest with
      | none => simp [h2] at h
      | some q2 =>
        obtain ⟨sts, s2⟩ := q2
        simp only [h2, Option.some.injEq, Prod.mk.injEq] at h
        obtain ⟨rfl, rfl⟩ := h
        obtain ⟨hlen, hflag⟩ := ih s1 s2 sts h2
        refine ⟨by simp [hlen], ?_⟩
        rw [hflag, api_step_in_progress s s1 call st h1]
        rfl

theorem is_update_ok_not_reset (e : api_call × calc_crc_status_e) (h : is_update_ok e = true) :
    is_reset e = false := by
  obtain ⟨call, st⟩ := e
  cases call <;> simp_all [is_update_ok, is_update, is_reset, is_init_or_finalize]

theorem is_update_ok_iff (e : api_call × calc_crc_status_e) :
    is_update_ok e = true ↔ ∃ call, e = (call, CALC_CRC_STATUS_OK) ∧ is_update call = true := by
  obtain ⟨call, st⟩ := e
  simp only [is_update_ok, Bool.and_eq_true, decide_eq_true_eq, Prod.mk.injEq]
  constructor
  · rintro ⟨h1, rfl⟩
    exact ⟨call, ⟨rfl, rfl⟩, h1⟩
  · rintro ⟨call', ⟨rfl, rfl⟩, h1⟩
    exact ⟨h1, rfl⟩

/-- The flag the events leave is set exactly when some update returned OK with no successful
init or finalize after it, or the flag was set before and no event cleared it. -/
theorem foldl_in_progress_after (events : List (api_call × calc_crc_status_e)) :
    ∀ flag : Bool, events.foldl in_progress_after flag = true ↔
      ((∃ pre post call, events = pre ++ (call, CALC_CRC_STATUS_OK) :: post ∧
          is_update call = true ∧ ∀ e ∈ post, is_reset e = false) ∨
        (flag = true ∧ ∀ e ∈ events, is_reset e = false)) := by
  induction events with
  | nil =>
    intro flag
    simp
  | cons e es ih =>
    intro flag
    rw [List.foldl_cons, ih]
    constructor
    · rintro (⟨pre, post, call, rfl, hu, hpost⟩ | ⟨hflag, hes⟩)
      · exact Or.inl ⟨e :: pre, post, call, rfl, hu, hpost⟩
      · unfold in_progress_after at hflag
        by_cases hr : is_reset e = true
        · simp [hr] at hflag
        · have hr' : is_reset e = false := by simpa using hr
          by_cases hu : is_update_ok e = true
          · obtain ⟨call, rfl, hcall⟩ := (is_update_ok_iff e).mp hu
            exact Or.inl ⟨[], es, call, rfl, hcall, hes⟩
          · simp only [hr', hu, Bool.false_eq_true, if_false] at hflag
            refine Or.inr ⟨hflag, ?_⟩
            intro x hx
            rcases List.mem_cons.mp hx with rfl | hx
            · exact hr'
            · exact hes x hx
    · rintro (⟨pre, post, call, heq, hu, hpost⟩ | ⟨hflag, hall⟩)
      · cases pre with
        | nil =>
          simp only [List.nil_append, List.cons.injEq] at heq
          obtain ⟨rfl, rfl⟩ := heq
          have huok : is_update_ok (call, CALC_CRC_STATUS_OK) = true :=
            (is_update_ok_iff _).mpr ⟨call, rfl, hu⟩
          refine Or.inr ⟨?_, hpost⟩
          simp [in_progress_after, is_update_ok_not_reset _ huok, huok]
        | cons x pre' =>
          simp only [List.cons_append, List.cons.injEq] at heq
          obtain ⟨rfl, rfl⟩ := heq
          exact Or.inl ⟨pre', post, call, rfl, hu, hpost⟩
      · have hr : is_reset e = false := hall e (List.mem_cons_self _ _)
        refine Or.inr ⟨?_, fun x hx => hall x (List.mem_cons_of_mem _ hx)⟩
        simp [in_progress_after, hr, hflag]

/-! ## The in-progress invariant (C19) -/

/-- C19: the in-progress invariant. In every state reached from a successful `CALC_CRC_Init` by
any sequence of init, calculate, update and finalize calls, with any arguments and whatever the
statuses, `update_in_progress = true` if and only if some `CALC_CRC_Update` of the sequence
returned OK and no init or finalize call after it returned OK. -/
theorem in_progress_invariant (s0 s : api_state) (p type : Nat) (calls : List api_call)
    (statuses : List calc_crc_status_e)
    (hrun : api_run s0 (api_call.init true (some p) type :: calls) =
      some (CALC_CRC_STATUS_OK :: statuses, s)) :
    s.crc.update_in_progress = true ↔
      ∃ pre post call, calls.zip statuses = pre ++ (call, CALC_CRC_STATUS_OK) :: post ∧
        is_update call = true ∧ ∀ e ∈ post, is_reset e = false := by
  obtain ⟨_, hflag⟩ := api_run_in_progress _ s0 s _ hrun
  rw [hflag, List.zip_cons_cons, List.foldl_cons]
  have h0 : in_progress_after s0.crc.update_in_progress
      (api_call.init true (some p) type, CALC_CRC_STATUS_OK) = false := by
    simp [in_progress_after, is_reset, is_init_or_finalize]
  rw [h0, foldl_in_progress_after]
  simp

/-- C19 on the 8-bit configuration of the tests: after init, a successful update, a calculate,
a finalize that fails for its absent result and an update that fails for its zero length, the
session is in progress, the successful update being followed by no successful init or
finalize. -/
theorem in_progress_invariant_witness :
    ∃ s, api_run test_state
        [api_call.init true (some 1) CALC_CRC_TYPE_8BIT,
         api_call.update true (some [0x31, 0x32, 0x33, 0x34, 0x35]) 5,
         api_call.calculate true (some [0x36, 0x37, 0x38, 0x39]) 4 (some 0),
         api_call.finalize true none,
         api_call.update true (some [0x36]) 0] =
        some ([CALC_CRC_STATUS_OK, CALC_CRC_STATUS_OK, CALC_CRC_STATUS_OK,
          CALC_CRC_STATUS_ERROR_INPUT_ARGS, CALC_CRC_STATUS_ERROR_INPUT_ARGS], s) ∧
      s.crc.update_in_progress = true := by
  have hrun : api_run test_state
      [api_call.init true (some 1) CALC_CRC_TYPE_8BIT,
       api_call.update true (some [0x31, 0x32, 0x33, 0x34, 0x35]) 5,
       api_call.calculate true (some [0x36, 0x37, 0x38, 0x39]) 4 (some 0),
       api_call.finalize true none,
       api_call.update true (some [0x36]) 0] =
      some ([CALC_CRC_STATUS_OK, CALC_CRC_STATUS_OK, CALC_CRC_STATUS_OK,
          CALC_CRC_STATUS_ERROR_INPUT_ARGS, CALC_CRC_STATUS_ERROR_INPUT_ARGS],
        ⟨(CALC_CRC_Init test_state.mem (some test_state.crc) (some 1) CALC_CRC_TYPE_8BIT).mem,
          { conf := some 1, update_crc := 0xFB, update_crc_final := 0x04, update_chunk := 2,
            type := CALC_CRC_TYPE_8BIT, update_in_progress := true }⟩) := rfl
  refine ⟨_, hrun, (in_progress_invariant test_state _ 1 CALC_CRC_TYPE_8BIT _ _ hrun).mpr ?_⟩
  refine ⟨[], [(api_call.calculate true (some [0x36, 0x37, 0x38, 0x39]) 4 (some 0),
        CALC_CRC_STATUS_OK),
      (api_call.finalize true none, CALC_CRC_STATUS_ERROR_INPUT_ARGS),
      (api_call.update true (some [0x36]) 0, CALC_CRC_STATUS_ERROR_INPUT_ARGS)],
    api_call.update true (some [0x31, 0x32, 0x33, 0x34, 0x35]) 5, rfl, rfl, ?_⟩
  intro e he
  simp only [List.mem_cons, List.mem_singleton, List.not_mem_nil, or_false] at he
  rcases he with rfl | rfl | rfl <;> rfl

/-! ## The starting value of the accumulator (C20) -/

/-- The state a successful `CALC_CRC_Init` leaves satisfies the invariant. -/
theorem api_init_inv (s s' : api_state) (crc : Bool) (conf : Option Nat) (type : Nat)
    (h : api_step s (api_call.init crc conf type) = some (CALC_CRC_STATUS_OK, s')) :
    api_inv s' := by
  simp only [api_step, Option.some.injEq, Prod.mk.injEq] at h
  obtain ⟨hs, rfl⟩ := h
  cases crc with
  | false => simp [CALC_CRC_Init] at hs
  | true =>
    cases conf with
    | none => simp [CALC_CRC_Init] at hs
    | some p =>
      by_cases ht : CALC_CRC_TYPE_MAX ≤ type
      · simp [CALC_CRC_Init, ht] at hs
      · simp only [↓reduceIte]
        rw [init_eq s.mem s.crc p type (by omega)]
        exact ⟨by simp, by simp only [Option.getD_some]; omega,
          by simp only [Option.getD_some]; positivity⟩

/-- Every call keeps the invariant. -/
theorem api_step_inv (s s' : api_state) (call : api_call) (st : calc_crc_status_e)
    (h : api_step s call = some (st, s')) (hinv : api_inv s) : api_inv s' := by
  cases call with
  | init crc conf type =>
    by_cases hs : st = CALC_CRC_STATUS_OK
    · subst hs
      exact api_init_inv s s' crc conf type h
    · simp only [api_step, Option.some.injEq, Prod.mk.injEq] at h
      obtain ⟨rfl, rfl⟩ := h
      cases crc with
      | false => simpa [CALC_CRC_Init] using hinv
      | true =>
        cases conf with
        | none => simpa [CALC_CRC_Init] using hinv
        | some p =>
          by_cases ht : CALC_CRC_TYPE_MAX ≤ type
          · simpa [CALC_CRC_Init, ht] using hinv
          · exfalso
            apply hs
            simp [CALC_CRC_Init, ht]
  | calculate crc data length result =>
    simp only [api_step, Option.map_eq_some', Prod.mk.injEq] at h
    obtain ⟨r, hr, rfl, rfl⟩ := h
    cases crc with
    | false =>
      simp [CALC_CRC_Calculate] at hr
      subst hr
      exact hinv
    | true =>
      simp only [if_true] at hr
      by_cases hs : r.status = CALC_CRC_STATUS_OK
      · obtain ⟨p, d, _, _, _, _, _, hc⟩ := calculate_ok_crc s.mem s.crc data length result r hr hs
        rw [hc]
        obtain ⟨h1, h2, _⟩ := calc_crc_frame s.crc.type s.crc (s.mem p) d length
        refine ⟨?_, ?_, ?_⟩
        · simp only [Option.getD_some, h1]; exact hinv.1
        · simp only [Option.getD_some, h2]; exact hinv.2.1
        · simp only [Option.getD_some, h2]; exact calc_crc_update_crc_lt _ _ _ _ _
      · rw [(calculate_fail_unchanged s.mem _ data length result r hr hs).1]
        exact hinv
  | update crc data length =>
    simp only [api_step, Option.map_eq_some', Prod.mk.injEq] at h
    obtain ⟨r, hr, rfl, rfl⟩ := h
    cases crc with
    | false =>
      simp [CALC_CRC_Update] at hr
      subst hr
      exact hinv
    | true =>
      simp only [if_true] at hr
      by_cases hs : r.status = CALC_CRC_STATUS_OK
      · obtain ⟨p, d, _, _, _, _, _, hc⟩ := update_ok_crc s.mem s.crc data length r hr hs
        rw [hc]
        obtain ⟨h1, h2, _⟩ := calc_crc_frame s.crc.type
          (if s.crc.update_in_progress = false then
            { s.crc with update_crc := 0, update_chunk := 0, update_in_progress := true }
          else s.crc) (s.mem p) d length
        have h1' : (if s.crc.update_in_progress = false then
            { s.crc with update_crc := 0, update_chunk := 0, update_in_progress := true }
          else s.crc).conf = s.crc.conf := by split_ifs <;> rfl
        have h2' : (if s.crc.update_in_progress = false then
            { s.crc with update_crc := 0, update_chunk := 0, update_in_progress := true }
          else s.crc).type = s.crc.type := by split_ifs <;> rfl
        refine ⟨?_, ?_, ?_⟩
        · simp only [Option.getD_some, h1, h1']; exact hinv.1
        · simp only [Option.getD_some, h2, h2']; exact hinv.2.1
        · simp only [Option.getD_some, h2, h2']; exact calc_crc_update_crc_lt _ _ _ _ _
      · rw [update_fail_unchanged s.mem _ data length r hr hs]
        exact hinv
  | finalize crc result =>
    simp only [api_step, Option.some.injEq, Prod.mk.injEq] at h
    obtain ⟨rfl, rfl⟩ := h
    cases crc with
    | false => simpa [CALC_CRC_Finalize] using hinv
    | true =>
      cases result with
      | none => simpa [CALC_CRC_Finalize] using hinv
      | some out =>
        by_cases hin : s.crc.update_in_progress = false
        · simpa [CALC_CRC_Finalize, hin] using hinv
        · unfold api_inv at hinv ⊢
          simpa [CALC_CRC_Finalize, hin] using hinv

/-- Every sequence of calls keeps the invariant. -/
theorem api_run_inv (calls : List api_call) :
    ∀ (s s' : api_state) (statuses : List calc_crc_status_e),
      api_run s calls = some (statuses, s') → api_inv s → api_inv s' := by
  induction calls with
  | nil =>
    intro s s' statuses h hinv
    simp only [api_run, Option.some.injEq, Prod.mk.injEq] at h
    obtain ⟨_, rfl⟩ := h
    exact hinv
  | cons call rest ih =>
    intro s s' statuses h hinv
    simp only [api_run] at h
    cases h1 : api_step s call with
    | none => simp [h1] at h
    | some q =>
      obtain ⟨st, s1⟩ := q
      simp only [h1] at h
      cases h2 : api_run s1 rest with
      | none => simp [h2] at h
      | some q2 =>
        obtain ⟨sts, s2⟩ := q2
        simp only [h2, Option.some.injEq, Prod.mk.injEq] at h
        obtain ⟨_, rfl⟩ := h
        exact ih s1 s2 sts h2 (api_step_inv s s1 call st h1 hinv)

/-- Every state reached from a successful `CALC_CRC_Init` satisfies the invariant. -/
theorem api_reachable_inv (s0 s : api_state) (crc : Bool) (conf : Option Nat) (type : Nat)
    (calls : List api_call) (statuses : List calc_crc_status_e)
    (hrun : api_run s0 (api_call.init crc conf type :: calls) =
      some (CALC_CRC_STATUS_OK :: statuses, s)) : api_inv s := by
  simp only [api_run] at hrun
  cases h1 : api_step s0 (api_call.init crc conf type) with
  | none => simp [h1] at hrun
  | some q =>
    obtain ⟨st, s1⟩ := q
    simp only [h1] at hrun
    cases h2 : api_run s1 calls with
    | none => simp [h2] at hrun
    | some q2 =>
      obtain ⟨sts, s2⟩ := q2
      simp only [h2, Option.some.injEq, Prod.mk.injEq, List.cons.injEq] at hrun
      obtain ⟨⟨rfl, rfl⟩, rfl⟩ := hrun
      exact api_run_inv calls s1 s2 sts h2 (api_init_inv s0 s1 crc conf type h1)

/-- C20, as amended: the starting value is decided by `update_in_progress` together with the
chunk counter.  In every state reached from a successful `CALC_CRC_Init`, for the next
`CALC_CRC_Calculate` or `CALC_CRC_Update` that returns OK: if `update_chunk = 0` the accumulator
starts from the configuration's `initial_value`; if `update_chunk > 0` and
`update_in_progress = true` it starts from the session's `update_crc`; and if
`update_in_progress = false` it starts from `initial_value`, whatever the counter. -/
theorem start_value_by_counter_and_flag (s0 s : api_state) (p type : Nat)
    (calls : List api_call) (statuses : List calc_crc_status_e)
    (hrun : api_run s0 (api_call.init true (some p) type :: calls) =
      some (CALC_CRC_STATUS_OK :: statuses, s))
    (d : List Nat) (length : Nat) :
    (∀ (result : Option Nat) (s' : api_state),
      api_step s (api_call.calculate true (some d) length result) =
        some (CALC_CRC_STATUS_OK, s') →
      (s.crc.update_chunk = 0 → starts_from_initial s s' d length) ∧
      (0 < s.crc.update_chunk → s.crc.update_in_progress = true →
        starts_from_running s s' d length) ∧
      (s.crc.update_in_progress = false → starts_from_initial s s' d length)) ∧
    (∀ s' : api_state,
      api_step s (api_call.update true (some d) length) = some (CALC_CRC_STATUS_OK, s') →
      (s.crc.update_chunk = 0 → starts_from_initial s s' d length) ∧
      (0 < s.crc.update_chunk → s.crc.update_in_progress = true →
        starts_from_running s s' d length) ∧
      (s.crc.update_in_progress = false → starts_from_initial s s' d length)) := by
  obtain ⟨_, _, hlt⟩ := api_reachable_inv s0 s true (some p) type calls statuses hrun
  constructor
  · intro result s' h
    simp only [api_step, Option.map_eq_some', Prod.mk.injEq, if_true] at h
    obtain ⟨r, hr, hs, rfl⟩ := h
    obtain ⟨q, d', hq, hd, _, _, _, hc⟩ :=
      calculate_ok_crc s.mem s.crc (some d) length result r hr hs
    simp only [Option.some.injEq] at hd
    subst hd
    have hacc := calc_crc_update_crc s.crc.type s.crc (s.mem q) d length
    rw [hc]
    simp only [Option.getD_some]
    refine ⟨?_, ?_, ?_⟩
    · intro hk
      exact ⟨q, hq, by rw [hacc]; simp [hk]⟩
    · intro hk hin
      exact ⟨q, hq, by rw [hacc]; simp [hin, Nat.pos_iff_ne_zero.mp hk, Nat.mod_eq_of_lt hlt]⟩
    · intro hin
      exact ⟨q, hq, by rw [hacc]; simp [hin]⟩
  · intro s' h
    simp only [api_step, Option.map_eq_some', Prod.mk.injEq, if_true] at h
    obtain ⟨r, hr, hs, rfl⟩ := h
    obtain ⟨q, d', hq, hd, _, _, _, hc⟩ := update_ok_crc s.mem s.crc (some d) length r hr hs
    simp only [Option.some.injEq] at hd
    subst hd
    rw [hc]
    simp only [Option.getD_some]
    by_cases hin : s.crc.update_in_progress = false
    · have hacc := calc_crc_update_crc s.crc.type
        { s.crc with update_crc := 0, update_chunk := 0, update_in_progress := true }
        (s.mem q) d length
      simp only [hin, if_true]
      refine ⟨?_, ?_, ?_⟩
      · intro _
        exact ⟨q, hq, by rw [hacc]; simp⟩
      · intro _ hin'
        exact absurd hin' (by decide)
      · intro _
        exact ⟨q, hq, by rw [hacc]; simp⟩
    · have hin' : s.crc.update_in_progress = true := by simpa using hin
      have hacc := calc_crc_update_crc s.crc.type s.crc (s.mem q) d length
      simp only [hin', Bool.true_eq_false, if_false]
      refine ⟨?_, ?_, ?_⟩
      · intro hk
        exact ⟨q, hq, by rw [hacc]; simp [hk]⟩
      · intro hk _
        exact ⟨q, hq, by rw [hacc]; simp [hin', Nat.pos_iff_ne_zero.mp hk, Nat.mod_eq_of_lt hlt]⟩
      · intro hf
        exact absurd hf (by decide)

/-- C20, as amended, on the 8-bit configuration of the tests: after init and one update over
`"12345"` the chunk counter is one and the session is in progress, and the next update, over
`"6789"`, starts from `update_crc` and leaves the accumulator `0xFB` of the whole message. -/
theorem start_value_by_counter_and_flag_witness :
    ∃ s s', api_run test_state
        [api_call.init true (some 1) CALC_CRC_TYPE_8BIT,
         api_call.update true (some [0x31, 0x32, 0x33, 0x34, 0x35]) 5] =
        some ([CALC_CRC_STATUS_OK, CALC_CRC_STATUS_OK], s) ∧
      api_step s (api_call.update true (some [0x36, 0x37, 0x38, 0x39]) 4) =
        some (CALC_CRC_STATUS_OK, s') ∧
      starts_from_running s s' [0x36, 0x37, 0x38, 0x39] 4 ∧ s'.crc.update_crc = 0xFB := by
  have hrun : api_run test_state
      [api_call.init true (some 1) CALC_CRC_TYPE_8BIT,
       api_call.update true (some [0x31, 0x32, 0x33, 0x34, 0x35]) 5] =
      some ([CALC_CRC_STATUS_OK, CALC_CRC_STATUS_OK],
        ⟨(CALC_CRC_Init test_state.mem (some test_state.crc) (some 1) CALC_CRC_TYPE_8BIT).mem,
          { conf := some 1, update_crc := 0xF2, update_crc_final := 0x0D, update_chunk := 1,
            type := CALC_CRC_TYPE_8BIT, update_in_progress := true }⟩) := rfl
  have hstep : api_step
      ⟨(CALC_CRC_Init test_state.mem (some test_state.crc) (some 1) CALC_CRC_TYPE_8BIT).mem,
        { conf := some 1, update_crc := 0xF2, update_crc_final := 0x0D, update_chunk := 1,
          type := CALC_CRC_TYPE_8BIT, update_in_progress := true }⟩
      (api_call.update true (some [0x36, 0x37, 0x38, 0x39]) 4) =
      some (CALC_CRC_STATUS_OK,
        ⟨(CALC_CRC_Init test_state.mem (some test_state.crc) (some 1) CALC_CRC_TYPE_8BIT).mem,
          { conf := some 1, update_crc := 0xFB, update_crc_final := 0x04, update_chunk := 2,
            type := CALC_CRC_TYPE_8BIT, update_in_progress := true }⟩) := rfl
  exact ⟨_, _, hrun, hstep,
    ((start_value_by_counter_and_flag test_state _ 1 CALC_CRC_TYPE_8BIT _ _ hrun
      [0x36, 0x37, 0x38, 0x39] 4).2 _ hstep).2.1 (by decide) rfl, rfl⟩

/-- C20 as stated fails after a finished sequence.  On the 8-bit configuration of the tests,
after init, one update over `"12345"` and finalize, the chunk counter is 1 and `update_crc` is
`0xF2`; the next calculate, over `"6789"`, returns OK and leaves the accumulator `0x05`, the
byte loop from `initial_value`, where the byte loop from `update_crc` gives `0xFB`. -/
theorem positive_chunk_counter_starts_from_initial :
    ∃ s s', api_run test_state
        [api_call.init true (some 1) CALC_CRC_TYPE_8BIT,
         api_call.update true (some [0x31, 0x32, 0x33, 0x34, 0x35]) 5,
         api_call.finalize true (some 0)] =
        some ([CALC_CRC_STATUS_OK, CALC_CRC_STATUS_OK, CALC_CRC_STATUS_OK], s) ∧
      s.crc.update_chunk = 1 ∧ s.crc.update_crc = 0xF2 ∧
      api_step s (api_call.calculate true (some [0x36, 0x37, 0x38, 0x39]) 4 (some 0)) =
        some (CALC_CRC_STATUS_OK, s') ∧
      s'.crc.update_crc = 0x05 ∧
      crc_fold CALC_CRC_TYPE_8BIT (s.mem 1) ((s.mem 1).initial_value % 2 ^ 8)
        [0x36, 0x37, 0x38, 0x39] = 0x05 ∧
      crc_fold CALC_CRC_TYPE_8BIT (s.mem 1) s.crc.update_crc [0x36, 0x37, 0x38, 0x39] = 0xFB :=
  ⟨⟨(CALC_CRC_Init test_state.mem (some test_state.crc) (some 1) CALC_CRC_TYPE_8BIT).mem,
      { conf := some 1, update_crc := 0xF2, update_crc_final := 0x0D, update_chunk := 1,
        type := CALC_CRC_TYPE_8BIT, update_in_progress := false }⟩,
    ⟨(CALC_CRC_Init test_state.mem (some test_state.crc) (some 1) CALC_CRC_TYPE_8BIT).mem,
      { conf := some 1, update_crc := 0x05, update_crc_final := 0xFA, update_chunk := 1,
        type := CALC_CRC_TYPE_8BIT, update_in_progress := false }⟩,
    rfl, rfl, rfl, rfl, rfl, by decide, by decide⟩

/-! ## The chunk counter (C21) and the one-shot frame (C22) -/

/-- A `CALC_CRC_Update` that returns OK leaves the session in progress and its counter one above
the counter it resumed from (zero when it started the sequence), modulo the range of `size_t`. -/
theorem update_ok_counter (mem : Memory) (c : calc_crc_t) (data : Option (List Nat))
    (length : Nat) (r : update_ret)
    (h : CALC_CRC_Update mem (some c) data length = some r)
    (hs : r.status = CALC_CRC_STATUS_OK) :
    ∃ c', r.crc = some c' ∧ c'.update_in_progress = true ∧
      c'.update_chunk =
        ((if c.update_in_progress = true then c.update_chunk else 0) + 1) % SIZE_T_RANGE := by
  obtain ⟨p, d, _, _, _, _, _, hc⟩ := update_ok_crc mem c data length r h hs
  refine ⟨_, hc, ?_, ?_⟩
  · rw [(calc_crc_frame _ _ _ _ _).2.2]
    by_cases hin : c.update_in_progress = true
    · simp [hin]
    · simp [hin]
  · by_cases hin : c.update_in_progress = true
    · simp only [hin, Bool.true_eq_false, if_false, if_true]
      rw [calc_crc_busy _ _ _ _ _ hin]
    · have hin' : c.update_in_progress = false := by simpa using hin
      simp only [hin', if_true, Bool.false_eq_true, if_false]
      rw [calc_crc_busy _ _ _ _ _ rfl]

/-- One successful update call of a trace: the flag and the counter it leaves. -/
theorem api_update_ok_counter (s s' : api_state) (call : api_call)
    (h : api_step s call = some (CALC_CRC_STATUS_OK, s')) (hu : is_update call = true) :
    s'.crc.update_in_progress = true ∧
      s'.crc.update_chunk =
        ((if s.crc.update_in_progress = true then s.crc.update_chunk else 0) + 1) %
          SIZE_T_RANGE := by
  cases call with
  | init crc conf type => simp [is_update] at hu
  | calculate crc data length result => simp [is_update] at hu
  | finalize crc result => simp [is_update] at hu
  | update crc data length =>
    cases crc with
    | false => simp [api_step, CALC_CRC_Update] at h
    | true =>
      simp only [api_step, if_true, Option.map_eq_some'] at h
      obtain ⟨r, hr, hrs⟩ := h
      simp only [Prod.mk.injEq] at hrs
      obtain ⟨hst, rfl⟩ := hrs
      obtain ⟨c', hc, hin, hk⟩ := update_ok_counter s.mem s.crc data length r hr hst
      simp only [hc, Option.getD_some]
      exact ⟨hin, hk⟩

/-- Successful updates on a session in progress: each adds one to the counter, modulo the range
of `size_t`, and the session stays in progress. -/
theorem api_updates_counter (calls : List api_call) :
    ∀ (s s' : api_state) (statuses : List calc_crc_status_e),
      api_run s calls = some (statuses, s') →
      (∀ call ∈ calls, is_update call = true) →
      (∀ st ∈ statuses, st = CALC_CRC_STATUS_OK) →
      s.crc.update_in_progress = true →
      s'.crc.update_in_progress = true ∧
        s'.crc.update_chunk =
          if calls.length = 0 then s.crc.update_chunk
          else (s.crc.update_chunk + calls.length) % SIZE_T_RANGE := by
  induction calls with
  | nil =>
    intro s s' statuses h _ _ hin
    simp only [api_run, Option.some.injEq, Prod.mk.injEq] at h
    obtain ⟨_, rfl⟩ := h
    exact ⟨hin, by simp⟩
  | cons call rest ih =>
    intro s s' statuses h hu hok hin
    simp only [api_run] at h
    cases h1 : api_step s call with
    | none => simp [h1] at h
    | some q =>
      obtain ⟨st, s1⟩ := q
      simp only [h1] at h
      cases h2 : api_run s1 rest with
      | none => simp [h2] at h
      | some q2 =>
        obtain ⟨sts, s2⟩ := q2
        simp only [h2, Option.some.injEq, Prod.mk.injEq] at h
        obtain ⟨rfl, rfl⟩ := h
        have hst : st = CALC_CRC_STATUS_OK := hok st (List.mem_cons_self _ _)
        subst hst
        obtain ⟨hin1, hk1⟩ :=
          api_update_ok_counter s s1 call h1 (hu call (List.mem_cons_self _ _))
        obtain ⟨hin2, hk2⟩ := ih s1 s2 sts h2
          (fun c hc => hu c (List.mem_cons_of_mem _ hc))
          (fun x hx => hok x (List.mem_cons_of_mem _ hx)) hin1
        refine ⟨hin2, ?_⟩
        rw [hk2, hk1]
        simp only [hin, if_true, List.length_cons, Nat.add_one_ne_zero, if_false]
        split_ifs with hr
        · rw [hr]
        · unfold SIZE_T_RANGE; omega

/-- C21: the chunk counter counts the chunks of the current sequence. From any state whose
session has no update in progress, whatever its `update_chunk` holds, after a non-empty run of
fewer than `2 ^ 64` calls that are all `CALC_CRC_Update` and all return OK, `update_chunk` is
the number of the calls and `update_in_progress` is true. -/
theorem chunk_counter_counts (s s' : api_state) (calls : List api_call)
    (statuses : List calc_crc_status_e)
    (hrun : api_run s calls = some (statuses, s'))
    (hu : ∀ call ∈ calls, is_update call = true)
    (hok : ∀ st ∈ statuses, st = CALC_CRC_STATUS_OK)
    (hin : s.crc.update_in_progress = false)
    (hne : calls ≠ []) (hlen : calls.length < SIZE_T_RANGE) :
    s'.crc.update_chunk = calls.length ∧ s'.crc.update_in_progress = true := by
  cases calls with
  | nil => exact absurd rfl hne
  | cons call rest =>
    simp only [api_run] at hrun
    cases h1 : api_step s call with
    | none => simp [h1] at hrun
    | some q =>
      obtain ⟨st, s1⟩ := q
      simp only [h1] at hrun
      cases h2 : api_run s1 rest with
      | none => simp [h2] at hrun
      | some q2 =>
        obtain ⟨sts, s2⟩ := q2
        simp only [h2, Option.some.injEq, Prod.mk.injEq] at hrun
        obtain ⟨rfl, rfl⟩ := hrun
        have hst : st = CALC_CRC_STATUS_OK := hok st (List.mem_cons_self _ _)
        subst hst
        obtain ⟨hin1, hk1⟩ :=
          api_update_ok_counter s s1 call h1 (hu call (List.mem_cons_self _ _))
        obtain ⟨hin2, hk2⟩ := api_updates_counter rest s1 s2 sts h2
          (fun c hc => hu c (List.mem_cons_of_mem _ hc))
          (fun x hx => hok x (List.mem_cons_of_mem _ hx)) hin1
        refine ⟨?_, hin2⟩
        rw [hk2, hk1]
        simp only [hin, Bool.false_eq_true, if_false, List.length_cons] at hlen ⊢
        unfold SIZE_T_RANGE at hlen ⊢
        split_ifs with hr
        · omega
        · omega

/-- C21 on a finalized session whose counter still holds 7: after two successful updates the
counter is 2 and the session is in progress. -/
theorem chunk_counter_counts_witness :
    ∃ s, api_run finalized_state
        [api_call.update true (some [0x31, 0x32, 0x33, 0x34, 0x35]) 5,
         api_call.update true (some [0x36, 0x37, 0x38, 0x39]) 4] =
        some ([CALC_CRC_STATUS_OK, CALC_CRC_STATUS_OK], s) ∧
      finalized_state.crc.update_chunk = 7 ∧
      s.crc.update_chunk = 2 ∧ s.crc.update_in_progress = true := by
  have hrun : api_run finalized_state
      [api_call.update true (some [0x31, 0x32, 0x33, 0x34, 0x35]) 5,
       api_call.update true (some [0x36, 0x37, 0x38, 0x39]) 4] =
      some ([CALC_CRC_STATUS_OK, CALC_CRC_STATUS_OK],
        ⟨finalized_state.mem,
          { conf := some 1, update_crc := 0xFB, update_crc_final := 0x04, update_chunk := 2,
            type := CALC_CRC_TYPE_8BIT, update_in_progress := true }⟩) := rfl
  exact ⟨_, hrun, rfl,
    chunk_counter_counts finalized_state _ _ _ hrun
      (by intro call hc
          simp only [List.mem_cons, List.mem_singleton, List.not_mem_nil, or_false] at hc
          rcases hc with rfl | rfl <;> rfl)
      (by intro st hst
          simp only [List.mem_cons, List.mem_singleton, List.not_mem_nil, or_false] at hst
          rcases hst with rfl | rfl <;> rfl)
      rfl (by simp) (by unfold SIZE_T_RANGE; simp)⟩

/-- C22: a one-shot calculate does not start a sequence. On a session with no update in
progress, a `CALC_CRC_Calculate` that returns OK leaves `update_in_progress` false and leaves
`update_chunk`, the config handle and the type tag as they were. -/
theorem calculate_does_not_start_sequence (mem : Memory) (c : calc_crc_t)
    (data : Option (List Nat)) (length : Nat) (result : Option Nat) (r : calc_ret)
    (hin : c.update_in_progress = false)
    (h : CALC_CRC_Calculate mem (some c) data length result = some r)
    (hs : r.status = CALC_CRC_STATUS_OK) :
    ∃ c', r.crc = some c' ∧ c'.update_in_progress = false ∧
      c'.update_chunk = c.update_chunk ∧ c'.conf = c.conf ∧ c'.type = c.type := by
  obtain ⟨p, d, _, _, _, _, _, hc⟩ := calculate_ok_crc mem c data length result r h hs
  refine ⟨_, hc, ?_⟩
  rw [calc_crc_idle _ _ _ _ _ hin]
  exact ⟨hin, rfl, rfl, rfl⟩

/-- C22 on the finalized session of the tests: a calculate over `"123456789"` returns OK and
leaves the flag false, the counter 7, the handle and the tag. -/
theorem calculate_does_not_start_sequence_witness :
    finalized_state.crc.update_in_progress = false ∧
    CALC_CRC_Calculate finalized_state.mem (some finalized_state.crc) (some check_data) 9
        (some 0) =
      some ⟨CALC_CRC_STATUS_OK,
        some { conf := some 1, update_crc := 0xFB, update_crc_final := 0x04, update_chunk := 7,
               type := CALC_CRC_TYPE_8BIT, update_in_progress := false }, some 0x04⟩ ∧
    ∃ c', (some { conf := some 1, update_crc := 0xFB, update_crc_final := 0x04,
                  update_chunk := 7, type := CALC_CRC_TYPE_8BIT,
                  update_in_progress := false } : Option calc_crc_t) = some c' ∧
      c'.update_in_progress = false ∧
      c'.update_chunk = finalized_state.crc.update_chunk ∧
      c'.conf = finalized_state.crc.conf ∧ c'.type = finalized_state.crc.type :=
  ⟨rfl, by decide,
    calculate_does_not_start_sequence finalized_state.mem finalized_state.crc (some check_data) 9
      (some 0)
      ⟨CALC_CRC_STATUS_OK,
        some { conf := some 1, update_crc := 0xFB, update_crc_final := 0x04, update_chunk := 7,
               type := CALC_CRC_TYPE_8BIT, update_in_progress := false }, some 0x04⟩
      rfl (by decide) rfl⟩

/-! ## Reflection toggles (C23, C24) -/

/-- C23: CRC-8 reflection toggles. With polynomial 0x07 and initial and final value 0,
`CALC_CRC_Calculate` over `"123456789"` returns OK and writes 0xF4 with both reflections off,
0x20 with both on and 0x2F with only the output reflection on, both when the configuration is
declared so before `CALC_CRC_Init` and when the caller sets the fields on the same configuration
after the one init, as the test does. -/
theorem crc8_reflection_toggles :
    declared_value CALC_CRC_TYPE_8BIT
        { table := [], polynomial := 0x07, initial_value := 0, final_value := 0,
          input_reflected := false, output_reflected := false } =
      some (CALC_CRC_STATUS_OK, some 0xF4) ∧
    declared_value CALC_CRC_TYPE_8BIT
        { table := [], polynomial := 0x07, initial_value := 0, final_value := 0,
          input_reflected := true, output_reflected := true } =
      some (CALC_CRC_STATUS_OK, some 0x20) ∧
    declared_value CALC_CRC_TYPE_8BIT
        { table := [], polynomial := 0x07, initial_value := 0, final_value := 0,
          input_reflected := false, output_reflected := true } =
      some (CALC_CRC_STATUS_OK, some 0x2F) ∧
    toggle_results CALC_CRC_TYPE_8BIT 0x07 =
      some [(CALC_CRC_STATUS_OK, some 0xF4), (CALC_CRC_STATUS_OK, some 0x20),
        (CALC_CRC_STATUS_OK, some 0x2F)] := by
  refine ⟨?_, ?_, ?_, ?_⟩ <;> decide

/-- C24: CRC-16/32/64 reflection toggles. With initial and final value 0 over `"123456789"`,
`CALC_CRC_Calculate` returns OK and writes, with no reflection, both reflections and output-only
reflection: 0x31C3, 0x2189, 0xC38C for the 16-bit type with polynomial 0x1021; 0x89A1897F,
0x2DFD2D88, 0xFE918591 for the 32-bit type with polynomial 0x04C11DB7; 0x6C40DF5F0B497347,
0x2B9C7EE4E2780C8A, 0xE2CE92D0FAFB0236 for the 64-bit type with polynomial 0x42F0E1EBA9EA3693;
both when the configuration is declared so before `CALC_CRC_Init` and when the caller sets
the fields on the same configuration after the one init, as the tests do. -/
theorem crc16_32_64_reflection_toggles :
    declared_value CALC_CRC_TYPE_16BIT
        { table := [], polynomial := 0x1021, initial_value := 0, final_value := 0,
          input_reflected := false, output_reflected := false } =
      some (CALC_CRC_STATUS_OK, some 0x31C3) ∧
    declared_value CALC_CRC_TYPE_16BIT
        { table := [], polynomial := 0x1021, initial_value := 0, final_value := 0,
          input_reflected := true, output_reflected := true } =
      some (CALC_CRC_STATUS_OK, some 0x2189) ∧
    declared_value CALC_CRC_TYPE_16BIT
        { table := [], polynomial := 0x1021, initial_value := 0, final_value := 0,
          input_reflected := false, output_reflected := true } =
      some (CALC_CRC_STATUS_OK, some 0xC38C) ∧
    declared_value CALC_CRC_TYPE_32BIT
        { table := [], polynomial := 0x04C11DB7, initial_value := 0, final_value := 0,
          input_reflected := false, output_reflected := false } =
      some (CALC_CRC_STATUS_OK, some 0x89A1897F) ∧
    declared_value CALC_CRC_TYPE_32BIT
        { table := [], polynomial := 0x04C11DB7, initial_value := 0, final_value := 0,
          input_reflected := true, output_reflected := true } =
      some (CALC_CRC_STATUS_OK, some 0x2DFD2D88) ∧
    declared_value CALC_CRC_TYPE_32BIT
        { table := [], polynomial := 0x04C11DB7, initial_value := 0, final_value := 0,
          input_reflected := false, output_reflected := true } =
      some (CALC_CRC_STATUS_OK, some 0xFE918591) ∧
    declared_value CALC_CRC_TYPE_64BIT
        { table := [], polynomial := 0x42F0E1EBA9EA3693, initial_value := 0, final_value := 0,
          input_reflected := false, output_reflected := false } =
      some (CALC_CRC_STATUS_OK, some 0x6C40DF5F0B497347) ∧
    declared_value CALC_CRC_TYPE_64BIT
        { table := [], polynomial := 0x42F0E1EBA9EA3693, initial_value := 0, final_value := 0,
          input_reflected := true, output_reflected := true } =
      some (CALC_CRC_STATUS_OK, some 0x2B9C7EE4E2780C8A) ∧
    declared_value CALC_CRC_TYPE_64BIT
        { table := [], polynomial := 0x42F0E1EBA9EA3693, initial_value := 0, final_value := 0,
          input_reflected := false, output_reflected := true } =
      some (CALC_CRC_STATUS_OK, some 0xE2CE92D0FAFB0236) ∧
    toggle_results CALC_CRC_TYPE_16BIT 0x1021 =
      some [(CALC_CRC_STATUS_OK, some 0x31C3), (CALC_CRC_STATUS_OK, some 0x2189),
        (CALC_CRC_STATUS_OK, some 0xC38C)] ∧
    toggle_results CALC_CRC_TYPE_32BIT 0x04C11DB7 =
      some [(CALC_CRC_STATUS_OK, some 0x89A1897F), (CALC_CRC_STATUS_OK, some 0x2DFD2D88),
        (CALC_CRC_STATUS_OK, some 0xFE918591)] ∧
    toggle_results CALC_CRC_TYPE_64BIT 0x42F0E1EBA9EA3693 =
      some [(CALC_CRC_STATUS_OK, some 0x6C40DF5F0B497347),
        (CALC_CRC_STATUS_OK, some 0x2B9C7EE4E2780C8A),
        (CALC_CRC_STATUS_OK, some 0xE2CE92D0FAFB0236)] := by
  refine ⟨?_, ?_, ?_, ?_, ?_, ?_, ?_, ?_, ?_, ?_, ?_, ?_⟩ <;> decide

/-! ## The table (C26, C27) and the configuration frame (C28) -/

theorem foldl_zero_fixed {α : Type} (f : Nat → α → Nat) (h : ∀ a, f 0 a = 0) (l : List α) :
    l.foldl f 0 = 0 := by
  induction l with
  | nil => rfl
  | cons a l ih => rw [List.foldl_cons, h a]; exact ih

/-- The table of every width has 0 at index 0. -/
theorem build_table_zero (type polynomial : Nat) :
    (build_table type polynomial)[0]? = some 0 := by
  unfold build_table _calc_table_crc8 _calc_table_crc16 _calc_table_crc32 _calc_table_crc64
  split_ifs <;>
    · simp only [List.getElem?_map, List.getElem?_range (by norm_num : 0 < 256), Option.map_some',
        Nat.zero_mod, Nat.zero_shiftLeft, Option.some.injEq]
      exact foldl_zero_fixed _ (fun _ => by simp) _

/-- C26: table entry zero. For each of the four type tags and every polynomial, the table that
a successful `CALC_CRC_Init` builds in the configuration has the value 0 at index 0. -/
theorem table_entry_zero (mem : Memory) (crc0 : calc_crc_t) (p type : Nat)
    (ht : type < CALC_CRC_TYPE_MAX) :
    (CALC_CRC_Init mem (some crc0) (some p) type).status = CALC_CRC_STATUS_OK ∧
    ((CALC_CRC_Init mem (some crc0) (some p) type).mem p).table[0]? = some 0 := by
  rw [init_eq mem crc0 p type ht]
  exact ⟨rfl, by simp only [Function.update_same]; exact build_table_zero _ _⟩

/-- C26 on the 8-bit configuration of the tests, polynomial 0x07: entry 0 of the table is 0. -/
theorem table_entry_zero_witness :
    (mem_of (test_conf 0x07 0xFF 0xFF) 1).polynomial = 0x07 ∧
    (CALC_CRC_Init (mem_of (test_conf 0x07 0xFF 0xFF)) (some stale_crc) (some 1)
      CALC_CRC_TYPE_8BIT).status = CALC_CRC_STATUS_OK ∧
    ((CALC_CRC_Init (mem_of (test_conf 0x07 0xFF 0xFF)) (some stale_crc) (some 1)
      CALC_CRC_TYPE_8BIT).mem 1).table[0]? = some 0 :=
  ⟨rfl, table_entry_zero (mem_of (test_conf 0x07 0xFF 0xFF)) stale_crc 1 CALC_CRC_TYPE_8BIT
    (by decide)⟩

/-- C27: the table is a function of the type tag and the polynomial only. After a successful
`CALC_CRC_Init`, two configurations with the same polynomial, whatever their earlier tables,
initial values, final values and reflection flags, hold the same table; and a second
`CALC_CRC_Init` on the same configuration leaves the table, and the whole configuration memory,
as the first left it. -/
theorem table_function_of_polynomial (mem mem' : Memory) (crc0 crc0' crc1 : calc_crc_t)
    (p p' type : Nat) (ht : type < CALC_CRC_TYPE_MAX)
    (hpoly : (mem p).polynomial = (mem' p').polynomial) :
    ((CALC_CRC_Init mem (some crc0) (some p) type).mem p).table =
      ((CALC_CRC_Init mem' (some crc0') (some p') type).mem p').table ∧
    ((CALC_CRC_Init (CALC_CRC_Init mem (some crc0) (some p) type).mem (some crc1) (some p)
        type).mem p).table =
      ((CALC_CRC_Init mem (some crc0) (some p) type).mem p).table ∧
    (CALC_CRC_Init (CALC_CRC_Init mem (some crc0) (some p) type).mem (some crc1) (some p)
        type).mem =
      (CALC_CRC_Init mem (some crc0) (some p) type).mem := by
  rw [init_eq _ crc1 p type ht, init_eq mem crc0 p type ht, init_eq mem' crc0' p' type ht]
  simp only [Function.update_same, Function.update_idem]
  exact ⟨by rw [hpoly], trivial, trivial⟩

/-- C27 on two 8-bit configurations with polynomial 0x07 that differ in everything else. -/
theorem table_function_of_polynomial_witness :
    ((CALC_CRC_Init (mem_of (test_conf 0x07 0xFF 0xFF)) (some stale_crc) (some 1)
        CALC_CRC_TYPE_8BIT).mem 1).table =
      ((CALC_CRC_Init
        (mem_of { table := [1, 2, 3], polynomial := 0x07, initial_value := 0,
                  final_value := 0x55, input_reflected := true, output_reflected := true })
        (some stale_crc) (some 2) CALC_CRC_TYPE_8BIT).mem 2).table :=
  (table_function_of_polynomial (mem_of (test_conf 0x07 0xFF 0xFF))
    (mem_of { table := [1, 2, 3], polynomial := 0x07, initial_value := 0,
              final_value := 0x55, input_reflected := true, output_reflected := true })
    stale_crc stale_crc stale_crc 1 2 CALC_CRC_TYPE_8BIT (by decide) rfl).1

/-- C28: the configuration frame. A `CALC_CRC_Init` that returns OK was given a configuration,
leaves its polynomial, initial value, final value and both reflection flags as they were, and
leaves every other configuration as it was; a `CALC_CRC_Calculate`, `CALC_CRC_Update` or
`CALC_CRC_Finalize`, whatever it returns, leaves the configuration memory as it was (these
functions hold no assignment to a configuration in the source, so the step of the trace passes
the memory on). -/
theorem config_frame :
    (∀ (mem : Memory) (crc : Option calc_crc_t) (conf : Option Nat) (type : Nat),
      (CALC_CRC_Init mem crc conf type).status = CALC_CRC_STATUS_OK →
      ∃ p, conf = some p ∧
        ((CALC_CRC_Init mem crc conf type).mem p).polynomial = (mem p).polynomial ∧
        ((CALC_CRC_Init mem crc conf type).mem p).initial_value = (mem p).initial_value ∧
        ((CALC_CRC_Init mem crc conf type).mem p).final_value = (mem p).final_value ∧
        ((CALC_CRC_Init mem crc conf type).mem p).input_reflected = (mem p).input_reflected ∧
        ((CALC_CRC_Init mem crc conf type).mem p).output_reflected =
          (mem p).output_reflected ∧
        ∀ q, q ≠ p → (CALC_CRC_Init mem crc conf type).mem q = mem q) ∧
    (∀ (s s' : api_state) (call : api_call) (st : calc_crc_status_e),
      api_step s call = some (st, s') → is_init call = false → s'.mem = s.mem) := by
  constructor
  · intro mem crc conf type hs
    cases crc with
    | none => simp [CALC_CRC_Init] at hs
    | some c =>
      cases conf with
      | none => simp [CALC_CRC_Init] at hs
      | some p =>
        by_cases ht : CALC_CRC_TYPE_MAX ≤ type
        · simp [CALC_CRC_Init, ht] at hs
        · rw [init_eq mem c p type (by omega)]
          refine ⟨p, rfl, ?_, ?_, ?_, ?_, ?_, ?_⟩
          · simp only [Function.update_same]
          · simp only [Function.update_same]
          · simp only [Function.update_same]
          · simp only [Function.update_same]
          · simp only [Function.update_same]
          · intro q hq
            simp only [Function.update_noteq hq]
  · intro s s' call st h hi
    cases call with
    | init crc conf type => simp [is_init] at hi
    | calculate crc data length result =>
      simp only [api_step, Option.map_eq_some', Prod.mk.injEq] at h
      obtain ⟨r, _, _, rfl⟩ := h
      rfl
    | update crc data length =>
      simp only [api_step, Option.map_eq_some', Prod.mk.injEq] at h
      obtain ⟨r, _, _, rfl⟩ := h
      rfl
    | finalize crc result =>
      simp only [api_step, Option.some.injEq, Prod.mk.injEq] at h
      obtain ⟨_, rfl⟩ := h
      rfl

/-! ## Width-bounded storage (C29) -/

theorem calc_crc_update_crc_final_lt (type : Nat) (c : calc_crc_t) (conf : calc_crc_conf)
    (d : List Nat) (length : Nat) :
    (calc_crc type c conf d length).2.update_crc_final < 2 ^ crc_bits type := by
  simp only [calc_crc]
  exact crc_adjust_lt _ _ _

/-- A call that is no `CALC_CRC_Init` leaves the type tag and the config handle of the session
as they were, whatever it returns. -/
theorem api_step_type_conf (s s' : api_state) (call : api_call) (st : calc_crc_status_e)
    (h : api_step s call = some (st, s')) (hi : is_init call = false) :
    s'.crc.type = s.crc.type ∧ s'.crc.conf = s.crc.conf := by
  cases call with
  | init crc conf type => simp [is_init] at hi
  | calculate crc data length result =>
    simp only [api_step, Option.map_eq_some', Prod.mk.injEq] at h
    obtain ⟨r, hr, _, rfl⟩ := h
    cases crc with
    | false =>
      simp [CALC_CRC_Calculate] at hr
      subst hr
      exact ⟨rfl, rfl⟩
    | true =>
      simp only [if_true] at hr
      by_cases hs : r.status = CALC_CRC_STATUS_OK
      · obtain ⟨p, d, _, _, _, _, _, hc⟩ := calculate_ok_crc s.mem s.crc data length result r hr hs
        obtain ⟨h1, h2, _⟩ := calc_crc_frame s.crc.type s.crc (s.mem p) d length
        simp only [hc, Option.getD_some]
        exact ⟨h2, h1⟩
      · rw [(calculate_fail_unchanged s.mem _ data length result r hr hs).1]
        exact ⟨rfl, rfl⟩
  | update crc data length =>
    simp only [api_step, Option.map_eq_some', Prod.mk.injEq] at h
    obtain ⟨r, hr, _, rfl⟩ := h
    cases crc with
    | false =>
      simp [CALC_CRC_Update] at hr
      subst hr
      exact ⟨rfl, rfl⟩
    | true =>
      simp only [if_true] at hr
      by_cases hs : r.status = CALC_CRC_STATUS_OK
      · obtain ⟨p, d, _, _, _, _, _, hc⟩ := update_ok_crc s.mem s.crc data length r hr hs
        obtain ⟨h1, h2, _⟩ := calc_crc_frame s.crc.type
          (if s.crc.update_in_progress = false then
            { s.crc with update_crc := 0, update_chunk := 0, update_in_progress := true }
          else s.crc) (s.mem p) d length
        simp only [hc, Option.getD_some, h1, h2]
        constructor <;> split_ifs <;> rfl
      · rw [update_fail_unchanged s.mem _ data length r hr hs]
        exact ⟨rfl, rfl⟩
  | finalize crc result =>
    simp only [api_step, Option.some.injEq, Prod.mk.injEq] at h
    obtain ⟨_, rfl⟩ := h
    cases crc with
    | false => exact ⟨rfl, rfl⟩
    | true =>
      cases result with
      | none => exact ⟨rfl, rfl⟩
      | some out =>
        by_cases hin : s.crc.update_in_progress = false
        · simp [CALC_CRC_Finalize, hin]
        · simp [CALC_CRC_Finalize, hin]

/-- A sequence of calls with no `CALC_CRC_Init` among them leaves the type tag and the config
handle of the session as they were. -/
theorem api_run_type_conf (calls : List api_call) :
    ∀ (s s' : api_state) (statuses : List calc_crc_status_e),
      api_run s calls = some (statuses, s') → (∀ call ∈ calls, is_init call = false) →
      s'.crc.type = s.crc.type ∧ s'.crc.conf = s.crc.conf := by
  induction calls with
  | nil =>
    intro s s' statuses h _
    simp only [api_run, Option.some.injEq, Prod.mk.injEq] at h
    obtain ⟨_, rfl⟩ := h
    exact ⟨rfl, rfl⟩
  | cons call rest ih =>
    intro s s' statuses h hi
    simp only [api_run] at h
    cases h1 : api_step s call with
    | none => simp [h1] at h
    | some q =>
      obtain ⟨st, s1⟩ := q
      simp only [h1] at h
      cases h2 : api_run s1 rest with
      | none => simp [h2] at h
      | some q2 =>
        obtain ⟨sts, s2⟩ := q2
        simp only [h2, Option.some.injEq, Prod.mk.injEq] at h
        obtain ⟨_, rfl⟩ := h
        obtain ⟨a1, a2⟩ := api_step_type_conf s s1 call st h1 (hi call (List.mem_cons_self _ _))
        obtain ⟨b1, b2⟩ := ih s1 s2 sts h2 (fun c hc => hi c (List.mem_cons_of_mem _ hc))
        exact ⟨b1.trans a1, b2.trans a2⟩

/-- Every call keeps `update_crc_final` a value of the width of the session's type tag. -/
theorem api_step_final_inv (s s' : api_state) (call : api_call) (st : calc_crc_status_e)
    (h : api_step s call = some (st, s')) (hinv : final_inv s) : final_inv s' := by
  cases call with
  | init crc conf type =>
    simp only [api_step, Option.some.injEq, Prod.mk.injEq] at h
    obtain ⟨_, rfl⟩ := h
    cases crc with
    | false => simpa [CALC_CRC_Init] using hinv
    | true =>
      cases conf with
      | none => simpa [CALC_CRC_Init] using hinv
      | some p =>
        by_cases ht : CALC_CRC_TYPE_MAX ≤ type
        · simpa [CALC_CRC_Init, ht] using hinv
        · simp only [↓reduceIte]
          rw [init_eq s.mem s.crc p type (by omega)]
          unfold final_inv
          simp only [Option.getD_some]
          positivity
  | calculate crc data length result =>
    simp only [api_step, Option.map_eq_some', Prod.mk.injEq] at h
    obtain ⟨r, hr, _, rfl⟩ := h
    cases crc with
    | false =>
      simp [CALC_CRC_Calculate] at hr
      subst hr
      exact hinv
    | true =>
      simp only [if_true] at hr
      by_cases hs : r.status = CALC_CRC_STATUS_OK
      · obtain ⟨p, d, _, _, _, _, _, hc⟩ := calculate_ok_crc s.mem s.crc data length result r hr hs
        obtain ⟨_, h2, _⟩ := calc_crc_frame s.crc.type s.crc (s.mem p) d length
        unfold final_inv
        simp only [hc, Option.getD_some, h2]
        exact calc_crc_update_crc_final_lt _ _ _ _ _
      · rw [(calculate_fail_unchanged s.mem _ data length result r hr hs).1]
        exact hinv
  | update crc data length =>
    simp only [api_step, Option.map_eq_some', Prod.mk.injEq] at h
    obtain ⟨r, hr, _, rfl⟩ := h
    cases crc with
    | false =>
      simp [CALC_CRC_Update] at hr
      subst hr
      exact hinv
    | true =>
      simp only [if_true] at hr
      by_cases hs : r.status = CALC_CRC_STATUS_OK
      · obtain ⟨p, d, _, _, _, _, _, hc⟩ := update_ok_crc s.mem s.crc data length r hr hs
        obtain ⟨_, h2, _⟩ := calc_crc_frame s.crc.type
          (if s.crc.update_in_progress = false then
            { s.crc with update_crc := 0, update_chunk := 0, update_in_progress := true }
          else s.crc) (s.mem p) d length
        have h2' : (if s.crc.update_in_progress = false then
            { s.crc with update_crc := 0, update_chunk := 0, update_in_progress := true }
          else s.crc).type = s.crc.type := by split_ifs <;> rfl
        unfold final_inv
        simp only [hc, Option.getD_some, h2, h2']
        exact calc_crc_update_crc_final_lt _ _ _ _ _
      · rw [update_fail_unchanged s.mem _ data length r hr hs]
        exact hinv
  | finalize crc result =>
    simp only [api_step, Option.some.injEq, Prod.mk.injEq] at h
    obtain ⟨_, rfl⟩ := h
    cases crc with
    | false => simpa [CALC_CRC_Finalize] using hinv
    | true =>
      cases result with
      | none => simpa [CALC_CRC_Finalize] using hinv
      | some out =>
        by_cases hin : s.crc.update_in_progress = false
        · simpa [CALC_CRC_Finalize, hin] using hinv
        · unfold final_inv at hinv ⊢
          simpa [CALC_CRC_Finalize, hin] using hinv

/-- Every sequence of calls keeps `update_crc_final` a value of the width of the session's type
tag. -/
theorem api_run_final_inv (calls : List api_call) :
    ∀ (s s' : api_state) (statuses : List calc_crc_status_e),
      api_run s calls = some (statuses, s') → final_inv s → final_inv s' := by
  induction calls with
  | nil =>
    intro s s' statuses h hinv
    simp only [api_run, Option.some.injEq, Prod.mk.injEq] at h
    obtain ⟨_, rfl⟩ := h
    exact hinv
  | cons call rest ih =>
    intro s s' statuses h hinv
    simp only [api_run] at h
    cases h1 : api_step s call with
    | none => simp [h1] at h
    | some q =>
      obtain ⟨st, s1⟩ := q
      simp only [h1] at h
      cases h2 : api_run s1 rest with
      | none => simp [h2] at h
      | some q2 =>
        obtain ⟨sts, s2⟩ := q2
        simp only [h2, Option.some.injEq, Prod.mk.injEq] at h
        obtain ⟨_, rfl⟩ := h
        exact ih s1 s2 sts h2 (api_step_final_inv s s1 call st h1 hinv)

/-- The state a `CALC_CRC_Init` that returned OK leaves: the session holds the type tag of the
call and zero in `update_crc_final`. -/
theorem api_init_type (s s' : api_state) (crc : Bool) (conf : Option Nat) (type : Nat)
    (h : api_step s (api_call.init crc conf type) = some (CALC_CRC_STATUS_OK, s')) :
    s'.crc.type = type ∧ final_inv s' := by
  simp only [api_step, Option.some.injEq, Prod.mk.injEq] at h
  obtain ⟨hs, rfl⟩ := h
  cases crc with
  | false => simp [CALC_CRC_Init] at hs
  | true =>
    cases conf with
    | none => simp [CALC_CRC_Init] at hs
    | some p =>
      by_cases ht : CALC_CRC_TYPE_MAX ≤ type
      · simp [CALC_CRC_Init, ht] at hs
      · simp only [↓reduceIte]
        rw [init_eq s.mem s.crc p type (by omega)]
        unfold final_inv
        simp only [Option.getD_some]
        exact ⟨trivial, by positivity⟩

/-- C29: width-bounded 64-bit storage. In every state that a sequence of calls reaches after a
`CALC_CRC_Init` that returned OK, `update_crc` and `update_crc_final` are below `2 ^ w` for the
width `w` of the session's type tag, so the truncations `(uintN_t)crc->update_crc` in
`_calc_crcN` and `(uintN_t)crc->update_crc_final` in `CALC_CRC_Finalize` return the stored
values; and when none of the later calls is a `CALC_CRC_Init`, the session's type tag is the
one of that init. -/
theorem width_bounded_storage (s0 s : api_state) (crc : Bool) (conf : Option Nat) (type : Nat)
    (calls : List api_call) (statuses : List calc_crc_status_e)
    (hrun : api_run s0 (api_call.init crc conf type :: calls) =
      some (CALC_CRC_STATUS_OK :: statuses, s)) :
    s.crc.update_crc < 2 ^ crc_bits s.crc.type ∧
    s.crc.update_crc_final < 2 ^ crc_bits s.crc.type ∧
    s.crc.update_crc % 2 ^ crc_bits s.crc.type = s.crc.update_crc ∧
    s.crc.update_crc_final % 2 ^ crc_bits s.crc.type = s.crc.update_crc_final ∧
    ((∀ call ∈ calls, is_init call = false) → s.crc.type = type) := by
  have hinv := api_reachable_inv s0 s crc conf type calls statuses hrun
  simp only [api_run] at hrun
  cases h1 : api_step s0 (api_call.init crc conf type) with
  | none => simp [h1] at hrun
  | some q =>
    obtain ⟨st, s1⟩ := q
    simp only [h1] at hrun
    cases h2 : api_run s1 calls with
    | none => simp [h2] at hrun
    | some q2 =>
      obtain ⟨sts, s2⟩ := q2
      simp only [h2, Option.some.injEq, Prod.mk.injEq, List.cons.injEq] at hrun
      obtain ⟨⟨rfl, rfl⟩, rfl⟩ := hrun
      obtain ⟨ht, hf1⟩ := api_init_type s0 s1 crc conf type h1
      have hf : final_inv s2 := api_run_final_inv calls s1 s2 sts h2 hf1
      refine ⟨hinv.2.2, hf, Nat.mod_eq_of_lt hinv.2.2, Nat.mod_eq_of_lt hf, ?_⟩
      intro hi
      rw [(api_run_type_conf calls s1 s2 sts h2 hi).1, ht]

/-- C29 on the 16-bit CCITT configuration: after init, two updates and a finalize, the stored
values 0x29B1 and 0xD64E are below `2 ^ 16`. -/
theorem width_bounded_storage_witness :
    ∃ s, api_run ⟨mem_of (test_conf 0x1021 0xFFFF 0xFFFF), stale_crc⟩
        [api_call.init true (some 1) CALC_CRC_TYPE_16BIT,
         api_call.update true (some [0x31, 0x32, 0x33, 0x34, 0x35]) 5,
         api_call.update true (some [0x36, 0x37, 0x38, 0x39]) 4,
         api_call.finalize true (some 0)] =
        some ([CALC_CRC_STATUS_OK, CALC_CRC_STATUS_OK, CALC_CRC_STATUS_OK, CALC_CRC_STATUS_OK],
          s) ∧
      s.crc.update_crc = 0x29B1 ∧ s.crc.update_crc_final = 0xD64E ∧
      s.crc.update_crc < 2 ^ crc_bits s.crc.type ∧
      s.crc.update_crc_final < 2 ^ crc_bits s.crc.type := by
  have hrun : api_run ⟨mem_of (test_conf 0x1021 0xFFFF 0xFFFF), stale_crc⟩
      [api_call.init true (some 1) CALC_CRC_TYPE_16BIT,
       api_call.update true (some [0x31, 0x32, 0x33, 0x34, 0x35]) 5,
       api_call.update true (some [0x36, 0x37, 0x38, 0x39]) 4,
       api_call.finalize true (some 0)] =
      some ([CALC_CRC_STATUS_OK, CALC_CRC_STATUS_OK, CALC_CRC_STATUS_OK, CALC_CRC_STATUS_OK],
        ⟨(CALC_CRC_Init (mem_of (test_conf 0x1021 0xFFFF 0xFFFF)) (some stale_crc) (some 1)
            CALC_CRC_TYPE_16BIT).mem,
          { conf := some 1, update_crc := 0x29B1, update_crc_final := 0xD64E, update_chunk := 2,
            type := CALC_CRC_TYPE_16BIT, update_in_progress := false }⟩) := rfl
  have h := width_bounded_storage _ _ true (some 1) CALC_CRC_TYPE_16BIT _ _ hrun
  exact ⟨_, hrun, rfl, rfl, h.1, h.2.1⟩

/-! ## The table-driven step and the bit-serial CRC (C30) -/

theorem spec_bit_step_lt (w polynomial reg : Nat) (hp : polynomial < 2 ^ w) :
    spec_bit_step w polynomial reg < 2 ^ w := by
  unfold spec_bit_step
  split_ifs
  · exact Nat.xor_lt_two_pow (Nat.mod_lt _ (by positivity)) hp
  · exact Nat.mod_lt _ (by positivity)

theorem spec_bit_step_iterate_lt (w polynomial : Nat) (hp : polynomial < 2 ^ w) (k : Nat) :
    ∀ reg, reg < 2 ^ w → (spec_bit_step w polynomial)^[k] reg < 2 ^ w := by
  induction k with
  | zero => intro reg h; exact h
  | succ k ih =>
    intro reg _
    rw [Function.iterate_succ_apply]
    exact ih _ (spec_bit_step_lt w polynomial reg hp)

theorem shiftLeft_one_xor_mod (w x l : Nat) (hw : 1 ≤ w) (hl : l < 2 ^ (w - 1)) :
    ((x ^^^ l) <<< 1) % 2 ^ w = ((x <<< 1) % 2 ^ w) ^^^ (l <<< 1) := by
  apply Nat.eq_of_testBit_eq
  intro i
  simp only [Nat.testBit_xor, Nat.testBit_mod_two_pow, Nat.testBit_shiftLeft]
  by_cases hi : i < w
  · by_cases h1 : 1 ≤ i <;> simp [hi, h1]
  · have hl' : l.testBit (i - 1) = false := by
      apply Nat.testBit_lt_two_pow
      exact lt_of_lt_of_le hl (Nat.pow_le_pow_right (by norm_num) (by omega))
    simp [hi, hl']

/-- The bit step is XOR-linear in a part of the register whose top bit is clear. -/
theorem spec_bit_step_xor (w polynomial x l : Nat) (hw : 1 ≤ w) (hl : l < 2 ^ (w - 1)) :
    spec_bit_step w polynomial (x ^^^ l) = spec_bit_step w polynomial x ^^^ (l <<< 1) := by
  unfold spec_bit_step
  have ht : (x ^^^ l).testBit (w - 1) = x.testBit (w - 1) := by
    rw [Nat.testBit_xor, Nat.testBit_lt_two_pow hl]; simp
  rw [ht, shiftLeft_one_xor_mod w x l hw hl]
  split_ifs
  · rw [Nat.xor_assoc, Nat.xor_comm (l <<< 1), ← Nat.xor_assoc]
  · rfl

theorem spec_bit_step_iterate_xor (w polynomial : Nat) (k : Nat) :
    k ≤ w → ∀ x l, l < 2 ^ (w - k) →
      (spec_bit_step w polynomial)^[k] (x ^^^ l) =
        (spec_bit_step w polynomial)^[k] x ^^^ (l <<< k) := by
  induction k with
  | zero => intro _ x l _; rfl
  | succ k ih =>
    intro hk x l hl
    rw [Function.iterate_succ_apply, Function.iterate_succ_apply]
    have hl1 : l < 2 ^ (w - 1) :=
      lt_of_lt_of_le hl (Nat.pow_le_pow_right (by norm_num) (by omega))
    rw [spec_bit_step_xor w polynomial x l (by omega) hl1]
    have hl2 : l <<< 1 < 2 ^ (w - k) := by
      rw [Nat.shiftLeft_eq]
      have : 2 ^ (w - k) = 2 ^ (w - (k + 1)) * 2 ^ 1 := by
        rw [← pow_add]; congr 1; omega
      rw [this]
      exact Nat.mul_lt_mul_of_pos_right hl (by norm_num)
    rw [ih (by omega) _ _ hl2, ← Nat.shiftLeft_add, Nat.add_comm 1 k]

theorem xor_top_byte_split (w r b : Nat) :
    r ^^^ (b <<< (w - 8)) = (((r >>> (w - 8)) ^^^ b) <<< (w - 8)) ^^^ (r % 2 ^ (w - 8)) := by
  apply Nat.eq_of_testBit_eq
  intro i
  simp only [Nat.testBit_xor, Nat.testBit_mod_two_pow, Nat.testBit_shiftLeft,
    Nat.testBit_shiftRight]
  by_cases hi : w - 8 ≤ i
  · have h1 : w - 8 + (i - (w - 8)) = i := by omega
    have h2 : ¬ i < w - 8 := by omega
    simp [hi, h1, h2]
  · have h2 : i < w - 8 := by omega
    simp [hi, h2]

theorem low_part_shiftLeft (w r : Nat) (hw : 8 ≤ w) :
    (r % 2 ^ (w - 8)) <<< 8 = (r <<< 8) % 2 ^ w := by
  apply Nat.eq_of_testBit_eq
  intro i
  simp only [Nat.testBit_mod_two_pow, Nat.testBit_shiftLeft]
  by_cases h8 : 8 ≤ i
  · by_cases hi : i < w
    · have : i - 8 < w - 8 := by omega
      simp [h8, hi, this]
    · have : ¬ i - 8 < w - 8 := by omega
      simp [h8, hi, this]
  · simp [h8]

/-- The byte step of the bit-serial CRC splits into the register shifted by a byte and the
eight bit steps of the index byte alone. -/
theorem spec_byte_step_split (w polynomial r b : Nat) (hw : 8 ≤ w) :
    spec_byte_step w polynomial r b =
      ((r <<< 8) % 2 ^ w) ^^^
        (spec_bit_step w polynomial)^[8] (((r >>> (w - 8)) ^^^ b) <<< (w - 8)) := by
  unfold spec_byte_step
  rw [xor_top_byte_split w r b,
    spec_bit_step_iterate_xor w polynomial 8 hw _ _ (Nat.mod_lt _ (by positivity)),
    low_part_shiftLeft w r hw, Nat.xor_comm]

/-- The body of the bit loop of `_calc_table_crcN` is the bit step of the specification. -/
theorem table_bit_step_eq (w mask polynomial c : Nat) (hmask : mask = 1 <<< (w - 1))
    (hp : polynomial < 2 ^ w) :
    (if c &&& mask ≠ 0 then (((c <<< 1) % 2 ^ w) ^^^ polynomial) % 2 ^ w
      else (c <<< 1) % 2 ^ w) = spec_bit_step w polynomial c := by
  unfold spec_bit_step
  subst hmask
  by_cases hb : c.testBit (w - 1) = true
  · rw [if_pos hb, if_pos ((and_one_shiftLeft_ne_zero c (w - 1)).2 hb)]
    exact Nat.mod_eq_of_lt (Nat.xor_lt_two_pow (Nat.mod_lt _ (by positivity)) hp)
  · rw [if_neg hb, if_neg (fun h => hb ((and_one_shiftLeft_ne_zero c (w - 1)).1 h))]

theorem table_entry_eq (w mask polynomial start : Nat) (hmask : mask = 1 <<< (w - 1))
    (hp : polynomial < 2 ^ w) :
    (List.range 8).foldl
        (fun cbyte (_ : Nat) =>
          if cbyte &&& mask ≠ 0 then (((cbyte <<< 1) % 2 ^ w) ^^^ polynomial) % 2 ^ w
          else (cbyte <<< 1) % 2 ^ w) start =
      (spec_bit_step w polynomial)^[8] start := by
  have hf : (fun cbyte (_ : Nat) =>
        if cbyte &&& mask ≠ 0 then (((cbyte <<< 1) % 2 ^ w) ^^^ polynomial) % 2 ^ w
        else (cbyte <<< 1) % 2 ^ w) = fun cbyte (_ : Nat) => spec_bit_step w polynomial cbyte := by
    funext c _
    exact table_bit_step_eq w mask polynomial c hmask hp
  rw [hf, List.foldl_const, List.length_range]

theorem shiftLeft_top_byte_mod (w idx : Nat) (hw : 8 ≤ w) (hidx : idx < 256) :
    (idx <<< (w - 8)) % 2 ^ w = idx <<< (w - 8) := by
  apply Nat.mod_eq_of_lt
  rw [Nat.shiftLeft_eq]
  have h : 2 ^ w = 2 ^ 8 * 2 ^ (w - 8) := by
    rw [← pow_add]; congr 1; omega
  rw [h]
  exact Nat.mul_lt_mul_of_pos_right (by norm_num; exact hidx) (by positivity)

/-- The table `_calc_table_crcN` builds holds, at each index, the register after the eight bit
steps of the index placed in the top byte. -/
theorem build_table_getD (type polynomial idx : Nat) (ht : type < CALC_CRC_TYPE_MAX)
    (hp : polynomial < 2 ^ crc_bits type) (hidx : idx < 256) :
    (build_table type polynomial).getD idx 0 =
      (spec_bit_step (crc_bits type) polynomial)^[8] (idx <<< (crc_bits type - 8)) := by
  have h4 : type = 0 ∨ type = 1 ∨ type = 2 ∨ type = 3 := by
    unfold CALC_CRC_TYPE_MAX at ht; omega
  rcases h4 with rfl | rfl | rfl | rfl
  · have hb : crc_bits 0 = 8 := rfl
    have htab : build_table 0 polynomial = _calc_table_crc8 polynomial := rfl
    rw [hb] at hp ⊢
    rw [htab]
    unfold _calc_table_crc8
    rw [List.getD_eq_getElem?_getD, List.getElem?_map, List.getElem?_range hidx]
    simp only [Option.map_some', Option.getD_some]
    rw [table_entry_eq 8 0x80 polynomial _ rfl hp, Nat.mod_eq_of_lt (by omega)]
    simp only [Nat.sub_self, Nat.shiftLeft_zero]
  · have hb : crc_bits 1 = 16 := rfl
    have htab : build_table 1 polynomial = _calc_table_crc16 polynomial := rfl
    have hs := shiftLeft_top_byte_mod 16 idx (by norm_num) hidx
    rw [hb] at hp ⊢
    rw [htab]
    unfold _calc_table_crc16
    rw [List.getD_eq_getElem?_getD, List.getElem?_map, List.getElem?_range hidx]
    simp only [Option.map_some', Option.getD_some]
    rw [table_entry_eq 16 0x8000 polynomial _ rfl hp]
    simp only [Nat.reduceSub] at hs ⊢
    rw [hs]
  · have hb : crc_bits 2 = 32 := rfl
    have htab : build_table 2 polynomial = _calc_table_crc32 polynomial := rfl
    have hs := shiftLeft_top_byte_mod 32 idx (by norm_num) hidx
    rw [hb] at hp ⊢
    rw [htab]
    unfold _calc_table_crc32
    rw [List.getD_eq_getElem?_getD, List.getElem?_map, List.getElem?_range hidx]
    simp only [Option.map_some', Option.getD_some]
    rw [table_entry_eq 32 0x80000000 polynomial _ rfl hp]
    simp only [Nat.reduceSub] at hs ⊢
    rw [hs]
  · have hb : crc_bits 3 = 64 := rfl
    have htab : build_table 3 polynomial = _calc_table_crc64 polynomial := rfl
    have hs := shiftLeft_top_byte_mod 64 idx (by norm_num) hidx
    rw [hb] at hp ⊢
    rw [htab]
    unfold _calc_table_crc64
    rw [List.getD_eq_getElem?_getD, List.getElem?_map, List.getElem?_range hidx]
    simp only [Option.map_some', Option.getD_some]
    rw [table_entry_eq 64 0x8000000000000000 polynomial _ rfl hp]
    simp only [Nat.reduceSub] at hs ⊢
    rw [hs]

theorem crc_bits_ge (type : Nat) : 8 ≤ crc_bits type := by
  unfold crc_bits
  split_ifs <;> norm_num

theorem shiftRight_top_byte_lt (s r : Nat) (hr : r < 2 ^ (s + 8)) : r >>> s < 2 ^ 8 := by
  rw [Nat.shiftRight_eq_div_pow]
  apply Nat.div_lt_of_lt_mul
  rw [← pow_add]
  exact hr

theorem top_byte_index (s r b : Nat) (hr : r < 2 ^ (s + 8)) (hb : b < 2 ^ 8) :
    ((r ^^^ ((b <<< s) % 2 ^ (s + 8))) >>> s) % 2 ^ 8 = (r >>> s) ^^^ b := by
  apply Nat.eq_of_testBit_eq
  intro i
  simp only [Nat.testBit_xor, Nat.testBit_mod_two_pow, Nat.testBit_shiftLeft,
    Nat.testBit_shiftRight]
  by_cases hi : i < 8
  · simp [hi]
  · have h1 : r.testBit (s + i) = false :=
      Nat.testBit_lt_two_pow
        (lt_of_lt_of_le hr (Nat.pow_le_pow_right (by norm_num) (by omega)))
    have h2 : b.testBit i = false :=
      Nat.testBit_lt_two_pow
        (lt_of_lt_of_le hb (Nat.pow_le_pow_right (by norm_num) (by omega)))
    simp [hi, h1, h2]

theorem input_byte_lt (conf : calc_crc_conf) (d : Nat) : input_byte conf d < 2 ^ 8 :=
  Nat.mod_lt _ (by positivity)

/-- Every entry of the table `_calc_table_crcN` builds is a value of the width. -/
theorem build_table_getD_lt (type polynomial idx : Nat) (ht : type < CALC_CRC_TYPE_MAX)
    (hp : polynomial < 2 ^ crc_bits type) :
    (build_table type polynomial).getD idx 0 < 2 ^ crc_bits type := by
  by_cases hidx : idx < 256
  · rw [build_table_getD type polynomial idx ht hp hidx]
    apply spec_bit_step_iterate_lt _ _ hp
    rw [← shiftLeft_top_byte_mod _ idx (crc_bits_ge type) hidx]
    exact Nat.mod_lt _ (by positivity)
  · rw [List.getD_eq_default _ _ (by rw [build_table_length]; omega)]
    positivity

/-- The table-driven step, in the specification's words, on the table of `_calc_table_crcN` is
the byte step of the bit-serial CRC. -/
theorem spec_table_step_eq (type polynomial r b : Nat) (ht : type < CALC_CRC_TYPE_MAX)
    (hp : polynomial < 2 ^ crc_bits type) (hr : r < 2 ^ crc_bits type) (hb : b < 2 ^ 8) :
    spec_table_step (crc_bits type) (build_table type polynomial) r b =
      spec_byte_step (crc_bits type) polynomial r b := by
  have hw := crc_bits_ge type
  have hr' : r < 2 ^ (crc_bits type - 8 + 8) := by
    rw [Nat.sub_add_cancel hw]; exact hr
  have hidx : (r >>> (crc_bits type - 8)) ^^^ b < 256 :=
    Nat.xor_lt_two_pow (shiftRight_top_byte_lt _ r hr') hb
  unfold spec_table_step
  rw [spec_byte_step_split _ polynomial r b hw, build_table_getD type polynomial _ ht hp hidx]

/-- The body of the byte loop of `_calc_crcN`, on the table `_calc_table_crcN` built, is the
table-driven step in the specification's words: the same index and the same new register for
each of the four widths. -/
theorem crc_step_eq_spec_table_step (type : Nat) (conf : calc_crc_conf) (r d : Nat)
    (ht : type < CALC_CRC_TYPE_MAX) (htab : conf.table = build_table type conf.polynomial)
    (hp : conf.polynomial < 2 ^ crc_bits type) (hr : r < 2 ^ crc_bits type) :
    crc_step type conf r d =
      spec_table_step (crc_bits type) conf.table r (input_byte conf d) := by
  have hb := input_byte_lt conf d
  have hent : ∀ idx, conf.table.getD idx 0 < 2 ^ crc_bits type := by
    intro idx; rw [htab]; exact build_table_getD_lt type _ idx ht hp
  have h4 : type = 0 ∨ type = 1 ∨ type = 2 ∨ type = 3 := by
    unfold CALC_CRC_TYPE_MAX at ht; omega
  unfold spec_table_step
  rcases h4 with rfl | rfl | rfl | rfl
  · have hbits : crc_bits 0 = 8 := rfl
    have hsrc : crc_step 0 conf r d =
        (conf.table.getD (r ^^^ input_byte conf d) 0) % 2 ^ 8 := rfl
    rw [hbits] at hr hent ⊢
    rw [hsrc, Nat.mod_eq_of_lt (hent _)]
    have hz : (r <<< 8) % 2 ^ 8 = 0 := by
      rw [Nat.shiftLeft_eq]; exact Nat.mul_mod_left _ _
    simp only [hz, Nat.sub_self, Nat.shiftRight_zero, Nat.zero_xor]
  · have hbits : crc_bits 1 = 16 := rfl
    have hsrc : crc_step 1 conf r d =
        (((r <<< 8) % 2 ^ 16) ^^^
          conf.table.getD (((r >>> 8) ^^^ input_byte conf d) % 2 ^ 8) 0) % 2 ^ 16 := rfl
    rw [hbits] at hr hent ⊢
    rw [hsrc, Nat.mod_eq_of_lt (Nat.xor_lt_two_pow (Nat.mod_lt _ (by positivity)) (hent _)),
      Nat.mod_eq_of_lt (Nat.xor_lt_two_pow (shiftRight_top_byte_lt 8 r hr) hb)]
  · have hbits : crc_bits 2 = 32 := rfl
    have hsrc : crc_step 2 conf r d =
        (((r <<< 8) % 2 ^ 32) ^^^
          conf.table.getD
            (((r ^^^ ((input_byte conf d <<< 24) % 2 ^ 32)) >>> 24) % 2 ^ 8) 0) % 2 ^ 32 := rfl
    have hidx := top_byte_index 24 r (input_byte conf d) hr hb
    rw [hbits] at hr hent ⊢
    simp only [Nat.reduceAdd] at hidx
    rw [hsrc, Nat.mod_eq_of_lt (Nat.xor_lt_two_pow (Nat.mod_lt _ (by positivity)) (hent _)),
      hidx]
  · have hbits : crc_bits 3 = 64 := rfl
    have hsrc : crc_step 3 conf r d =
        (((r <<< 8) % 2 ^ 64) ^^^
          conf.table.getD
            (((r ^^^ ((input_byte conf d <<< 56) % 2 ^ 64)) >>> 56) % 2 ^ 8) 0) % 2 ^ 64 := rfl
    have hidx := top_byte_index 56 r (input_byte conf d) hr hb
    rw [hbits] at hr hent ⊢
    simp only [Nat.reduceAdd] at hidx
    rw [hsrc, Nat.mod_eq_of_lt (Nat.xor_lt_two_pow (Nat.mod_lt _ (by positivity)) (hent _)),
      hidx]

/-- The byte loop of `_calc_crcN` on the table built is the bit-serial CRC of the bytes the
loop feeds. -/
theorem crc_fold_eq_spec_bit_serial (type : Nat) (conf : calc_crc_conf)
    (ht : type < CALC_CRC_TYPE_MAX) (htab : conf.table = build_table type conf.polynomial)
    (hp : conf.polynomial < 2 ^ crc_bits type) (bytes : List Nat) :
    ∀ start, start < 2 ^ crc_bits type →
      crc_fold type conf start bytes =
        spec_bit_serial (crc_bits type) conf.polynomial start
          (bytes.map (input_byte conf)) := by
  induction bytes with
  | nil => intro start _; rfl
  | cons b bs ih =>
    intro start hs
    have h1 : crc_step type conf start b =
        spec_byte_step (crc_bits type) conf.polynomial start (input_byte conf b) := by
      rw [crc_step_eq_spec_table_step type conf start b ht htab hp hs, htab]
      exact spec_table_step_eq type _ start _ ht hp hs (input_byte_lt conf b)
    have h2 := ih (crc_step type conf start b) (crc_step_lt type conf start b)
    simp only [crc_fold, spec_bit_serial, List.foldl_cons, List.map_cons] at h2 ⊢
    rw [← h1]
    exact h2

/-- C30: the table-driven step refines the bit-serial CRC. For each of the four type tags, with
width `w`, every polynomial below `2 ^ w` and the table `CALC_CRC_Init` builds from it: for
every register `r` below `2 ^ w` and every byte `b`, the table-driven step (index the top byte
of `r` XOR `b`, new register `r` shifted left by 8 and truncated to `w` bits XOR the table entry)
equals XORing `b` into the top byte of `r` and doing the bit step eight times; the body of the
byte loop of `_calc_crcN` is that table-driven step on the byte it feeds; hence the accumulator
of the byte loop over any byte list, from any start below `2 ^ w`, is the register of the
bit-serial CRC. -/
theorem table_step_refines_bit_serial (mem : Memory) (crc0 : calc_crc_t) (p type : Nat)
    (ht : type < CALC_CRC_TYPE_MAX) (hp : (mem p).polynomial < 2 ^ crc_bits type) :
    (∀ r b, r < 2 ^ crc_bits type → b < 2 ^ 8 →
      spec_table_step (crc_bits type)
          ((CALC_CRC_Init mem (some crc0) (some p) type).mem p).table r b =
        spec_byte_step (crc_bits type) (mem p).polynomial r b) ∧
    (∀ r d, r < 2 ^ crc_bits type →
      crc_step type ((CALC_CRC_Init mem (some crc0) (some p) type).mem p) r d =
        spec_table_step (crc_bits type)
          ((CALC_CRC_Init mem (some crc0) (some p) type).mem p).table r
          (input_byte ((CALC_CRC_Init mem (some crc0) (some p) type).mem p) d)) ∧
    (∀ start bytes, start < 2 ^ crc_bits type →
      crc_fold type ((CALC_CRC_Init mem (some crc0) (some p) type).mem p) start bytes =
        spec_bit_serial (crc_bits type) (mem p).polynomial start
          (bytes.map (input_byte ((CALC_CRC_Init mem (some crc0) (some p) type).mem p)))) := by
  rw [init_eq mem crc0 p type ht]
  simp only [Function.update_same]
  refine ⟨?_, ?_, ?_⟩
  · intro r b hr hb
    exact spec_table_step_eq type _ r b ht hp hr hb
  · intro r d hr
    exact crc_step_eq_spec_table_step type _ r d ht rfl hp hr
  · intro start bytes hs
    exact crc_fold_eq_spec_bit_serial type
      { mem p with table := build_table type (mem p).polynomial } ht rfl hp bytes start hs

set_option maxRecDepth 100000 in
/-- C30 on the 16-bit CCITT configuration of the tests: the byte loop over `"123456789"` from
0xFFFF is the bit-serial register, 0x29B1. -/
theorem table_step_refines_bit_serial_witness :
    crc_fold CALC_CRC_TYPE_16BIT
        ((CALC_CRC_Init (mem_of (test_conf 0x1021 0xFFFF 0xFFFF)) (some stale_crc) (some 1)
          CALC_CRC_TYPE_16BIT).mem 1) 0xFFFF check_data =
      spec_bit_serial 16 0x1021 0xFFFF check_data ∧
    spec_bit_serial 16 0x1021 0xFFFF check_data = 0x29B1 :=
  ⟨(table_step_refines_bit_serial (mem_of (test_conf 0x1021 0xFFFF 0xFFFF)) stale_crc 1
      CALC_CRC_TYPE_16BIT (by decide)
      (by simp [mem_of, test_conf, crc_bits, CALC_CRC_TYPE_16BIT, CALC_CRC_TYPE_8BIT])).2.2
      0xFFFF check_data
      (by simp [crc_bits, CALC_CRC_TYPE_16BIT, CALC_CRC_TYPE_8BIT]),
    by decide⟩

/-! ## The Rocksoft model (C25) -/

theorem spec_bit_reverse_succ (w x : Nat) :
    spec_bit_reverse (w + 1) x = 2 * spec_bit_reverse w x + (x.testBit w).toNat := by
  unfold spec_bit_reverse
  rw [List.range_succ, List.foldl_append]
  rfl

theorem testBit_spec_bit_reverse (w x : Nat) :
    ∀ j, (spec_bit_reverse w x).testBit j = (decide (j < w) && x.testBit (w - 1 - j)) := by
  induction w with
  | zero => intro j; simp [spec_bit_reverse]
  | succ w ih =>
    intro j
    rw [spec_bit_reverse_succ, ← Nat.bit_val]
    cases j with
    | zero => simp [Nat.testBit_bit_zero]
    | succ j =>
      rw [Nat.testBit_bit_succ, ih j]
      have h : w + 1 - 1 - (j + 1) = w - 1 - j := by omega
      rw [h]
      by_cases hj : j < w <;> simp [hj]

/-- The bit reversal of the specification is what the loop of `_reflect_crcN` computes. -/
theorem spec_bit_reverse_eq (w x : Nat) : spec_bit_reverse w x = reflect_loop w x w := by
  apply Nat.eq_of_testBit_eq
  intro j
  rw [testBit_spec_bit_reverse, testBit_reflect]

theorem spec_bit_reverse_xor (w a b : Nat) :
    spec_bit_reverse w (a ^^^ b) = spec_bit_reverse w a ^^^ spec_bit_reverse w b := by
  apply Nat.eq_of_testBit_eq
  intro j
  simp only [Nat.testBit_xor, testBit_spec_bit_reverse]
  by_cases hj : j < w <;> simp [hj]

theorem crc_reflect_eq (type x : Nat) :
    crc_reflect type x = spec_bit_reverse (crc_bits type) x := by
  rw [spec_bit_reverse_eq]
  unfold crc_reflect crc_bits
  split_ifs <;> rfl

theorem input_byte_eq (conf : calc_crc_conf) (b : Nat) (hb : b < 256) :
    input_byte conf b = if conf.input_reflected then spec_bit_reverse 8 b else b := by
  unfold input_byte
  split_ifs
  · rw [reflect_crc8_eq, spec_bit_reverse_eq]
    exact Nat.mod_eq_of_lt (reflect_loop_lt 8 b)
  · exact Nat.mod_eq_of_lt (by omega)

/-- The final adjustment of `_calc_crcN` on a register and a final value of the width: the
Rocksoft output stage with the final value bit-reversed when the output is reflected. -/
theorem crc_adjust_eq (type : Nat) (conf : calc_crc_conf) (acc : Nat)
    (hacc : acc < 2 ^ crc_bits type) (hfin : conf.final_value < 2 ^ crc_bits type) :
    crc_adjust type conf acc =
      (if conf.output_reflected then spec_bit_reverse (crc_bits type) acc else acc) ^^^
        (if conf.output_reflected then spec_bit_reverse (crc_bits type) conf.final_value
          else conf.final_value) := by
  unfold crc_adjust
  simp only
  rw [Nat.mod_eq_of_lt (Nat.xor_lt_two_pow hacc hfin)]
  split_ifs
  · rw [crc_reflect_eq, spec_bit_reverse_xor]
  · rfl

/-- The value `_calc_crcN` returns on a session with no update in progress, for a table built
from the polynomial and parameters of the width: the Rocksoft-model CRC in which the final XOR
value is bit-reversed when the output is reflected. -/
theorem calc_value_rocksoft (type : Nat) (conf : calc_crc_conf) (d : List Nat)
    (ht : type < CALC_CRC_TYPE_MAX) (htab : conf.table = build_table type conf.polynomial)
    (hpoly : conf.polynomial < 2 ^ crc_bits type)
    (hinit : conf.initial_value < 2 ^ crc_bits type)
    (hfin : conf.final_value < 2 ^ crc_bits type) (hbytes : ∀ b ∈ d, b < 256) :
    crc_adjust type conf (crc_fold type conf (conf.initial_value % 2 ^ crc_bits type) d) =
      rocksoft_crc (crc_bits type) conf.polynomial conf.initial_value conf.input_reflected
        conf.output_reflected
        (if conf.output_reflected then spec_bit_reverse (crc_bits type) conf.final_value
          else conf.final_value) d := by
  have hmap : d.map (input_byte conf) =
      d.map fun b => if conf.input_reflected then spec_bit_reverse 8 b else b :=
    List.map_congr_left fun b hb => input_byte_eq conf b (hbytes b hb)
  rw [Nat.mod_eq_of_lt hinit,
    crc_adjust_eq type conf _ (crc_fold_lt type conf d _ hinit) hfin,
    crc_fold_eq_spec_bit_serial type conf ht htab hpoly d _ hinit, hmap]
  rfl

/-- C25, as the code has it: on a session with no update in progress whose configuration holds
the table built from its polynomial, for every type tag, polynomial, initial value and final
XOR value of the width, both reflection flags and every non-empty buffer of bytes,
`CALC_CRC_Calculate` returns OK and writes the register of the MSB-first processing of the
(input-reflected) bytes XORed with the final value and then, when `output_reflected` is set,
bit-reversed over the width: the Rocksoft-model CRC for the parameters with `xorout` the
bit-reversed final value when the output is reflected. It is the Rocksoft-model CRC for
`xorout = final_value` when the output is not reflected or the final value is its own bit
reversal. -/
theorem calculate_rocksoft_xor_before_reflection (mem : Memory) (c : calc_crc_t) (p : Nat)
    (d : List Nat) (v : Nat)
    (ht : c.type < CALC_CRC_TYPE_MAX) (hp : c.conf = some p)
    (hin : c.update_in_progress = false)
    (htab : (mem p).table = build_table c.type (mem p).polynomial)
    (hpoly : (mem p).polynomial < 2 ^ crc_bits c.type)
    (hinit : (mem p).initial_value < 2 ^ crc_bits c.type)
    (hfin : (mem p).final_value < 2 ^ crc_bits c.type)
    (hne : d ≠ []) (hbytes : ∀ b ∈ d, b < 256) :
    (∃ c', CALC_CRC_Calculate mem (some c) (some d) d.length (some v) =
      some ⟨CALC_CRC_STATUS_OK, some c',
        some (rocksoft_crc (crc_bits c.type) (mem p).polynomial (mem p).initial_value
          (mem p).input_reflected (mem p).output_reflected
          (if (mem p).output_reflected then
            spec_bit_reverse (crc_bits c.type) (mem p).final_value
          else (mem p).final_value) d)⟩) ∧
    (((mem p).output_reflected = false ∨
        spec_bit_reverse (crc_bits c.type) (mem p).final_value = (mem p).final_value) →
      ∃ c', CALC_CRC_Calculate mem (some c) (some d) d.length (some v) =
        some ⟨CALC_CRC_STATUS_OK, some c',
          some (rocksoft_crc (crc_bits c.type) (mem p).polynomial (mem p).initial_value
            (mem p).input_reflected (mem p).output_reflected (mem p).final_value d)⟩) := by
  have h0 : d.length ≠ 0 := by
    intro h; exact hne (List.length_eq_zero.mp h)
  have key : ∃ c', CALC_CRC_Calculate mem (some c) (some d) d.length (some v) =
      some ⟨CALC_CRC_STATUS_OK, some c',
        some (rocksoft_crc (crc_bits c.type) (mem p).polynomial (mem p).initial_value
          (mem p).input_reflected (mem p).output_reflected
          (if (mem p).output_reflected then
            spec_bit_reverse (crc_bits c.type) (mem p).final_value
          else (mem p).final_value) d)⟩ := by
    rw [calculate_eq_calc_crc mem c p d d.length v ht hp h0 (le_refl _),
      calc_crc_idle _ _ _ _ _ hin, List.take_length,
      calc_value_rocksoft c.type (mem p) d ht htab hpoly hinit hfin hbytes]
    exact ⟨_, rfl⟩
  refine ⟨key, ?_⟩
  intro h
  rcases h with h | h
  · simpa [h] using key
  · simpa [h] using key

set_option maxRecDepth 100000 in
/-- The claim C25 fails when the output is reflected and the final XOR value is not its own bit
reversal: for the 8-bit configuration with polynomial 0x07, initial value 0, final XOR value
0x01 and the output reflection on, `CALC_CRC_Calculate` over `"123456789"` right after
`CALC_CRC_Init` writes 0xAF, and the Rocksoft-model CRC for these parameters is 0x2E. -/
theorem rocksoft_fails_for_reflected_output :
    declared_value CALC_CRC_TYPE_8BIT xorout_conf = some (CALC_CRC_STATUS_OK, some 0xAF) ∧
    rocksoft_crc 8 xorout_conf.polynomial xorout_conf.initial_value
        xorout_conf.input_reflected xorout_conf.output_reflected xorout_conf.final_value
        check_data = 0x2E ∧
    rocksoft_crc 8 0x07 0 false true 0x01 check_data = 0x2E := by
  refine ⟨?_, ?_, ?_⟩ <;> decide

set_option maxRecDepth 100000 in
/-- C25 as amended, on the 8-bit configuration with polynomial 0x07, initial value 0, final XOR
value 0x01 and the output reflection on: the value written over `"123456789"` is the Rocksoft
CRC with `xorout` the bit-reversed final value 0x80, which is 0xAF. -/
theorem calculate_rocksoft_xor_before_reflection_witness :
    (∃ c', CALC_CRC_Calculate
        (CALC_CRC_Init (mem_of xorout_conf) (some stale_crc) (some 1) CALC_CRC_TYPE_8BIT).mem
        (some { conf := some 1, update_crc := 0, update_crc_final := 0, update_chunk := 0,
                type := CALC_CRC_TYPE_8BIT, update_in_progress := false })
        (some check_data) 9 (some 0) =
      some ⟨CALC_CRC_STATUS_OK, some c',
        some (rocksoft_crc 8 0x07 0 false true (spec_bit_reverse 8 0x01) check_data)⟩) ∧
    rocksoft_crc 8 0x07 0 false true (spec_bit_reverse 8 0x01) check_data = 0xAF :=
  ⟨(calculate_rocksoft_xor_before_reflection
      (CALC_CRC_Init (mem_of xorout_conf) (some stale_crc) (some 1) CALC_CRC_TYPE_8BIT).mem
      { conf := some 1, update_crc := 0, update_crc_final := 0, update_chunk := 0,
        type := CALC_CRC_TYPE_8BIT, update_in_progress := false }
      1 check_data 0 (by decide) rfl rfl (by decide) (by decide) (by decide) (by decide)
      (by decide) (by decide)).1,
    by decide⟩

/-! ## The two reflections (C31, C32) -/

/-- The value `_calc_crcN` returns with `output_reflected` set is the reflection of the value
it returns with `output_reflected` clear, on the same session, configuration and buffer. -/
theorem calc_crc_output_reflected (type : Nat) (c : calc_crc_t) (conf : calc_crc_conf)
    (d : List Nat) (length : Nat) :
    (calc_crc type c { conf with output_reflected := true } d length).1 =
      crc_reflect type (calc_crc type c { conf with output_reflected := false } d length).1 :=
  rfl

/-- The value and the session `_calc_crcN` returns with `input_reflected` set are those it
returns with `input_reflected` clear on the buffer whose bytes went through `_reflect_crc8`. -/
theorem calc_crc_input_reflected (type : Nat) (c : calc_crc_t) (conf : calc_crc_conf)
    (d : List Nat) (length : Nat) :
    calc_crc type c { conf with input_reflected := true } d length =
      calc_crc type c { conf with input_reflected := false } (d.map _reflect_crc8) length := by
  have hstep : ∀ r b, crc_step type { conf with input_reflected := true } r b =
      crc_step type { conf with input_reflected := false } r (_reflect_crc8 b) := by
    intro r b
    simp [crc_step]
  have hfold : ∀ (l : List Nat) (start : Nat),
      crc_fold type { conf with input_reflected := true } start l =
        crc_fold type { conf with input_reflected := false } start (l.map _reflect_crc8) := by
    intro l
    induction l with
    | nil => intro start; simp [crc_fold]
    | cons b bs ih =>
      intro start
      simp only [crc_fold, List.map_cons, List.foldl_cons] at ih ⊢
      rw [hstep]
      exact ih _
  simp only [calc_crc, ← List.map_take, hfold, crc_adjust]

/-- C31: output reflection only reverses the result. For every type tag in range, every
configuration (polynomial, initial value, final value, `input_reflected`, table) and every
buffer with a non-zero length within it, on the same session, the value `CALC_CRC_Calculate`
writes with `output_reflected` set is `_reflect_crcN` of the value it writes with
`output_reflected` clear; both calls return OK. -/
theorem output_reflection_reverses (mem : Memory) (c : calc_crc_t) (p : Nat) (d : List Nat)
    (length v : Nat) (ht : c.type < CALC_CRC_TYPE_MAX) (hp : c.conf = some p)
    (h0 : length ≠ 0) (hl : length ≤ d.length) :
    ∃ c1 c2 x y,
      CALC_CRC_Calculate (Function.update mem p { mem p with output_reflected := true })
          (some c) (some d) length (some v) = some ⟨CALC_CRC_STATUS_OK, some c1, some x⟩ ∧
      CALC_CRC_Calculate (Function.update mem p { mem p with output_reflected := false })
          (some c) (some d) length (some v) = some ⟨CALC_CRC_STATUS_OK, some c2, some y⟩ ∧
      x = crc_reflect c.type y := by
  refine ⟨_, _, _, _, calculate_eq_calc_crc _ c p d length v ht hp h0 hl,
    calculate_eq_calc_crc _ c p d length v ht hp h0 hl, ?_⟩
  simp only [Function.update_same]
  exact calc_crc_output_reflected c.type c (mem p) d length

/-- C31 on the cases of the tests: 0xF4 becomes 0x2F for the 8-bit type with polynomial 0x07,
and `_reflect_crc16` takes 0x31C3 to 0xC38C. -/
theorem output_reflection_reverses_witness :
    (∃ c1 c2 x y,
      CALC_CRC_Calculate
          (Function.update
            (CALC_CRC_Init (mem_of (test_conf 0x07 0 0)) (some stale_crc) (some 1)
              CALC_CRC_TYPE_8BIT).mem 1
            { (CALC_CRC_Init (mem_of (test_conf 0x07 0 0)) (some stale_crc) (some 1)
                CALC_CRC_TYPE_8BIT).mem 1 with output_reflected := true })
          (some { conf := some 1, update_crc := 0, update_crc_final := 0, update_chunk := 0,
                  type := CALC_CRC_TYPE_8BIT, update_in_progress := false })
          (some check_data) 9 (some 0) = some ⟨CALC_CRC_STATUS_OK, some c1, some x⟩ ∧
      CALC_CRC_Calculate
          (Function.update
            (CALC_CRC_Init (mem_of (test_conf 0x07 0 0)) (some stale_crc) (some 1)
              CALC_CRC_TYPE_8BIT).mem 1
            { (CALC_CRC_Init (mem_of (test_conf 0x07 0 0)) (some stale_crc) (some 1)
                CALC_CRC_TYPE_8BIT).mem 1 with output_reflected := false })
          (some { conf := some 1, update_crc := 0, update_crc_final := 0, update_chunk := 0,
                  type := CALC_CRC_TYPE_8BIT, update_in_progress := false })
          (some check_data) 9 (some 0) = some ⟨CALC_CRC_STATUS_OK, some c2, some y⟩ ∧
      x = crc_reflect CALC_CRC_TYPE_8BIT y) ∧
    crc_reflect CALC_CRC_TYPE_8BIT 0xF4 = 0x2F ∧
    crc_reflect CALC_CRC_TYPE_16BIT 0x31C3 = 0xC38C :=
  ⟨output_reflection_reverses
      (CALC_CRC_Init (mem_of (test_conf 0x07 0 0)) (some stale_crc) (some 1)
        CALC_CRC_TYPE_8BIT).mem
      { conf := some 1, update_crc := 0, update_crc_final := 0, update_chunk := 0,
        type := CALC_CRC_TYPE_8BIT, update_in_progress := false }
      1 check_data 9 0 (by decide) rfl (by decide) (by decide),
    by decide, by decide⟩

/-- C32: input reflection is a per-byte preprocessing. For every type tag in range (the 16-,
32- and 64-bit types included: the byte goes through `_reflect_crc8`, not through the reflection
of the width), every configuration and every buffer with a non-zero length within it, on the
same session, `CALC_CRC_Calculate` with `input_reflected` set returns OK and writes the value,
and leaves the session, that it does with `input_reflected` clear on the buffer in which every
byte is replaced by its `_reflect_crc8`. -/
theorem input_reflection_is_byte_preprocessing (mem : Memory) (c : calc_crc_t) (p : Nat)
    (d : List Nat) (length v : Nat) (ht : c.type < CALC_CRC_TYPE_MAX) (hp : c.conf = some p)
    (h0 : length ≠ 0) (hl : length ≤ d.length) :
    ∃ c' x,
      CALC_CRC_Calculate (Function.update mem p { mem p with input_reflected := true })
          (some c) (some d) length (some v) = some ⟨CALC_CRC_STATUS_OK, some c', some x⟩ ∧
      CALC_CRC_Calculate (Function.update mem p { mem p with input_reflected := false })
          (some c) (some (d.map _reflect_crc8)) length (some v) =
        some ⟨CALC_CRC_STATUS_OK, some c', some x⟩ := by
  refine ⟨_, _, calculate_eq_calc_crc _ c p d length v ht hp h0 hl, ?_⟩
  rw [calculate_eq_calc_crc _ c p (d.map _reflect_crc8) length v ht hp h0
    (by rw [List.length_map]; exact hl)]
  simp only [Function.update_same]
  rw [calc_crc_input_reflected c.type c (mem p) d length]

/-- C32 on the 16-bit type with polynomial 0x1021, initial and final value 0: with the input
reflected, `"123456789"` gives 0x9184, the value of the buffer of the reversed bytes with the
input not reflected. -/
theorem input_reflection_is_byte_preprocessing_witness :
    (∃ c' x,
      CALC_CRC_Calculate
          (Function.update
            (CALC_CRC_Init (mem_of (test_conf 0x1021 0 0)) (some stale_crc) (some 1)
              CALC_CRC_TYPE_16BIT).mem 1
            { (CALC_CRC_Init (mem_of (test_conf 0x1021 0 0)) (some stale_crc) (some 1)
                CALC_CRC_TYPE_16BIT).mem 1 with input_reflected := true })
          (some { conf := some 1, update_crc := 0, update_crc_final := 0, update_chunk := 0,
                  type := CALC_CRC_TYPE_16BIT, update_in_progress := false })
          (some check_data) 9 (some 0) = some ⟨CALC_CRC_STATUS_OK, some c', some x⟩ ∧
      CALC_CRC_Calculate
          (Function.update
            (CALC_CRC_Init (mem_of (test_conf 0x1021 0 0)) (some stale_crc) (some 1)
              CALC_CRC_TYPE_16BIT).mem 1
            { (CALC_CRC_Init (mem_of (test_conf 0x1021 0 0)) (some stale_crc) (some 1)
                CALC_CRC_TYPE_16BIT).mem 1 with input_reflected := false })
          (some { conf := some 1, update_crc := 0, update_crc_final := 0, update_chunk := 0,
                  type := CALC_CRC_TYPE_16BIT, update_in_progress := false })
          (some (check_data.map _reflect_crc8)) 9 (some 0) =
        some ⟨CALC_CRC_STATUS_OK, some c', some x⟩) ∧
    check_data.map _reflect_crc8 = [0x8C, 0x4C, 0xCC, 0x2C, 0xAC, 0x6C, 0xEC, 0x1C, 0x9C] :=
  ⟨input_reflection_is_byte_preprocessing
      (CALC_CRC_Init (mem_of (test_conf 0x1021 0 0)) (some stale_crc) (some 1)
        CALC_CRC_TYPE_16BIT).mem
      { conf := some 1, update_crc := 0, update_crc_final := 0, update_chunk := 0,
        type := CALC_CRC_TYPE_16BIT, update_in_progress := false }
      1 check_data 9 0 (by decide) rfl (by decide) (by decide),
    by decide⟩

/-! ## Reuse of a session (C33) -/

/-- C33: a session is reusable. From any session with a config handle, a type tag in range and
no update in progress, whatever `update_crc`, `update_crc_final` and `update_chunk` hold, a
sequence of updates over non-empty chunks, whose concatenation has a length that `size_t`
holds, returns OK at every call, and the finalize that follows returns OK and writes the value
that `CALC_CRC_Calculate` writes over the concatenation of these chunks: the final adjustment of
the byte loop over the concatenation, started from the initial value. -/
theorem session_reusable (mem : Memory) (c : calc_crc_t) (p : Nat) (chunks : List (List Nat))
    (out v : Nat) (ht : c.type < CALC_CRC_TYPE_MAX) (hp : c.conf = some p)
    (hin : c.update_in_progress = false) (hne : chunks ≠ [])
    (hsize : chunks.flatten.length < SIZE_T_RANGE) (hch : ∀ ch ∈ chunks, ch ≠ []) :
    ∃ c1 c2 value,
      update_chunks mem (some c) chunks =
        some (List.replicate chunks.length CALC_CRC_STATUS_OK, some c1) ∧
      CALC_CRC_Finalize (some c1) (some out) =
        ⟨CALC_CRC_STATUS_OK, some { c1 with update_in_progress := false }, some value⟩ ∧
      CALC_CRC_Calculate mem (some c) (some chunks.flatten) chunks.flatten.length (some v) =
        some ⟨CALC_CRC_STATUS_OK, some c2, some value⟩ ∧
      value = crc_adjust c.type (mem p)
        (crc_fold c.type (mem p) ((mem p).initial_value % 2 ^ crc_bits c.type)
          chunks.flatten) := by
  have hlen : chunks.length ≤ SIZE_T_RANGE :=
    le_of_lt (lt_of_le_of_lt (length_le_flatten_length chunks hch) hsize)
  have hflat : chunks.flatten ≠ [] := by
    cases chunks with
    | nil => exact absurd rfl hne
    | cons ch rest =>
      have := hch ch (List.mem_cons_self _ _)
      simp [this]
  have h0 : chunks.flatten.length ≠ 0 := fun h => hflat (List.length_eq_zero.mp h)
  refine ⟨_, (calc_crc c.type c (mem p) chunks.flatten chunks.flatten.length).2,
    crc_adjust c.type (mem p)
      (crc_fold c.type (mem p) ((mem p).initial_value % 2 ^ crc_bits c.type) chunks.flatten),
    update_chunks_idle mem p chunks c ht hp hin hne hlen hch, ?_, ?_, rfl⟩
  · rw [finalize_eq _ out ?_ ?_]
    · simp only
      rw [Nat.mod_eq_of_lt (crc_adjust_lt _ _ _)]
    · exact ht
    · rfl
  · rw [calculate_eq_calc_crc mem c p _ _ v ht hp h0 (le_refl _)]
    congr 3
    rw [calc_crc_idle _ _ _ _ _ hin]
    simp only [List.take_length]

/-- C33 on the finalized 8-bit session of the tests, whose fields still hold the
values of the earlier sequence: the two updates over `"12345"` and `"6789"` and the finalize
write the one-shot value of `"123456789"`, 0x04. -/
theorem session_reusable_witness :
    (∃ c1 c2 value,
      update_chunks finalized_state.mem (some finalized_state.crc)
          [[0x31, 0x32, 0x33, 0x34, 0x35], [0x36, 0x37, 0x38, 0x39]] =
        some (List.replicate
          [[0x31, 0x32, 0x33, 0x34, 0x35], [0x36, 0x37, 0x38, 0x39]].length CALC_CRC_STATUS_OK,
          some c1) ∧
      CALC_CRC_Finalize (some c1) (some 0) =
        ⟨CALC_CRC_STATUS_OK, some { c1 with update_in_progress := false }, some value⟩ ∧
      CALC_CRC_Calculate finalized_state.mem (some finalized_state.crc)
          (some [[0x31, 0x32, 0x33, 0x34, 0x35], [0x36, 0x37, 0x38, 0x39]].flatten)
          [[0x31, 0x32, 0x33, 0x34, 0x35], [0x36, 0x37, 0x38, 0x39]].flatten.length (some 0) =
        some ⟨CALC_CRC_STATUS_OK, some c2, some value⟩ ∧
      value = crc_adjust finalized_state.crc.type (finalized_state.mem 1)
        (crc_fold finalized_state.crc.type (finalized_state.mem 1)
          ((finalized_state.mem 1).initial_value % 2 ^ crc_bits finalized_state.crc.type)
          [[0x31, 0x32, 0x33, 0x34, 0x35], [0x36, 0x37, 0x38, 0x39]].flatten)) ∧
    crc_adjust finalized_state.crc.type (finalized_state.mem 1)
        (crc_fold finalized_state.crc.type (finalized_state.mem 1)
          ((finalized_state.mem 1).initial_value % 2 ^ crc_bits finalized_state.crc.type)
          [[0x31, 0x32, 0x33, 0x34, 0x35], [0x36, 0x37, 0x38, 0x39]].flatten) = 0x04 :=
  ⟨session_reusable finalized_state.mem finalized_state.crc 1
      [[0x31, 0x32, 0x33, 0x34, 0x35], [0x36, 0x37, 0x38, 0x39]] 0 0 (by decide) rfl rfl
      (by decide) (by unfold SIZE_T_RANGE; decide) (by decide),
    by decide⟩

/-! ## Stability of the type tag and the config handle (C34) -/

theorem calculate_not_invalid_type (mem : Memory) (c : calc_crc_t) (data : Option (List Nat))
    (length : Nat) (result : Option Nat) (r : calc_ret) (ht : c.type < CALC_CRC_TYPE_MAX)
    (h : CALC_CRC_Calculate mem (some c) data length result = some r) :
    r.status ≠ CALC_CRC_STATUS_ERROR_INVALID_TYPE := by
  have ht' : ¬ CALC_CRC_TYPE_MAX ≤ c.type := by omega
  cases data with
  | none => simp [CALC_CRC_Calculate] at h; subst h; simp
  | some d =>
    cases result with
    | none => simp [CALC_CRC_Calculate] at h; subst h; simp
    | some v =>
      by_cases h0 : length = 0
      · simp [CALC_CRC_Calculate, h0] at h; subst h; simp
      · cases hc : c.conf with
        | none => simp [CALC_CRC_Calculate, h0, ht', hc] at h
        | some p =>
          by_cases hl : d.length < length
          · simp [CALC_CRC_Calculate, h0, ht', hc, hl] at h
          · rw [calculate_eq_calc_crc mem c p d length v ht hc h0 (by omega)] at h
            simp only [Option.some.injEq] at h
            subst h
            simp

theorem update_not_invalid_type (mem : Memory) (c : calc_crc_t) (data : Option (List Nat))
    (length : Nat) (r : update_ret) (ht : c.type < CALC_CRC_TYPE_MAX)
    (h : CALC_CRC_Update mem (some c) data length = some r) :
    r.status ≠ CALC_CRC_STATUS_ERROR_INVALID_TYPE := by
  by_cases hs : r.status = CALC_CRC_STATUS_OK
  · rw [hs]; simp
  · have ht' : ¬ CALC_CRC_TYPE_MAX ≤ c.type := by omega
    cases data with
    | none => simp [CALC_CRC_Update] at h; subst h; simp
    | some d =>
      by_cases h0 : length = 0
      · simp [CALC_CRC_Update, h0] at h; subst h; simp
      · exfalso
        cases hc : c.conf with
        | none =>
          by_cases hin : c.update_in_progress = false <;>
            simp [CALC_CRC_Update, CALC_CRC_Calculate, h0, ht', hc, hin] at h
        | some p =>
          by_cases hl : d.length < length
          · by_cases hin : c.update_in_progress = false <;>
              simp [CALC_CRC_Update, CALC_CRC_Calculate, h0, ht', hc, hin, hl] at h
          · rw [update_eq_calc_crc mem c p d length ht hc h0 (by omega)] at h
            simp only [Option.some.injEq] at h
            subst h
            exact hs rfl

/-- On a session whose type tag is in range, no call other than `CALC_CRC_Init` returns the
invalid-type status. -/
theorem api_step_not_invalid_type (s s' : api_state) (call : api_call) (st : calc_crc_status_e)
    (ht : s.crc.type < CALC_CRC_TYPE_MAX) (hi : is_init call = false)
    (h : api_step s call = some (st, s')) : st ≠ CALC_CRC_STATUS_ERROR_INVALID_TYPE := by
  cases call with
  | init crc conf type => simp [is_init] at hi
  | calculate crc data length result =>
    simp only [api_step, Option.map_eq_some', Prod.mk.injEq] at h
    obtain ⟨r, hr, rfl, _⟩ := h
    cases crc with
    | false => simp [CALC_CRC_Calculate] at hr; subst hr; simp
    | true => exact calculate_not_invalid_type s.mem s.crc data length result r ht hr
  | update crc data length =>
    simp only [api_step, Option.map_eq_some', Prod.mk.injEq] at h
    obtain ⟨r, hr, rfl, _⟩ := h
    cases crc with
    | false => simp [CALC_CRC_Update] at hr; subst hr; simp
    | true => exact update_not_invalid_type s.mem s.crc data length r ht hr
  | finalize crc result =>
    simp only [api_step, Option.some.injEq, Prod.mk.injEq] at h
    obtain ⟨rfl, _⟩ := h
    cases crc with
    | false => simp [CALC_CRC_Finalize]
    | true =>
      cases result with
      | none => simp [CALC_CRC_Finalize]
      | some out =>
        by_cases hin : s.crc.update_in_progress = false <;> simp [CALC_CRC_Finalize, hin]

theorem api_run_not_invalid_type (calls : List api_call) :
    ∀ (s s' : api_state) (statuses : List calc_crc_status_e),
      api_run s calls = some (statuses, s') → (∀ call ∈ calls, is_init call = false) →
      s.crc.type < CALC_CRC_TYPE_MAX →
      ∀ st ∈ statuses, st ≠ CALC_CRC_STATUS_ERROR_INVALID_TYPE := by
  induction calls with
  | nil =>
    intro s s' statuses h _ _ st hst
    simp only [api_run, Option.some.injEq, Prod.mk.injEq] at h
    obtain ⟨rfl, _⟩ := h
    simp at hst
  | cons call rest ih =>
    intro s s' statuses h hi ht st hst
    simp only [api_run] at h
    cases h1 : api_step s call with
    | none => simp [h1] at h
    | some q =>
      obtain ⟨st1, s1⟩ := q
      simp only [h1] at h
      cases h2 : api_run s1 rest with
      | none => simp [h2] at h
      | some q2 =>
        obtain ⟨sts, s2⟩ := q2
        simp only [h2, Option.some.injEq, Prod.mk.injEq] at h
        obtain ⟨rfl, _⟩ := h
        have hi1 := hi call (List.mem_cons_self _ _)
        rcases List.mem_cons.mp hst with rfl | hmem
        · exact api_step_not_invalid_type s s1 call st ht hi1 h1
        · have ht1 : s1.crc.type < CALC_CRC_TYPE_MAX := by
            rw [(api_step_type_conf s s1 call st1 h1 hi1).1]; exact ht
          exact ih s1 s2 sts h2 (fun c hc => hi c (List.mem_cons_of_mem _ hc)) ht1 st hmem

/-- The state a `CALC_CRC_Init` that returned OK leaves: the session holds the config handle of
the call. -/
theorem api_init_handle (s s' : api_state) (crc : Bool) (conf : Option Nat) (type : Nat)
    (h : api_step s (api_call.init crc conf type) = some (CALC_CRC_STATUS_OK, s')) :
    s'.crc.conf = conf := by
  simp only [api_step, Option.some.injEq, Prod.mk.injEq] at h
  obtain ⟨hs, rfl⟩ := h
  cases crc with
  | false => simp [CALC_CRC_Init] at hs
  | true =>
    cases conf with
    | none => simp [CALC_CRC_Init] at hs
    | some p =>
      by_cases ht : CALC_CRC_TYPE_MAX ≤ type
      · simp [CALC_CRC_Init, ht] at hs
      · simp only [↓reduceIte]
        rw [init_eq s.mem s.crc p type (by omega)]
        rfl

/-- C34: the type tag and the config handle are stable. In every state that a sequence of
`CALC_CRC_Calculate`, `CALC_CRC_Update` and `CALC_CRC_Finalize` calls, whatever they return,
reaches after a `CALC_CRC_Init` that returned OK, the session holds the config handle and the
type tag passed to that init; the tag is below `CALC_CRC_TYPE_MAX`, so the `default:` label of
the `switch` on the tag is not the one taken; none of the calls of the sequence returned the
invalid-type status, and no further such call returns it. -/
theorem tag_and_handle_stable (s0 s : api_state) (crc : Bool) (conf : Option Nat) (type : Nat)
    (calls : List api_call) (statuses : List calc_crc_status_e)
    (hrun : api_run s0 (api_call.init crc conf type :: calls) =
      some (CALC_CRC_STATUS_OK :: statuses, s))
    (hcalls : ∀ call ∈ calls, is_init call = false) :
    s.crc.conf = conf ∧ s.crc.type = type ∧ s.crc.type < CALC_CRC_TYPE_MAX ∧
    ¬ switch_default s.crc.type ∧
    (∀ st ∈ statuses, st ≠ CALC_CRC_STATUS_ERROR_INVALID_TYPE) ∧
    (∀ call st s', is_init call = false → api_step s call = some (st, s') →
      st ≠ CALC_CRC_STATUS_ERROR_INVALID_TYPE) := by
  have hinv := api_reachable_inv s0 s crc conf type calls statuses hrun
  simp only [api_run] at hrun
  cases h1 : api_step s0 (api_call.init crc conf type) with
  | none => simp [h1] at hrun
  | some q =>
    obtain ⟨st, s1⟩ := q
    simp only [h1] at hrun
    cases h2 : api_run s1 calls with
    | none => simp [h2] at hrun
    | some q2 =>
      obtain ⟨sts, s2⟩ := q2
      simp only [h2, Option.some.injEq, Prod.mk.injEq, List.cons.injEq] at hrun
      obtain ⟨⟨rfl, rfl⟩, rfl⟩ := hrun
      obtain ⟨htype, _⟩ := api_init_type s0 s1 crc conf type h1
      have hconf := api_init_handle s0 s1 crc conf type h1
      obtain ⟨e1, e2⟩ := api_run_type_conf calls s1 s2 sts h2 hcalls
      have ht1 : s1.crc.type < CALC_CRC_TYPE_MAX := by rw [← e1]; exact hinv.2.1
      refine ⟨e2.trans hconf, e1.trans htype, hinv.2.1, ?_,
        api_run_not_invalid_type calls s1 s2 sts h2 hcalls ht1, ?_⟩
      · have ht2 := hinv.2.1
        unfold switch_default CALC_CRC_TYPE_8BIT CALC_CRC_TYPE_16BIT CALC_CRC_TYPE_32BIT
          CALC_CRC_TYPE_64BIT
        unfold CALC_CRC_TYPE_MAX at ht2
        omega
      · intro call st s' hi hstep
        exact api_step_not_invalid_type s2 s' call st hinv.2.1 hi hstep

/-- C34 on the 8-bit configuration of the tests: after init, a successful update, a calculate,
a finalize that fails for its absent result and an update that fails for its zero length, the
session holds handle 1 and the 8-bit tag. -/
theorem tag_and_handle_stable_witness :
    ∃ s, api_run test_state
        [api_call.init true (some 1) CALC_CRC_TYPE_8BIT,
         api_call.update true (some [0x31, 0x32, 0x33, 0x34, 0x35]) 5,
         api_call.calculate true (some [0x36, 0x37, 0x38, 0x39]) 4 (some 0),
         api_call.finalize true none,
         api_call.update true (some [0x36]) 0] =
        some ([CALC_CRC_STATUS_OK, CALC_CRC_STATUS_OK, CALC_CRC_STATUS_OK,
          CALC_CRC_STATUS_ERROR_INPUT_ARGS, CALC_CRC_STATUS_ERROR_INPUT_ARGS], s) ∧
      s.crc.conf = some 1 ∧ s.crc.type = CALC_CRC_TYPE_8BIT := by
  have hrun : api_run test_state
      [api_call.init true (some 1) CALC_CRC_TYPE_8BIT,
       api_call.update true (some [0x31, 0x32, 0x33, 0x34, 0x35]) 5,
       api_call.calculate true (some [0x36, 0x37, 0x38, 0x39]) 4 (some 0),
       api_call.finalize true none,
       api_call.update true (some [0x36]) 0] =
      some ([CALC_CRC_STATUS_OK, CALC_CRC_STATUS_OK, CALC_CRC_STATUS_OK,
          CALC_CRC_STATUS_ERROR_INPUT_ARGS, CALC_CRC_STATUS_ERROR_INPUT_ARGS],
        ⟨(CALC_CRC_Init test_state.mem (some test_state.crc) (some 1) CALC_CRC_TYPE_8BIT).mem,
          { conf := some 1, update_crc := 0xFB, update_crc_final := 0x04, update_chunk := 2,
            type := CALC_CRC_TYPE_8BIT, update_in_progress := true }⟩) := rfl
  have h := tag_and_handle_stable test_state _ true (some 1) CALC_CRC_TYPE_8BIT _ _ hrun
    (by intro call hc
        simp only [List.mem_cons, List.mem_singleton, List.not_mem_nil, or_false] at hc
        rcases hc with rfl | rfl | rfl | rfl <;> rfl)
  exact ⟨_, hrun, h.1, h.2.1⟩

/-! ## XOR-linearity (C35, C36) -/

theorem shiftLeft_xor (x y s : Nat) : (x ^^^ y) <<< s = (x <<< s) ^^^ (y <<< s) := by
  apply Nat.eq_of_testBit_eq
  intro i
  simp only [Nat.testBit_xor, Nat.testBit_shiftLeft]
  by_cases hi : s ≤ i <;> simp [hi]

theorem xor_mod_two_pow (x y w : Nat) : (x ^^^ y) % 2 ^ w = (x % 2 ^ w) ^^^ (y % 2 ^ w) := by
  apply Nat.eq_of_testBit_eq
  intro i
  simp only [Nat.testBit_xor, Nat.testBit_mod_two_pow]
  by_cases hi : i < w <;> simp [hi]

theorem xor_xor_xor_comm (a b c d : Nat) : (a ^^^ b) ^^^ (c ^^^ d) = (a ^^^ c) ^^^ (b ^^^ d) := by
  apply Nat.eq_of_testBit_eq
  intro i
  simp only [Nat.testBit_xor]
  cases a.testBit i <;> cases b.testBit i <;> cases c.testBit i <;> cases d.testBit i <;> rfl

theorem xor_right_comm (a b c : Nat) : (a ^^^ b) ^^^ c = (a ^^^ c) ^^^ b := by
  apply Nat.eq_of_testBit_eq
  intro i
  simp only [Nat.testBit_xor]
  cases a.testBit i <;> cases b.testBit i <;> cases c.testBit i <;> rfl

/-- The bit step of the bit-serial CRC is XOR-linear in the register. -/
theorem spec_bit_step_linear (w polynomial x y : Nat) :
    spec_bit_step w polynomial (x ^^^ y) =
      spec_bit_step w polynomial x ^^^ spec_bit_step w polynomial y := by
  unfold spec_bit_step
  rw [shiftLeft_xor, xor_mod_two_pow, Nat.testBit_xor]
  cases hx : x.testBit (w - 1) <;> cases hy : y.testBit (w - 1)
  · simp
  · simp only [Bool.false_bne, if_true, Bool.false_eq_true, if_false]
    rw [Nat.xor_assoc]
  · simp only [Bool.bne_false, if_true, Bool.false_eq_true, if_false]
    exact xor_right_comm _ _ _
  · simp only [bne_self_eq_false, Bool.false_eq_true, if_false, if_true]
    rw [xor_xor_xor_comm, Nat.xor_self, Nat.xor_zero]

theorem spec_bit_step_iterate_linear (w polynomial : Nat) (k : Nat) :
    ∀ x y, (spec_bit_step w polynomial)^[k] (x ^^^ y) =
      (spec_bit_step w polynomial)^[k] x ^^^ (spec_bit_step w polynomial)^[k] y := by
  induction k with
  | zero => intro x y; rfl
  | succ k ih =>
    intro x y
    simp only [Function.iterate_succ_apply]
    rw [spec_bit_step_linear, ih]

/-- The table `_calc_table_crcN` builds is XOR-linear in its index. -/
theorem build_table_linear (type polynomial a b : Nat) (ht : type < CALC_CRC_TYPE_MAX)
    (hp : polynomial < 2 ^ crc_bits type) (ha : a < 256) (hb : b < 256) :
    (build_table type polynomial).getD (a ^^^ b) 0 =
      (build_table type polynomial).getD a 0 ^^^ (build_table type polynomial).getD b 0 := by
  have hab : a ^^^ b < 256 := Nat.xor_lt_two_pow (n := 8) ha hb
  rw [build_table_getD type polynomial _ ht hp hab, build_table_getD type polynomial _ ht hp ha,
    build_table_getD type polynomial _ ht hp hb, shiftLeft_xor, spec_bit_step_iterate_linear]

/-- C35: the table is XOR-linear in its index. For each of the four type tags, every polynomial
of the width and all bytes `a` and `b`, the table a successful `CALC_CRC_Init` builds holds at
index `a XOR b` the XOR of its entries at `a` and at `b`. -/
theorem table_xor_linear (mem : Memory) (crc0 : calc_crc_t) (p type a b : Nat)
    (ht : type < CALC_CRC_TYPE_MAX) (hp : (mem p).polynomial < 2 ^ crc_bits type)
    (ha : a < 256) (hb : b < 256) :
    (CALC_CRC_Init mem (some crc0) (some p) type).status = CALC_CRC_STATUS_OK ∧
    ((CALC_CRC_Init mem (some crc0) (some p) type).mem p).table.getD (a ^^^ b) 0 =
      ((CALC_CRC_Init mem (some crc0) (some p) type).mem p).table.getD a 0 ^^^
        ((CALC_CRC_Init mem (some crc0) (some p) type).mem p).table.getD b 0 := by
  rw [init_eq mem crc0 p type ht]
  refine ⟨rfl, ?_⟩
  simp only [Function.update_same]
  exact build_table_linear type _ a b ht hp ha hb

set_option maxRecDepth 100000 in
/-- C35 on the 32-bit configuration with polynomial 0x04C11DB7, at the indices 0x31 and 0xC5,
whose XOR is 0xF4. -/
theorem table_xor_linear_witness :
    ((CALC_CRC_Init (mem_of (test_conf 0x04C11DB7 0xFFFFFFFF 0xFFFFFFFF)) (some stale_crc)
        (some 1) CALC_CRC_TYPE_32BIT).mem 1).table.getD (0x31 ^^^ 0xC5) 0 =
      ((CALC_CRC_Init (mem_of (test_conf 0x04C11DB7 0xFFFFFFFF 0xFFFFFFFF)) (some stale_crc)
        (some 1) CALC_CRC_TYPE_32BIT).mem 1).table.getD 0x31 0 ^^^
      ((CALC_CRC_Init (mem_of (test_conf 0x04C11DB7 0xFFFFFFFF 0xFFFFFFFF)) (some stale_crc)
        (some 1) CALC_CRC_TYPE_32BIT).mem 1).table.getD 0xC5 0 ∧
    0x31 ^^^ 0xC5 = 0xF4 :=
  ⟨(table_xor_linear (mem_of (test_conf 0x04C11DB7 0xFFFFFFFF 0xFFFFFFFF)) stale_crc 1
      CALC_CRC_TYPE_32BIT 0x31 0xC5 (by decide)
      (by simp [mem_of, test_conf, crc_bits, CALC_CRC_TYPE_32BIT, CALC_CRC_TYPE_8BIT,
        CALC_CRC_TYPE_16BIT])
      (by decide) (by decide)).2,
    by decide⟩

theorem input_byte_xor (conf : calc_crc_conf) (a b : Nat) :
    input_byte conf (a ^^^ b) = input_byte conf a ^^^ input_byte conf b := by
  unfold input_byte
  split_ifs
  · rw [reflect_crc8_eq, reflect_crc8_eq, reflect_crc8_eq, ← spec_bit_reverse_eq,
      ← spec_bit_reverse_eq, ← spec_bit_reverse_eq, spec_bit_reverse_xor, xor_mod_two_pow]
  · exact xor_mod_two_pow a b 8

theorem spec_byte_step_linear (w polynomial r1 r2 b1 b2 : Nat) :
    spec_byte_step w polynomial (r1 ^^^ r2) (b1 ^^^ b2) =
      spec_byte_step w polynomial r1 b1 ^^^ spec_byte_step w polynomial r2 b2 := by
  unfold spec_byte_step
  rw [shiftLeft_xor, xor_xor_xor_comm, spec_bit_step_iterate_linear]

theorem spec_bit_serial_linear (w polynomial : Nat) (xs : List Nat) :
    ∀ (ys : List Nat) (s1 s2 : Nat), xs.length = ys.length →
      spec_bit_serial w polynomial (s1 ^^^ s2) (List.zipWith (fun x y => x ^^^ y) xs ys) =
        spec_bit_serial w polynomial s1 xs ^^^ spec_bit_serial w polynomial s2 ys := by
  induction xs with
  | nil =>
    intro ys s1 s2 h
    cases ys with
    | nil => rfl
    | cons y ys => simp at h
  | cons x xs ih =>
    intro ys s1 s2 h
    cases ys with
    | nil => simp at h
    | cons y ys =>
      simp only [List.length_cons, Nat.add_right_cancel_iff] at h
      simp only [spec_bit_serial, List.zipWith_cons_cons, List.foldl_cons] at ih ⊢
      rw [spec_byte_step_linear]
      exact ih ys _ _ h

theorem map_input_byte_zipWith (conf : calc_crc_conf) (xs : List Nat) :
    ∀ ys : List Nat,
      (List.zipWith (fun x y => x ^^^ y) xs ys).map (input_byte conf) =
        List.zipWith (fun x y => x ^^^ y) (xs.map (input_byte conf))
          (ys.map (input_byte conf)) := by
  induction xs with
  | nil => intro ys; simp
  | cons x xs ih =>
    intro ys
    cases ys with
    | nil => simp
    | cons y ys =>
      simp only [List.zipWith_cons_cons, List.map_cons, input_byte_xor, ih]

/-- The byte loop of `_calc_crcN` on the table built, started from zero, is XOR-linear in the
buffer. -/
theorem crc_fold_linear (type : Nat) (conf : calc_crc_conf) (ht : type < CALC_CRC_TYPE_MAX)
    (htab : conf.table = build_table type conf.polynomial)
    (hp : conf.polynomial < 2 ^ crc_bits type) (xs ys : List Nat)
    (h : xs.length = ys.length) :
    crc_fold type conf 0 (List.zipWith (fun x y => x ^^^ y) xs ys) =
      crc_fold type conf 0 xs ^^^ crc_fold type conf 0 ys := by
  have h0 : 0 < 2 ^ crc_bits type := by positivity
  rw [crc_fold_eq_spec_bit_serial type conf ht htab hp _ 0 h0,
    crc_fold_eq_spec_bit_serial type conf ht htab hp xs 0 h0,
    crc_fold_eq_spec_bit_serial type conf ht htab hp ys 0 h0,
    map_input_byte_zipWith, ← spec_bit_serial_linear _ _ _ _ 0 0 (by simpa using h)]
  rfl

/-- The final adjustment of `_calc_crcN` with a zero final value is XOR-linear. -/
theorem crc_adjust_linear (type : Nat) (conf : calc_crc_conf) (x y : Nat)
    (hfin : conf.final_value = 0) :
    crc_adjust type conf (x ^^^ y) = crc_adjust type conf x ^^^ crc_adjust type conf y := by
  unfold crc_adjust
  simp only [hfin, Nat.xor_zero]
  rw [xor_mod_two_pow]
  split_ifs
  · rw [crc_reflect_eq, crc_reflect_eq, crc_reflect_eq, spec_bit_reverse_xor]
  · rfl

/-- C36: CRC linearity. On a session with no update in progress whose configuration holds the
table built from its polynomial, for every type tag, every polynomial of the width and every
setting of both reflection flags, with initial value 0 and final XOR value 0: for two buffers
`a` and `b` of the same non-zero length, `CALC_CRC_Calculate` returns OK on `a`, on `b` and on
their bytewise XOR, and the value it writes for the bytewise XOR is the XOR of the values it
writes for `a` and for `b`. -/
theorem crc_xor_linear (mem : Memory) (c : calc_crc_t) (p : Nat) (a b : List Nat) (v : Nat)
    (ht : c.type < CALC_CRC_TYPE_MAX) (hp : c.conf = some p)
    (hin : c.update_in_progress = false)
    (htab : (mem p).table = build_table c.type (mem p).polynomial)
    (hpoly : (mem p).polynomial < 2 ^ crc_bits c.type)
    (hinit : (mem p).initial_value = 0) (hfin : (mem p).final_value = 0)
    (hlen : a.length = b.length) (hne : a ≠ []) :
    ∃ ca cb cab va vb vab,
      CALC_CRC_Calculate mem (some c) (some a) a.length (some v) =
        some ⟨CALC_CRC_STATUS_OK, some ca, some va⟩ ∧
      CALC_CRC_Calculate mem (some c) (some b) b.length (some v) =
        some ⟨CALC_CRC_STATUS_OK, some cb, some vb⟩ ∧
      CALC_CRC_Calculate mem (some c) (some (List.zipWith (fun x y => x ^^^ y) a b)) a.length
          (some v) = some ⟨CALC_CRC_STATUS_OK, some cab, some vab⟩ ∧
      vab = va ^^^ vb := by
  have h0 : a.length ≠ 0 := fun h => hne (List.length_eq_zero.mp h)
  have h0b : b.length ≠ 0 := by rw [← hlen]; exact h0
  have hz : (List.zipWith (fun x y => x ^^^ y) a b).length = a.length := by
    rw [List.length_zipWith, ← hlen, Nat.min_self]
  refine ⟨_, _, _, _, _, _,
    calculate_eq_calc_crc mem c p a a.length v ht hp h0 (le_refl _),
    calculate_eq_calc_crc mem c p b b.length v ht hp h0b (le_refl _),
    calculate_eq_calc_crc mem c p _ a.length v ht hp h0 (by rw [hz]), ?_⟩
  rw [calc_crc_idle _ _ _ _ _ hin, calc_crc_idle _ _ _ _ _ hin, calc_crc_idle _ _ _ _ _ hin]
  simp only [hinit, Nat.zero_mod, List.take_length]
  rw [← hz, List.take_length, crc_fold_linear c.type (mem p) ht htab hpoly a b hlen,
    crc_adjust_linear c.type (mem p) _ _ hfin]

set_option maxRecDepth 100000 in
/-- C36 on the 8-bit configuration with polynomial 0x07 and both reflections on: the value of
the bytewise XOR of `"123"` and `"456"` is the XOR of their values. -/
theorem crc_xor_linear_witness :
    ∃ ca cb cab va vb vab,
      CALC_CRC_Calculate
          (CALC_CRC_Init (mem_of linear_conf) (some stale_crc) (some 1) CALC_CRC_TYPE_8BIT).mem
          (some { conf := some 1, update_crc := 0, update_crc_final := 0, update_chunk := 0,
                  type := CALC_CRC_TYPE_8BIT, update_in_progress := false })
          (some [0x31, 0x32, 0x33]) [0x31, 0x32, 0x33].length (some 0) =
        some ⟨CALC_CRC_STATUS_OK, some ca, some va⟩ ∧
      CALC_CRC_Calculate
          (CALC_CRC_Init (mem_of linear_conf) (some stale_crc) (some 1) CALC_CRC_TYPE_8BIT).mem
          (some { conf := some 1, update_crc := 0, update_crc_final := 0, update_chunk := 0,
                  type := CALC_CRC_TYPE_8BIT, update_in_progress := false })
          (some [0x34, 0x35, 0x36]) [0x34, 0x35, 0x36].length (some 0) =
        some ⟨CALC_CRC_STATUS_OK, some cb, some vb⟩ ∧
      CALC_CRC_Calculate
          (CALC_CRC_Init (mem_of linear_conf) (some stale_crc) (some 1) CALC_CRC_TYPE_8BIT).mem
          (some { conf := some 1, update_crc := 0, update_crc_final := 0, update_chunk := 0,
                  type := CALC_CRC_TYPE_8BIT, update_in_progress := false })
          (some (List.zipWith (fun x y => x ^^^ y) [0x31, 0x32, 0x33] [0x34, 0x35, 0x36]))
          [0x31, 0x32, 0x33].length (some 0) =
        some ⟨CALC_CRC_STATUS_OK, some cab, some vab⟩ ∧
      vab = va ^^^ vb :=
  crc_xor_linear
    (CALC_CRC_Init (mem_of linear_conf) (some stale_crc) (some 1) CALC_CRC_TYPE_8BIT).mem
    { conf := some 1, update_crc := 0, update_crc_final := 0, update_chunk := 0,
      type := CALC_CRC_TYPE_8BIT, update_in_progress := false }
    1 [0x31, 0x32, 0x33] [0x34, 0x35, 0x36] 0 (by decide) rfl rfl (by decide) (by decide) rfl rfl
    rfl (by decide)

/-! ## Leading zero bytes (C38) and the residue of a message with its CRC (C37) -/

theorem input_byte_zero (conf : calc_crc_conf) : input_byte conf 0 = 0 := by
  unfold input_byte
  split_ifs <;> decide

theorem build_table_getD_zero (type polynomial : Nat) :
    (build_table type polynomial).getD 0 0 = 0 := by
  rw [List.getD_eq_getElem?_getD, build_table_zero]
  rfl

/-- On the table built, a zero byte leaves a zero accumulator at zero. -/
theorem crc_step_zero (type : Nat) (conf : calc_crc_conf) (ht : type < CALC_CRC_TYPE_MAX)
    (htab : conf.table = build_table type conf.polynomial) : crc_step type conf 0 0 = 0 := by
  have hb := input_byte_zero conf
  have hg : conf.table[0]?.getD 0 = 0 := by
    rw [← List.getD_eq_getElem?_getD, htab]; exact build_table_getD_zero _ _
  have h4 : type = 0 ∨ type = 1 ∨ type = 2 ∨ type = 3 := by
    unfold CALC_CRC_TYPE_MAX at ht; omega
  rcases h4 with rfl | rfl | rfl | rfl
  · have hsrc : crc_step 0 conf 0 0 = (conf.table.getD (0 ^^^ input_byte conf 0) 0) % 2 ^ 8 := rfl
    rw [hsrc, hb]
    simp [hg]
  · have hsrc : crc_step 1 conf 0 0 =
        (((0 <<< 8) % 2 ^ 16) ^^^
          conf.table.getD (((0 >>> 8) ^^^ input_byte conf 0) % 2 ^ 8) 0) % 2 ^ 16 := rfl
    rw [hsrc, hb]
    simp [hg]
  · have hsrc : crc_step 2 conf 0 0 =
        (((0 <<< 8) % 2 ^ 32) ^^^
          conf.table.getD
            (((0 ^^^ ((input_byte conf 0 <<< 24) % 2 ^ 32)) >>> 24) % 2 ^ 8) 0) % 2 ^ 32 := rfl
    rw [hsrc, hb]
    simp [hg]
  · have hsrc : crc_step 3 conf 0 0 =
        (((0 <<< 8) % 2 ^ 64) ^^^
          conf.table.getD
            (((0 ^^^ ((input_byte conf 0 <<< 56) % 2 ^ 64)) >>> 56) % 2 ^ 8) 0) % 2 ^ 64 := rfl
    rw [hsrc, hb]
    simp [hg]

theorem crc_fold_leading_zeros (type : Nat) (conf : calc_crc_conf)
    (ht : type < CALC_CRC_TYPE_MAX) (htab : conf.table = build_table type conf.polynomial)
    (n : Nat) (d : List Nat) :
    crc_fold type conf 0 (List.replicate n 0 ++ d) = crc_fold type conf 0 d := by
  induction n with
  | zero => simp
  | succ n ih =>
    rw [List.replicate_succ, List.cons_append]
    simp only [crc_fold, List.foldl_cons] at ih ⊢
    rw [crc_step_zero type conf ht htab]
    exact ih

/-- C38: leading zero bytes are invisible when the initial value is zero. On a session with no
update in progress whose configuration holds the table built from its polynomial, for every
type tag, polynomial, final XOR value and both reflection flags, with initial value 0, any
number `n` of zero bytes and any non-empty buffer `d`: `CALC_CRC_Calculate` over the `n` zero
bytes followed by `d` returns OK and writes the value, and leaves the session, that it does over
`d` alone. -/
theorem leading_zeros_invisible (mem : Memory) (c : calc_crc_t) (p n : Nat) (d : List Nat)
    (v : Nat) (ht : c.type < CALC_CRC_TYPE_MAX) (hp : c.conf = some p)
    (hin : c.update_in_progress = false)
    (htab : (mem p).table = build_table c.type (mem p).polynomial)
    (hinit : (mem p).initial_value = 0) (hne : d ≠ []) :
    ∃ c' value,
      CALC_CRC_Calculate mem (some c) (some (List.replicate n 0 ++ d)) (n + d.length)
          (some v) = some ⟨CALC_CRC_STATUS_OK, some c', some value⟩ ∧
      CALC_CRC_Calculate mem (some c) (some d) d.length (some v) =
        some ⟨CALC_CRC_STATUS_OK, some c', some value⟩ := by
  have h0 : d.length ≠ 0 := fun h => hne (List.length_eq_zero.mp h)
  have hl : (List.replicate n 0 ++ d).length = n + d.length := by
    rw [List.length_append, List.length_replicate]
  have key : calc_crc c.type c (mem p) (List.replicate n 0 ++ d) (n + d.length) =
      calc_crc c.type c (mem p) d d.length := by
    rw [calc_crc_idle _ _ _ _ _ hin, calc_crc_idle _ _ _ _ _ hin]
    simp only [hinit, Nat.zero_mod, List.take_length]
    rw [← hl, List.take_length, crc_fold_leading_zeros c.type (mem p) ht htab n d]
  refine ⟨(calc_crc c.type c (mem p) d d.length).2, (calc_crc c.type c (mem p) d d.length).1,
    ?_, calculate_eq_calc_crc mem c p d d.length v ht hp h0 (le_refl _)⟩
  rw [calculate_eq_calc_crc mem c p _ (n + d.length) v ht hp (by omega) (by rw [hl]), key]

set_option maxRecDepth 100000 in
/-- C38 on the 8-bit configuration with polynomial 0x07, initial value 0, final XOR value 0x01
and the output reflection on: three zero bytes before `"123456789"` leave the value 0xAF. -/
theorem leading_zeros_invisible_witness :
    (∃ c' value,
      CALC_CRC_Calculate
          (CALC_CRC_Init (mem_of xorout_conf) (some stale_crc) (some 1) CALC_CRC_TYPE_8BIT).mem
          (some { conf := some 1, update_crc := 0, update_crc_final := 0, update_chunk := 0,
                  type := CALC_CRC_TYPE_8BIT, update_in_progress := false })
          (some (List.replicate 3 0 ++ check_data)) (3 + check_data.length) (some 0) =
        some ⟨CALC_CRC_STATUS_OK, some c', some value⟩ ∧
      CALC_CRC_Calculate
          (CALC_CRC_Init (mem_of xorout_conf) (some stale_crc) (some 1) CALC_CRC_TYPE_8BIT).mem
          (some { conf := some 1, update_crc := 0, update_crc_final := 0, update_chunk := 0,
                  type := CALC_CRC_TYPE_8BIT, update_in_progress := false })
          (some check_data) check_data.length (some 0) =
        some ⟨CALC_CRC_STATUS_OK, some c', some value⟩) ∧
    CALC_CRC_Calculate
        (CALC_CRC_Init (mem_of xorout_conf) (some stale_crc) (some 1) CALC_CRC_TYPE_8BIT).mem
        (some { conf := some 1, update_crc := 0, update_crc_final := 0, update_chunk := 0,
                type := CALC_CRC_TYPE_8BIT, update_in_progress := false })
        (some (List.replicate 3 0 ++ check_data)) (3 + check_data.length) (some 0) =
      some ⟨CALC_CRC_STATUS_OK,
        some { conf := some 1, update_crc := 0xF4, update_crc_final := 0xAF, update_chunk := 0,
               type := CALC_CRC_TYPE_8BIT, update_in_progress := false }, some 0xAF⟩ :=
  ⟨leading_zeros_invisible
      (CALC_CRC_Init (mem_of xorout_conf) (some stale_crc) (some 1) CALC_CRC_TYPE_8BIT).mem
      { conf := some 1, update_crc := 0, update_crc_final := 0, update_chunk := 0,
        type := CALC_CRC_TYPE_8BIT, update_in_progress := false }
      1 3 check_data 0 (by decide) rfl rfl (by decide) rfl (by decide),
    by decide⟩

theorem top_byte_of_shifted (w r k : Nat) (hk : 8 * (k + 1) ≤ w) :
    ((r <<< (8 * k)) % 2 ^ w) >>> (w - 8) = (r >>> (w - 8 * (k + 1))) % 2 ^ 8 := by
  apply Nat.eq_of_testBit_eq
  intro i
  simp only [Nat.testBit_shiftRight, Nat.testBit_mod_two_pow, Nat.testBit_shiftLeft]
  by_cases hi : i < 8
  · have h1 : w - 8 + i < w := by omega
    have h2 : 8 * k ≤ w - 8 + i := by omega
    have h3 : w - 8 + i - 8 * k = w - 8 * (k + 1) + i := by omega
    simp [hi, h1, h2, h3]
  · have h1 : ¬ w - 8 + i < w := by omega
    simp [hi, h1]

theorem shifted_byte_more (w r k : Nat) :
    (((r <<< (8 * k)) % 2 ^ w) <<< 8) % 2 ^ w = (r <<< (8 * (k + 1))) % 2 ^ w := by
  apply Nat.eq_of_testBit_eq
  intro i
  simp only [Nat.testBit_mod_two_pow, Nat.testBit_shiftLeft]
  by_cases hi : i < w
  · by_cases h8 : 8 * (k + 1) ≤ i
    · have h1 : 8 ≤ i := by omega
      have h2 : i - 8 < w := by omega
      have h3 : 8 * k ≤ i - 8 := by omega
      have h4 : i - 8 - 8 * k = i - 8 * (k + 1) := by omega
      simp [hi, h8, h1, h2, h3, h4]
    · by_cases h1 : 8 ≤ i
      · have h3 : ¬ 8 * k ≤ i - 8 := by omega
        simp [hi, h8, h1, h3]
      · simp [hi, h8, h1]
  · simp [hi]

theorem crc_bits_eq_eight_mul (type : Nat) : 8 * (crc_bits type / 8) = crc_bits type := by
  unfold crc_bits
  split_ifs <;> norm_num

/-- With no input reflection, on the table built, the byte that is the top byte of the
accumulator shifts the accumulator left by eight bits: the index is zero and entry zero of the
table is zero. -/
theorem crc_step_top_byte (type : Nat) (conf : calc_crc_conf) (r0 k : Nat)
    (ht : type < CALC_CRC_TYPE_MAX) (htab : conf.table = build_table type conf.polynomial)
    (hp : conf.polynomial < 2 ^ crc_bits type) (hin : conf.input_reflected = false)
    (hk : 8 * (k + 1) ≤ crc_bits type) :
    crc_step type conf ((r0 <<< (8 * k)) % 2 ^ crc_bits type)
        ((r0 >>> (crc_bits type - 8 * (k + 1))) % 2 ^ 8) =
      (r0 <<< (8 * (k + 1))) % 2 ^ crc_bits type := by
  have hb : input_byte conf ((r0 >>> (crc_bits type - 8 * (k + 1))) % 2 ^ 8) =
      (r0 >>> (crc_bits type - 8 * (k + 1))) % 2 ^ 8 := by
    unfold input_byte
    simp only [hin, Bool.false_eq_true, if_false, Nat.mod_mod]
  rw [crc_step_eq_spec_table_step type conf _ _ ht htab hp (Nat.mod_lt _ (by positivity)), hb]
  unfold spec_table_step
  rw [top_byte_of_shifted _ r0 k hk, Nat.xor_self, htab, build_table_getD_zero, Nat.xor_zero,
    shifted_byte_more]

theorem crc_fold_msb_bytes (type : Nat) (conf : calc_crc_conf) (r0 : Nat)
    (ht : type < CALC_CRC_TYPE_MAX) (htab : conf.table = build_table type conf.polynomial)
    (hp : conf.polynomial < 2 ^ crc_bits type) (hin : conf.input_reflected = false)
    (hr : r0 < 2 ^ crc_bits type) (k : Nat) :
    8 * k ≤ crc_bits type →
    crc_fold type conf r0
        ((List.range k).map fun j => (r0 >>> (crc_bits type - 8 * (j + 1))) % 2 ^ 8) =
      (r0 <<< (8 * k)) % 2 ^ crc_bits type := by
  induction k with
  | zero =>
    intro _
    simp only [List.range_zero, List.map_nil, crc_fold_nil, Nat.mul_zero, Nat.shiftLeft_zero]
    exact (Nat.mod_eq_of_lt hr).symm
  | succ k ih =>
    intro hk
    rw [List.range_succ, List.map_append, crc_fold_append, ih (by omega)]
    simp only [List.map_cons, List.map_nil, crc_fold, List.foldl_cons, List.foldl_nil]
    exact crc_step_top_byte type conf r0 k ht htab hp hin hk

/-- The byte loop over the bytes of the accumulator itself, most significant first, ends at
zero. -/
theorem crc_fold_residue (type : Nat) (conf : calc_crc_conf) (r0 : Nat)
    (ht : type < CALC_CRC_TYPE_MAX) (htab : conf.table = build_table type conf.polynomial)
    (hp : conf.polynomial < 2 ^ crc_bits type) (hin : conf.input_reflected = false)
    (hr : r0 < 2 ^ crc_bits type) :
    crc_fold type conf r0 (msb_first_bytes (crc_bits type) r0) = 0 := by
  unfold msb_first_bytes
  rw [crc_fold_msb_bytes type conf r0 ht htab hp hin hr (crc_bits type / 8)
    (by rw [crc_bits_eq_eight_mul]), crc_bits_eq_eight_mul, Nat.shiftLeft_eq]
  exact Nat.mul_mod_left _ _

theorem crc_adjust_plain (type : Nat) (conf : calc_crc_conf) (acc : Nat)
    (hfin : conf.final_value = 0) (hro : conf.output_reflected = false)
    (hacc : acc < 2 ^ crc_bits type) : crc_adjust type conf acc = acc := by
  unfold crc_adjust
  simp only [hfin, hro, Nat.xor_zero, Bool.false_eq_true, if_false]
  exact Nat.mod_eq_of_lt hacc

/-- C37: zero residue on a message followed by its CRC. On a session with no update in progress
whose configuration holds the table built from its polynomial, for every type tag of width
`w`, every polynomial of the width and every initial value, with final XOR value 0 and both
reflections off: `CALC_CRC_Calculate` over a non-empty buffer `d` returns OK and writes a value
`cv`, and over `d` followed by the `w / 8` bytes of `cv`, most significant first, it returns OK
and writes 0. -/
theorem zero_residue (mem : Memory) (c : calc_crc_t) (p : Nat) (d : List Nat) (v : Nat)
    (ht : c.type < CALC_CRC_TYPE_MAX) (hp : c.conf = some p)
    (hin : c.update_in_progress = false)
    (htab : (mem p).table = build_table c.type (mem p).polynomial)
    (hpoly : (mem p).polynomial < 2 ^ crc_bits c.type)
    (hfin : (mem p).final_value = 0) (hri : (mem p).input_reflected = false)
    (hro : (mem p).output_reflected = false) (hne : d ≠ []) :
    ∃ c1 c2 cv,
      CALC_CRC_Calculate mem (some c) (some d) d.length (some v) =
        some ⟨CALC_CRC_STATUS_OK, some c1, some cv⟩ ∧
      CALC_CRC_Calculate mem (some c) (some (d ++ msb_first_bytes (crc_bits c.type) cv))
          (d.length + crc_bits c.type / 8) (some v) =
        some ⟨CALC_CRC_STATUS_OK, some c2, some 0⟩ := by
  have h0 : d.length ≠ 0 := fun h => hne (List.length_eq_zero.mp h)
  have hacc : crc_fold c.type (mem p) ((mem p).initial_value % 2 ^ crc_bits c.type) d <
      2 ^ crc_bits c.type := crc_fold_lt _ _ d _ (Nat.mod_lt _ (by positivity))
  have hcv : (calc_crc c.type c (mem p) d d.length).1 =
      crc_fold c.type (mem p) ((mem p).initial_value % 2 ^ crc_bits c.type) d := by
    rw [calc_crc_idle _ _ _ _ _ hin]
    simp only [List.take_length]
    exact crc_adjust_plain _ _ _ hfin hro hacc
  have hl : ∀ x, (d ++ msb_first_bytes (crc_bits c.type) x).length =
      d.length + crc_bits c.type / 8 := by
    intro x
    rw [List.length_append, msb_first_bytes, List.length_map, List.length_range]
  have hres : (calc_crc c.type c (mem p)
      (d ++ msb_first_bytes (crc_bits c.type) (calc_crc c.type c (mem p) d d.length).1)
      (d.length + crc_bits c.type / 8)).1 = 0 := by
    rw [calc_crc_idle _ _ _ _ _ hin]
    simp only
    rw [← hl (calc_crc c.type c (mem p) d d.length).1, List.take_length, crc_fold_append, hcv,
      crc_fold_residue c.type (mem p) _ ht htab hpoly hri hacc]
    exact crc_adjust_plain _ _ _ hfin hro (by positivity)
  refine ⟨(calc_crc c.type c (mem p) d d.length).2,
    (calc_crc c.type c (mem p)
      (d ++ msb_first_bytes (crc_bits c.type) (calc_crc c.type c (mem p) d d.length).1)
      (d.length + crc_bits c.type / 8)).2,
    (calc_crc c.type c (mem p) d d.length).1,
    calculate_eq_calc_crc mem c p d d.length v ht hp h0 (le_refl _), ?_⟩
  rw [calculate_eq_calc_crc mem c p _ (d.length + crc_bits c.type / 8) v ht hp (by omega)
    (by rw [hl]), hres]

set_option maxRecDepth 100000 in
/-- C37 on the 16-bit configuration with polynomial 0x1021 and initial value 0xFFFF:
`"123456789"` gives 0x29B1, and `"123456789"` followed by the bytes 0x29 and 0xB1 gives 0. -/
theorem zero_residue_witness :
    (∃ c1 c2 cv,
      CALC_CRC_Calculate
          (CALC_CRC_Init (mem_of (test_conf 0x1021 0xFFFF 0)) (some stale_crc) (some 1)
            CALC_CRC_TYPE_16BIT).mem
          (some { conf := some 1, update_crc := 0, update_crc_final := 0, update_chunk := 0,
                  type := CALC_CRC_TYPE_16BIT, update_in_progress := false })
          (some check_data) check_data.length (some 7) =
        some ⟨CALC_CRC_STATUS_OK, some c1, some cv⟩ ∧
      CALC_CRC_Calculate
          (CALC_CRC_Init (mem_of (test_conf 0x1021 0xFFFF 0)) (some stale_crc) (some 1)
            CALC_CRC_TYPE_16BIT).mem
          (some { conf := some 1, update_crc := 0, update_crc_final := 0, update_chunk := 0,
                  type := CALC_CRC_TYPE_16BIT, update_in_progress := false })
          (some (check_data ++ msb_first_bytes (crc_bits CALC_CRC_TYPE_16BIT) cv))
          (check_data.length + crc_bits CALC_CRC_TYPE_16BIT / 8) (some 7) =
        some ⟨CALC_CRC_STATUS_OK, some c2, some 0⟩) ∧
    CALC_CRC_Calculate
        (CALC_CRC_Init (mem_of (test_conf 0x1021 0xFFFF 0)) (some stale_crc) (some 1)
          CALC_CRC_TYPE_16BIT).mem
        (some { conf := some 1, update_crc := 0, update_crc_final := 0, update_chunk := 0,
                type := CALC_CRC_TYPE_16BIT, update_in_progress := false })
        (some check_data) check_data.length (some 7) =
      some ⟨CALC_CRC_STATUS_OK,
        some { conf := some 1, update_crc := 0x29B1, update_crc_final := 0x29B1,
               update_chunk := 0, type := CALC_CRC_TYPE_16BIT, update_in_progress := false },
        some 0x29B1⟩ ∧
    msb_first_bytes 16 0x29B1 = [0x29, 0xB1] :=
  ⟨zero_residue
      (CALC_CRC_Init (mem_of (test_conf 0x1021 0xFFFF 0)) (some stale_crc) (some 1)
        CALC_CRC_TYPE_16BIT).mem
      { conf := some 1, update_crc := 0, update_crc_final := 0, update_chunk := 0,
        type := CALC_CRC_TYPE_16BIT, update_in_progress := false }
      1 check_data 7 (by decide) rfl rfl (by decide)
      (by simp [mem_of, test_conf, crc_bits, CALC_CRC_TYPE_16BIT, CALC_CRC_TYPE_8BIT,
        CALC_CRC_Init, CALC_CRC_TYPE_MAX])
      rfl rfl rfl (by decide),
    by decide, by decide⟩

/-! ## Finalize on a session in progress (C4) -/

theorem calc_crc_final_adjusted (type : Nat) (c : calc_crc_t) (conf : calc_crc_conf)
    (d : List Nat) (length : Nat) :
    (calc_crc type c conf d length).2.update_crc_final =
      crc_adjust type conf (calc_crc type c conf d length).2.update_crc := by
  simp only [calc_crc]

/-- Every call keeps `update_crc_final` the final adjustment of `update_crc` while an update
is in progress. -/
theorem api_step_adjusted_inv (s s' : api_state) (call : api_call) (st : calc_crc_status_e)
    (h : api_step s call = some (st, s')) (hinv : adjusted_inv s) : adjusted_inv s' := by
  cases call with
  | init crc conf type =>
    simp only [api_step, Option.some.injEq, Prod.mk.injEq] at h
    obtain ⟨_, rfl⟩ := h
    cases crc with
    | false => simpa [CALC_CRC_Init] using hinv
    | true =>
      cases conf with
      | none => simpa [CALC_CRC_Init] using hinv
      | some p =>
        by_cases ht : CALC_CRC_TYPE_MAX ≤ type
        · simpa [CALC_CRC_Init, ht] using hinv
        · simp only [↓reduceIte]
          rw [init_eq s.mem s.crc p type (by omega)]
          intro hin
          simp at hin
  | calculate crc data length result =>
    simp only [api_step, Option.map_eq_some', Prod.mk.injEq] at h
    obtain ⟨r, hr, _, rfl⟩ := h
    cases crc with
    | false =>
      simp [CALC_CRC_Calculate] at hr
      subst hr
      exact hinv
    | true =>
      simp only [if_true] at hr
      by_cases hs : r.status = CALC_CRC_STATUS_OK
      · obtain ⟨p, d, hp, _, _, _, _, hc⟩ :=
          calculate_ok_crc s.mem s.crc data length result r hr hs
        obtain ⟨h1, h2, _⟩ := calc_crc_frame s.crc.type s.crc (s.mem p) d length
        intro _
        refine ⟨p, ?_, ?_⟩
        · simp only [hc, Option.getD_some, h1]; exact hp
        · simp only [hc, Option.getD_some, h2]
          exact calc_crc_final_adjusted _ _ _ _ _
      · rw [(calculate_fail_unchanged s.mem _ data length result r hr hs).1]
        exact hinv
  | update crc data length =>
    simp only [api_step, Option.map_eq_some', Prod.mk.injEq] at h
    obtain ⟨r, hr, _, rfl⟩ := h
    cases crc with
    | false =>
      simp [CALC_CRC_Update] at hr
      subst hr
      exact hinv
    | true =>
      simp only [if_true] at hr
      by_cases hs : r.status = CALC_CRC_STATUS_OK
      · obtain ⟨p, d, hp, _, _, _, _, hc⟩ := update_ok_crc s.mem s.crc data length r hr hs
        obtain ⟨h1, h2, _⟩ := calc_crc_frame s.crc.type
          (if s.crc.update_in_progress = false then
            { s.crc with update_crc := 0, update_chunk := 0, update_in_progress := true }
          else s.crc) (s.mem p) d length
        have h1' : (if s.crc.update_in_progress = false then
            { s.crc with update_crc := 0, update_chunk := 0, update_in_progress := true }
          else s.crc).conf = s.crc.conf := by split_ifs <;> rfl
        have h2' : (if s.crc.update_in_progress = false then
            { s.crc with update_crc := 0, update_chunk := 0, update_in_progress := true }
          else s.crc).type = s.crc.type := by split_ifs <;> rfl
        intro _
        refine ⟨p, ?_, ?_⟩
        · simp only [hc, Option.getD_some, h1, h1']; exact hp
        · simp only [hc, Option.getD_some, h2, h2']
          exact calc_crc_final_adjusted _ _ _ _ _
      · rw [update_fail_unchanged s.mem _ data length r hr hs]
        exact hinv
  | finalize crc result =>
    simp only [api_step, Option.some.injEq, Prod.mk.injEq] at h
    obtain ⟨_, rfl⟩ := h
    cases crc with
    | false => simpa [CALC_CRC_Finalize] using hinv
    | true =>
      cases result with
      | none => simpa [CALC_CRC_Finalize] using hinv
      | some out =>
        by_cases hin : s.crc.update_in_progress = false
        · simpa [CALC_CRC_Finalize, hin] using hinv
        · intro hin'
          simp [CALC_CRC_Finalize, hin] at hin'

theorem api_run_adjusted_inv (calls : List api_call) :
    ∀ (s s' : api_state) (statuses : List calc_crc_status_e),
      api_run s calls = some (statuses, s') → adjusted_inv s → adjusted_inv s' := by
  induction calls with
  | nil =>
    intro s s' statuses h hinv
    simp only [api_run, Option.some.injEq, Prod.mk.injEq] at h
    obtain ⟨_, rfl⟩ := h
    exact hinv
  | cons call rest ih =>
    intro s s' statuses h hinv
    simp only [api_run] at h
    cases h1 : api_step s call with
    | none => simp [h1] at h
    | some q =>
      obtain ⟨st, s1⟩ := q
      simp only [h1] at h
      cases h2 : api_run s1 rest with
      | none => simp [h2] at h
      | some q2 =>
        obtain ⟨sts, s2⟩ := q2
        simp only [h2, Option.some.injEq, Prod.mk.injEq] at h
        obtain ⟨_, rfl⟩ := h
        exact ih s1 s2 sts h2 (api_step_adjusted_inv s s1 call st h1 hinv)

/-- In every state a sequence of calls reaches after a `CALC_CRC_Init` that returned OK, while
an update is in progress `update_crc_final` is the final adjustment of `update_crc`. -/
theorem api_reachable_adjusted_inv (s0 s : api_state) (crc : Bool) (conf : Option Nat)
    (type : Nat) (calls : List api_call) (statuses : List calc_crc_status_e)
    (hrun : api_run s0 (api_call.init crc conf type :: calls) =
      some (CALC_CRC_STATUS_OK :: statuses, s)) : adjusted_inv s := by
  simp only [api_run] at hrun
  cases h1 : api_step s0 (api_call.init crc conf type) with
  | none => simp [h1] at hrun
  | some q =>
    obtain ⟨st, s1⟩ := q
    simp only [h1] at hrun
    cases h2 : api_run s1 calls with
    | none => simp [h2] at hrun
    | some q2 =>
      obtain ⟨sts, s2⟩ := q2
      simp only [h2, Option.some.injEq, Prod.mk.injEq, List.cons.injEq] at hrun
      obtain ⟨⟨rfl, rfl⟩, rfl⟩ := hrun
      have hflag := api_step_in_progress s0 s1 _ _ h1
      have h0 : adjusted_inv s1 := by
        intro hin
        rw [hflag] at hin
        simp [in_progress_after, is_reset, is_init_or_finalize] at hin
      exact api_run_adjusted_inv calls s1 s2 sts h2 h0

/-- C4: finalize success. In every state that a sequence of calls reaches after a
`CALC_CRC_Init` that returned OK, if the session has `update_in_progress = true` then
`CALC_CRC_Finalize` with a present result returns OK, writes `update_crc_final` truncated to the
width of the session's type tag, clears `update_in_progress` and leaves `update_crc`,
`update_crc_final`, `update_chunk`, the config handle and the type tag as they were; the
truncation loses nothing, and `update_crc_final` is the final adjustment (XOR with the final
value, then the output reflection) of the accumulator `update_crc` that the most recent
successful update or calculate left. -/
theorem finalize_success (s0 s : api_state) (crc : Bool) (conf : Option Nat) (type : Nat)
    (calls : List api_call) (statuses : List calc_crc_status_e) (out : Nat)
    (hrun : api_run s0 (api_call.init crc conf type :: calls) =
      some (CALC_CRC_STATUS_OK :: statuses, s))
    (hin : s.crc.update_in_progress = true) :
    CALC_CRC_Finalize (some s.crc) (some out) =
      ⟨CALC_CRC_STATUS_OK,
        some { conf := s.crc.conf, update_crc := s.crc.update_crc,
               update_crc_final := s.crc.update_crc_final, update_chunk := s.crc.update_chunk,
               type := s.crc.type, update_in_progress := false },
        some (s.crc.update_crc_final % 2 ^ crc_bits s.crc.type)⟩ ∧
    s.crc.update_crc_final % 2 ^ crc_bits s.crc.type = s.crc.update_crc_final ∧
    ∃ p, s.crc.conf = some p ∧
      s.crc.update_crc_final = crc_adjust s.crc.type (s.mem p) s.crc.update_crc := by
  have hinv := api_reachable_inv s0 s crc conf type calls statuses hrun
  obtain ⟨p, hp, hadj⟩ := api_reachable_adjusted_inv s0 s crc conf type calls statuses hrun hin
  refine ⟨finalize_eq s.crc out hinv.2.1 hin, ?_, p, hp, hadj⟩
  rw [hadj]
  exact Nat.mod_eq_of_lt (crc_adjust_lt _ _ _)

/-- C4 on the 8-bit configuration of the tests: after init and the updates over `"12345"` and
`"6789"`, finalize returns OK, writes 0x04 and clears the flag, the counter staying at 2. -/
theorem finalize_success_witness :
    ∃ s, api_run test_state
        [api_call.init true (some 1) CALC_CRC_TYPE_8BIT,
         api_call.update true (some [0x31, 0x32, 0x33, 0x34, 0x35]) 5,
         api_call.update true (some [0x36, 0x37, 0x38, 0x39]) 4] =
        some ([CALC_CRC_STATUS_OK, CALC_CRC_STATUS_OK, CALC_CRC_STATUS_OK], s) ∧
      s.crc.update_in_progress = true ∧
      CALC_CRC_Finalize (some s.crc) (some 0x55) =
        ⟨CALC_CRC_STATUS_OK,
          some { conf := some 1, update_crc := 0xFB, update_crc_final := 0x04,
                 update_chunk := 2, type := CALC_CRC_TYPE_8BIT, update_in_progress := false },
          some 0x04⟩ := by
  have hrun : api_run test_state
      [api_call.init true (some 1) CALC_CRC_TYPE_8BIT,
       api_call.update true (some [0x31, 0x32, 0x33, 0x34, 0x35]) 5,
       api_call.update true (some [0x36, 0x37, 0x38, 0x39]) 4] =
      some ([CALC_CRC_STATUS_OK, CALC_CRC_STATUS_OK, CALC_CRC_STATUS_OK],
        ⟨(CALC_CRC_Init test_state.mem (some test_state.crc) (some 1) CALC_CRC_TYPE_8BIT).mem,
          { conf := some 1, update_crc := 0xFB, update_crc_final := 0x04, update_chunk := 2,
            type := CALC_CRC_TYPE_8BIT, update_in_progress := true }⟩) := rfl
  exact ⟨_, hrun, rfl,
    (finalize_success test_state _ true (some 1) CALC_CRC_TYPE_8BIT _ _ 0x55 hrun rfl).1⟩

end CalcCrc
